import Mathlib

/-!
# ClawMark trust-state engine: embedding and verified properties

A shallow embedding of the route handlers and the Moltbook bridge service of
the ClawMark API (`src/api/src/routes/*.js`, `src/api/src/services/moltbook.js`).

* JavaScript values that reach the handlers from a parsed request body are
  embedded as `JsVal` (the JSON scalars and the absent field `undefined`).
* A JavaScript number is `JsNum`: `NaN`, the two infinities, or a finite
  number given by its exact rational value.  Comparisons, `Math.floor`,
  `Math.min` and `Math.max` are exact on these and are defined here.
* Built-ins whose semantics are not part of the repository (string to number
  conversion, number to string conversion, the `Date` constructor, binary64
  arithmetic) are taken as the fields of a `JsRuntime`.  The runtime `binary64`
  fills in the arithmetic: each operator rounds the exact result to the nearest
  binary64 value, ties to even.
* A `Map` is an association list in insertion order.
* The clock (`Date.now()`, `new Date()`) is an explicit argument in
  milliseconds; `Math.random` output is an explicit argument.
* The answer of the external platform to a request is an explicit argument of the
  function that issues the request.
* A handler runs as one step: from the state before the request to the state after it
  and the response.  A pending `setTimeout` is an entry of the state and its firing is
  a step of its own.
-/

namespace ClawMark

/-! ## JavaScript numbers and values -/

/-- A JavaScript number: NaN, an infinity, or a finite value (by its exact rational value). -/
inductive JsNum where
  | nan
  | negInf
  | fin (q : ℚ)
  | posInf
  deriving DecidableEq

namespace JsNum

/-- The operator `a < b` on numbers; false as soon as one side is NaN. -/
def lt : JsNum → JsNum → Bool
  | nan, _ => false
  | _, nan => false
  | negInf, negInf => false
  | negInf, _ => true
  | fin _, negInf => false
  | fin a, fin b => decide (a < b)
  | fin _, posInf => true
  | posInf, _ => false

/-- The operator `a <= b` on numbers; false as soon as one side is NaN. -/
def le : JsNum → JsNum → Bool
  | nan, _ => false
  | _, nan => false
  | negInf, _ => true
  | fin _, negInf => false
  | fin a, fin b => decide (a ≤ b)
  | fin _, posInf => true
  | posInf, posInf => true
  | posInf, _ => false

/-- The operator `a > b`. -/
def gt (a b : JsNum) : Bool := lt b a

/-- The operator `a >= b`. -/
def ge (a b : JsNum) : Bool := le b a

/-- The function `Math.min(a, b)`: NaN if either argument is NaN. -/
def min (a b : JsNum) : JsNum :=
  match a, b with
  | nan, _ => nan
  | _, nan => nan
  | a, b => if le a b then a else b

/-- The function `Math.max(a, b)`: NaN if either argument is NaN. -/
def max (a b : JsNum) : JsNum :=
  match a, b with
  | nan, _ => nan
  | _, nan => nan
  | a, b => if le a b then b else a

/-- The function `Math.floor`. -/
def floor : JsNum → JsNum
  | fin q => fin (⌊q⌋ : ℤ)
  | n => n

/-- Truthiness of a number: every number but `0` and NaN. -/
def truthy : JsNum → Bool
  | nan => false
  | fin q => decide (q ≠ 0)
  | _ => true

end JsNum

/-- A value read from a parsed request body: an absent field or a JSON scalar. -/
inductive JsVal where
  | undefined
  | null
  | bool (b : Bool)
  | num (n : JsNum)
  | str (s : String)
  deriving DecidableEq

/-- A `Date` object: a time value in milliseconds, or `Invalid Date`. -/
inductive JsDate where
  | time (ms : ℤ)
  | invalid
  deriving DecidableEq

/-- Built-ins of the language that the repository relies on but does not define. -/
structure JsRuntime where
  /-- Conversion of a string to a number, as done by the relational and arithmetic operators. -/
  stringToNumber : String → JsNum
  /-- The operator `a < b` on two strings (code unit order). -/
  stringLt : String → String → Bool
  /-- Conversion of a number to a string, as done by a template literal. -/
  numberToString : JsNum → String
  /-- The call `new Date(v)` for a truthy body value `v`. -/
  newDate : JsVal → JsDate
  /-- The call `new Date(v).getTime()` for a profile field `v`. -/
  dateGetTime : JsVal → JsNum
  /-- Binary64 addition. -/
  add : JsNum → JsNum → JsNum
  /-- Binary64 subtraction. -/
  sub : JsNum → JsNum → JsNum
  /-- Binary64 multiplication. -/
  mul : JsNum → JsNum → JsNum
  /-- Binary64 division. -/
  div : JsNum → JsNum → JsNum

namespace JsVal

/-- Truthiness, as tested by `!v`, `v || w`, `v && w` and `if (v)`. -/
def truthy : JsVal → Bool
  | undefined => false
  | null => false
  | bool b => b
  | num n => n.truthy
  | str s => decide (s ≠ "")

/-- The expression `v || w`. -/
def orElse (v w : JsVal) : JsVal := if v.truthy then v else w

/-- The abstract operation ToNumber. -/
def toNumber (R : JsRuntime) : JsVal → JsNum
  | undefined => .nan
  | null => .fin 0
  | bool b => if b then .fin 1 else .fin 0
  | num n => n
  | str s => R.stringToNumber s

/-- The operator `v < w`: string order when both sides are strings, numeric otherwise. -/
def lt (R : JsRuntime) : JsVal → JsVal → Bool
  | str a, str b => R.stringLt a b
  | v, w => JsNum.lt (v.toNumber R) (w.toNumber R)

/-- The operator `v > w`. -/
def gt (R : JsRuntime) (v w : JsVal) : Bool := lt R w v

/-- The abstract operation ToString, as applied by a template literal. -/
def toStr (R : JsRuntime) : JsVal → String
  | undefined => "undefined"
  | null => "null"
  | bool b => if b then "true" else "false"
  | num n => R.numberToString n
  | str s => s

end JsVal

/-! ## Keyed stores (`Map`) -/

/-- A `Map`: its entries in insertion order. -/
abbrev JsMap (κ : Type) (α : Type) := List (κ × α)

namespace JsMap

variable {κ α : Type} [DecidableEq κ]

/-- The method `Map.prototype.get`. -/
def get (m : JsMap κ α) (k : κ) : Option α :=
  (m.find? (fun e => decide (e.1 = k))).map Prod.snd

/-- The method `Map.prototype.has`. -/
def has (m : JsMap κ α) (k : κ) : Bool :=
  m.any (fun e => decide (e.1 = k))

/-- The method `Map.prototype.set`: an existing key keeps its position, a new key goes last. -/
def set (m : JsMap κ α) (k : κ) (v : α) : JsMap κ α :=
  if has m k then m.map (fun e => if e.1 = k then (k, v) else e) else m ++ [(k, v)]

/-- The method `Map.prototype.delete`. -/
def delete (m : JsMap κ α) (k : κ) : JsMap κ α :=
  m.filter (fun e => !decide (e.1 = k))

/-- The values of the map in insertion order (`Array.from(m.values())`). -/
def values (m : JsMap κ α) : List α := m.map Prod.snd

end JsMap

/-! ## Reputation routes (`routes/reputation.js`) -/

/-- An inclusive score range of the tier table. -/
structure TierRange where
  min : ℤ
  max : ℤ
  deriving DecidableEq

/-- The constant `TIERS`, as the entry list `Object.entries(TIERS)` in key order. -/
def TIERS : List (String × TierRange) :=
  [("unrated", ⟨0, 199⟩),
   ("bronze", ⟨200, 399⟩),
   ("silver", ⟨400, 699⟩),
   ("gold", ⟨700, 899⟩),
   ("platinum", ⟨900, 1000⟩)]

/-- The loop condition `score >= range.min && score <= range.max`. -/
def inRange (R : JsRuntime) (score : JsVal) (range : TierRange) : Bool :=
  JsNum.ge (score.toNumber R) (.fin range.min) && JsNum.le (score.toNumber R) (.fin range.max)

/-- The function `calculateTier`: the first entry of `TIERS` whose range holds the score,
and `unrated` when the loop falls through. -/
def calculateTier (R : JsRuntime) (score : JsVal) : String :=
  match TIERS.find? (fun e => inRange R score e.2) with
  | some e => e.1
  | none => "unrated"

/-- An integer score as a request value. -/
def JsVal.ofInt (s : ℤ) : JsVal := .num (.fin (s : ℚ))


/-- The operator `a - b` on numbers.  When both operands and their difference are integers of
magnitude at most 2^53 the binary64 result is the exact difference; otherwise it is the
rounded result supplied by the runtime. -/
def numSub (R : JsRuntime) (a b : JsNum) : JsNum :=
  match a, b with
  | .fin x, .fin y =>
    if x.isInt && y.isInt && decide (|x| ≤ 2 ^ 53) && decide (|y| ≤ 2 ^ 53)
        && decide (|x - y| ≤ 2 ^ 53) then .fin (x - y)
    else R.sub a b
  | _, _ => R.sub a b

/-- A runtime with exact arithmetic on finite numbers, used to instantiate statements at
concrete inputs. -/
def witnessRuntime : JsRuntime where
  stringToNumber := fun _ => .nan
  stringLt := fun a b => decide (a < b)
  numberToString := fun _ => "0"
  newDate := fun v => match v with
    | .num (.fin q) => if q.isInt then .time q.num else .invalid
    | _ => .invalid
  dateGetTime := fun v => match v with
    | .num (.fin q) => if q.isInt then .fin q else .nan
    | _ => .nan
  add := fun a b => match a, b with
    | .fin x, .fin y => .fin (x + y)
    | _, _ => .nan
  sub := fun a b => match a, b with
    | .fin x, .fin y => .fin (x - y)
    | _, _ => .nan
  mul := fun a b => match a, b with
    | .fin x, .fin y => .fin (x * y)
    | _, _ => .nan
  div := fun a b => match a, b with
    | .fin x, .fin y => if y = 0 then .nan else .fin (x / y)
    | _, _ => .nan

namespace ReputationRoutes

/-- The `metrics` object of a reputation record. -/
structure Metrics where
  reliability : JsVal
  taskCompletion : JsVal
  security : JsVal
  timeliness : JsVal
  peerEndorsements : JsVal
  deriving DecidableEq

/-- The `interactions` object of a reputation record. -/
structure Interactions where
  total : JsVal
  successful : JsVal
  disputed : JsNum
  failed : JsNum
  deriving DecidableEq

/-- A record of `reputationStore`. -/
structure Reputation where
  did : String
  score : JsVal
  maxScore : ℤ
  tier : String
  metrics : Metrics
  interactions : Interactions
  updatedAt : Option ℕ
  deriving DecidableEq

/-- The fields read from the body of `POST /:did`; an omitted field is `undefined`. -/
structure UpdateBody where
  score : JsVal
  reliability : JsVal
  taskCompletion : JsVal
  security : JsVal
  timeliness : JsVal
  peerEndorsements : JsVal
  totalInteractions : JsVal
  successfulInteractions : JsVal
  deriving DecidableEq

/-- The response of `POST /:did`. -/
structure UpdateReply where
  status : ℕ
  error : Option String := none
  did : Option String := none
  score : Option JsVal := none
  tier : Option String := none
  updatedAt : Option ℕ := none
  message : Option String := none
  deriving DecidableEq

/-- The store `reputationStore`. -/
abbrev Store := JsMap String Reputation

/-- The handler of `POST /:did`: validation, tier computation, wholesale overwrite. -/
def postDid (R : JsRuntime) (store : Store) (did : String) (body : UpdateBody) (now : ℕ) :
    Store × UpdateReply :=
  if JsNum.lt (body.score.toNumber R) (.fin 0) || JsNum.gt (body.score.toNumber R) (.fin 1000) then
    (store, { status := 400, error := some "Score must be between 0 and 1000" })
  else
    let tier := calculateTier R body.score
    let zero : JsVal := .num (.fin 0)
    let reputation : Reputation :=
      { did := did
        score := body.score
        maxScore := 1000
        tier := tier
        metrics :=
          { reliability := body.reliability.orElse zero
            taskCompletion := body.taskCompletion.orElse zero
            security := body.security.orElse zero
            timeliness := body.timeliness.orElse zero
            peerEndorsements := body.peerEndorsements.orElse zero }
        interactions :=
          { total := body.totalInteractions.orElse zero
            successful := body.successfulInteractions.orElse zero
            disputed := .fin 0
            failed := numSub R ((body.totalInteractions.orElse zero).toNumber R)
              ((body.successfulInteractions.orElse zero).toNumber R) }
        updatedAt := some now }
    (JsMap.set store did reputation,
      { status := 200, did := some did, score := some body.score, tier := some tier,
        updatedAt := some now, message := some "Reputation updated successfully" })

/-- The store after a sequence of `POST /:did` requests, each with its own clock reading. -/
def runUpdates (R : JsRuntime) (store : Store) : List (String × UpdateBody × ℕ) → Store
  | [] => store
  | (did, body, now) :: rest => runUpdates R (postDid R store did body now).1 rest

/-- The request body `\x7b\x7d`: every field omitted. -/
def emptyBody : UpdateBody :=
  ⟨.undefined, .undefined, .undefined, .undefined, .undefined, .undefined, .undefined, .undefined⟩

/-- The stated invariant of a record: an integer score in [0,1000] whose tier is the entry of
`TIERS` that contains it. -/
def RecordOk (rec : Reputation) : Prop :=
  ∃ s : ℤ, rec.score = JsVal.ofInt s ∧ 0 ≤ s ∧ s ≤ 1000 ∧
    ∃ e ∈ TIERS, e.1 = rec.tier ∧ e.2.min ≤ s ∧ s ≤ e.2.max

end ReputationRoutes

/-! ## Credential routes (`routes/credentials.js`) -/

namespace CredentialRoutes

/-- A record of `credentialStore`.  The fields `revokedAt` and `revocationReason` do not exist
until the anchor is revoked. -/
structure Anchor where
  credentialHash : JsVal
  didHash : JsVal
  credentialType : JsVal
  issuedAt : ℕ
  expiresAt : Option JsDate
  revoked : Bool
  revokedAt : Option ℕ := none
  revocationReason : Option JsVal := none
  deriving DecidableEq

/-- The store `credentialStore`, keyed by credential hash. -/
abbrev Store := JsMap JsVal Anchor

/-- The fields read from the body of `POST /anchor`. -/
structure AnchorBody where
  credentialHash : JsVal
  didHash : JsVal
  credentialType : JsVal
  expiresAt : JsVal
  deriving DecidableEq

/-- The response of `POST /anchor`. -/
structure AnchorReply where
  status : ℕ
  error : Option String := none
  credentialHash : Option JsVal := none
  anchorStatus : Option String := none
  issuedAt : Option ℕ := none
  message : Option String := none
  deriving DecidableEq

/-- The handler of `POST /anchor`. -/
def postAnchor (R : JsRuntime) (store : Store) (body : AnchorBody) (now : ℕ) :
    Store × AnchorReply :=
  if !body.credentialHash.truthy || !body.didHash.truthy || !body.credentialType.truthy then
    (store, { status := 400,
              error := some "Missing required fields: credentialHash, didHash, credentialType" })
  else if JsMap.has store body.credentialHash then
    (store, { status := 409, error := some "Credential already anchored",
              credentialHash := some body.credentialHash })
  else
    let anchor : Anchor :=
      { credentialHash := body.credentialHash
        didHash := body.didHash
        credentialType := body.credentialType
        issuedAt := now
        expiresAt := if body.expiresAt.truthy then some (R.newDate body.expiresAt) else none
        revoked := false }
    (JsMap.set store body.credentialHash anchor,
      { status := 201, credentialHash := some body.credentialHash,
        anchorStatus := some "anchored", issuedAt := some anchor.issuedAt,
        message := some "Credential anchored successfully" })

/-- The test `anchor.expiresAt && new Date() > anchor.expiresAt`; a comparison with an
invalid date is false. -/
def isExpired (anchor : Anchor) (now : ℕ) : Bool :=
  match anchor.expiresAt with
  | none => false
  | some (.time ms) => decide (ms < (now : ℤ))
  | some .invalid => false

/-- The response of `POST /verify`. -/
structure VerifyReply where
  status : ℕ
  error : Option String := none
  valid : Option Bool := none
  reason : Option String := none
  anchoredAt : Option ℕ := none
  expiredAt : Option JsDate := none
  expiresAt : Option (Option JsDate) := none
  didHash : Option JsVal := none
  type : Option JsVal := none
  deriving DecidableEq

/-- The handler of `POST /verify`: revocation is tested before expiration. -/
def postVerify (store : Store) (credentialHash : JsVal) (now : ℕ) : VerifyReply :=
  if !credentialHash.truthy then
    { status := 400, error := some "credentialHash required" }
  else
    match JsMap.get store credentialHash with
    | none => { status := 404, valid := some false, reason := some "Credential not found" }
    | some anchor =>
      if anchor.revoked then
        { status := 200, valid := some false, reason := some "Credential revoked",
          anchoredAt := some anchor.issuedAt }
      else if isExpired anchor now then
        { status := 200, valid := some false, reason := some "Credential expired",
          anchoredAt := some anchor.issuedAt, expiredAt := anchor.expiresAt }
      else
        { status := 200, valid := some true, reason := some "Valid",
          anchoredAt := some anchor.issuedAt, expiresAt := some anchor.expiresAt,
          didHash := some anchor.didHash, type := some anchor.credentialType }

/-- The fields read from the body of `POST /revoke`. -/
structure RevokeBody where
  credentialHash : JsVal
  reason : JsVal
  deriving DecidableEq

/-- The response of `POST /revoke`. -/
structure RevokeReply where
  status : ℕ
  error : Option String := none
  credentialHash : Option JsVal := none
  revokeStatus : Option String := none
  revokedAt : Option ℕ := none
  reason : Option JsVal := none
  deriving DecidableEq

/-- The handler of `POST /revoke`: the stored anchor is updated in place. -/
def postRevoke (store : Store) (body : RevokeBody) (now : ℕ) : Store × RevokeReply :=
  if !body.credentialHash.truthy then
    (store, { status := 400, error := some "credentialHash required" })
  else
    match JsMap.get store body.credentialHash with
    | none => (store, { status := 404, error := some "Credential not found" })
    | some anchor =>
      let reason := body.reason.orElse (.str "No reason provided")
      let anchor1 : Anchor :=
        { anchor with revoked := true, revokedAt := some now, revocationReason := some reason }
      (JsMap.set store body.credentialHash anchor1,
        { status := 200, credentialHash := some body.credentialHash,
          revokeStatus := some "revoked", revokedAt := some now, reason := some reason })

/-- A request to the credential router that can change the store. -/
inductive Request where
  | anchor (body : AnchorBody)
  | revoke (body : RevokeBody)

/-- The store after one request. -/
def step (R : JsRuntime) (store : Store) (req : Request) (now : ℕ) : Store :=
  match req with
  | .anchor body => (postAnchor R store body now).1
  | .revoke body => (postRevoke store body now).1

/-- The stores reachable from the empty store by anchor and revoke requests (verify and
list requests do not write to the store). -/
inductive Reachable (R : JsRuntime) : Store → Prop where
  | empty : Reachable R []
  | step {store : Store} (req : Request) (now : ℕ) :
      Reachable R store → Reachable R (step R store req now)

/-- A sample anchor request: hash `h1` for `d1`, expiring at time 5. -/
def sampleAnchorBody : AnchorBody :=
  { credentialHash := .str "h1", didHash := .str "d1", credentialType := .str "kyc",
    expiresAt := .num (.fin 5) }

/-- A sample store: `h1` anchored at time 1. -/
def sampleStore : Store := step witnessRuntime [] (.anchor sampleAnchorBody) 1

/-- A sample store: `h1` anchored at time 1 and revoked at time 2. -/
def sampleRevokedStore : Store :=
  step witnessRuntime sampleStore (.revoke { credentialHash := .str "h1", reason := .undefined }) 2

/-- A second request for the hash `h1` that carries no `didHash`. -/
def sampleIncompleteBody : AnchorBody :=
  { credentialHash := .str "h1", didHash := .undefined, credentialType := .str "kyc",
    expiresAt := .undefined }

/-- A second request for the hash `h1` with another `didHash`, type and expiry. -/
def sampleSecondBody : AnchorBody :=
  { credentialHash := .str "h1", didHash := .str "d2", credentialType := .str "aml",
    expiresAt := .num (.fin 99) }

end CredentialRoutes

/-! ## Moltbook bridge (`services/moltbook.js`) -/

namespace MoltbookBridge

/-- A post returned by the platform; `content` is `none` when the field is absent or null. -/
structure Post where
  content : Option String
  deriving DecidableEq

/-- The parsed body of the posts response: an object with a `posts` list, a bare list, or an
object without `posts` (on which `posts.some` raises the given `TypeError` message). -/
inductive PostsData where
  | withPosts (posts : List Post)
  | array (posts : List Post)
  | plain (typeError : String)
  deriving DecidableEq

/-- The outcome of `fetch` for the posts of a user: an exception (network failure or a body
that does not parse), a response that is not 2xx, or a 2xx response with its parsed body. -/
inductive PostsFetch where
  | threw (message : String)
  | notOk (status : ℕ)
  | ok (data : PostsData)
  deriving DecidableEq

/-- The object returned by `verifyOwnership`. -/
structure OwnershipResult where
  verified : Bool
  error : Option String := none
  checkedAt : Option ℕ := none
  postsChecked : Option ℕ := none
  deriving DecidableEq

/-- The method `String.prototype.includes`: `t` occurs in `s` as a contiguous substring.
Strings are sequences of Unicode scalar values; on such strings an occurrence of code units is
an occurrence of characters. -/
def includes (s t : String) : Bool := decide (t.data <:+: s.data)

/-- The callback `post => post.content && post.content.includes(challenge)`, as a truth value. -/
def postMatches (challenge : String) (post : Post) : Bool :=
  match post.content with
  | none => false
  | some content => decide (content ≠ "") && includes content challenge

/-- The method `verifyOwnership`, given the outcome of its posts request. -/
def verifyOwnership (_username : JsVal) (challenge : String) (fetch : PostsFetch) (now : ℕ) :
    OwnershipResult :=
  match fetch with
  | .threw message => { verified := false, error := some message }
  | .notOk _ => { verified := false, error := some "Could not fetch posts" }
  | .ok (.plain typeError) => { verified := false, error := some typeError }
  | .ok (.withPosts posts) =>
    { verified := posts.any (postMatches challenge), checkedAt := some now,
      postsChecked := some posts.length }
  | .ok (.array posts) =>
    { verified := posts.any (postMatches challenge), checkedAt := some now,
      postsChecked := some posts.length }

/-- The object returned by `generateChallenge`. -/
structure Challenge where
  challenge : String
  nonce : String
  timestamp : ℕ
  expiresAt : ℕ
  instructions : String
  deriving DecidableEq

/-- The method `generateChallenge`; `nonce` is the random string and `timestamp` the clock. -/
def generateChallenge (R : JsRuntime) (username : JsVal) (nonce : String) (timestamp : ℕ) :
    Challenge :=
  let challenge :=
    "clawmark-verify:" ++ username.toStr R ++ ":" ++ nonce ++ ":" ++ toString timestamp
  { challenge := challenge
    nonce := nonce
    timestamp := timestamp
    expiresAt := timestamp + 15 * 60 * 1000
    instructions := "Post this exact string to Moltbook: \"" ++ challenge ++ "\"" }

/-- The parsed body of the profile response. -/
structure ProfileData where
  username : JsVal
  displayName : JsVal
  bio : JsVal
  avatar : JsVal
  createdAt : JsVal
  followersCount : JsVal
  followingCount : JsVal
  postsCount : JsVal
  verified : JsVal
  deriving DecidableEq

/-- The outcome of `fetch` for the profile of a user. -/
inductive ProfileFetch where
  | threw (message : String)
  | notOk (status : ℕ)
  | ok (data : ProfileData)
  deriving DecidableEq

/-- The profile object returned by `getAgent` when `found` is true. -/
structure Agent where
  username : JsVal
  displayName : JsVal
  bio : JsVal
  avatar : JsVal
  createdAt : JsVal
  followers : JsVal
  following : JsVal
  posts : JsVal
  verified : JsVal
  platform : String
  deriving DecidableEq

/-- The object returned by `getAgent`. -/
inductive AgentResult where
  | notFound (error : String)
  | found (agent : Agent)
  deriving DecidableEq

/-- The method `getAgent`, given the outcome of its profile request. -/
def getAgent (fetch : ProfileFetch) : AgentResult :=
  match fetch with
  | .threw message => .notFound message
  | .notOk status =>
    if status = 404 then .notFound "Agent not found on Moltbook"
    else .notFound ("Moltbook API error: " ++ toString status)
  | .ok data =>
    .found
      { username := data.username
        displayName := data.displayName.orElse data.username
        bio := data.bio
        avatar := data.avatar
        createdAt := data.createdAt
        followers := data.followersCount.orElse (.num (.fin 0))
        following := data.followingCount.orElse (.num (.fin 0))
        posts := data.postsCount.orElse (.num (.fin 0))
        verified := data.verified.orElse (.bool false)
        platform := "moltbook" }

/-- The block `Determine tier` of `getReputationMetrics`, applied to a score. -/
def determineTier (score : JsNum) : String :=
  if JsNum.ge score (.fin 800) then "platinum"
  else if JsNum.ge score (.fin 600) then "gold"
  else if JsNum.ge score (.fin 400) then "silver"
  else "bronze"

/-- The exact value of the binary64 literal `0.2`. -/
def literal_0_2 : ℚ := 3602879701896397 / 18014398509481984

/-- The score accumulated by `getReputationMetrics` before the final clamp. -/
def rawScore (R : JsRuntime) (agent : Agent) (ageDays : JsNum) : JsNum :=
  let score0 : JsNum := .fin 0
  let score1 := R.add score0 (JsNum.min (.fin 200) (JsNum.floor (R.mul ageDays (.fin 2))))
  let score2 := R.add score1
    (JsNum.min (.fin 300) (JsNum.floor (R.mul (agent.followers.toNumber R) (.fin (1 / 2)))))
  let score3 := R.add score2
    (JsNum.min (.fin 200) (JsNum.floor (R.mul (agent.posts.toNumber R) (.fin literal_0_2))))
  let score4 :=
    if JsVal.gt R agent.followers agent.following
        && JsVal.gt R agent.followers (.num (.fin 10)) then
      let ratio := R.div (agent.followers.toNumber R)
        (JsNum.max (.fin 1) (agent.following.toNumber R))
      R.add score3 (JsNum.min (.fin 100) (JsNum.floor (R.mul ratio (.fin 20))))
    else score3
  if agent.verified.truthy then R.add score4 (.fin 200) else score4

/-- The `metrics` object of the reputation report. -/
structure PlatformMetrics where
  ageDays : JsNum
  followers : JsVal
  following : JsVal
  posts : JsVal
  platformVerified : JsVal
  deriving DecidableEq

/-- The report returned by `getReputationMetrics` for a found agent. -/
structure ReputationReport where
  username : JsVal
  score : JsNum
  maxScore : ℤ
  tier : String
  metrics : PlatformMetrics
  calculatedAt : ℕ
  deriving DecidableEq

/-- The object returned by `getReputationMetrics`. -/
inductive MetricsResult where
  | error (message : String)
  | report (r : ReputationReport)
  deriving DecidableEq

/-- The method `getReputationMetrics`, given the outcome of the profile request and the clock.
The tier is computed from the score before the clamp to 1000. -/
def getReputationMetrics (R : JsRuntime) (fetch : ProfileFetch) (now : ℕ) : MetricsResult :=
  match getAgent fetch with
  | .notFound error => .error error
  | .found agent =>
    let ageMs := numSub R (.fin now) (R.dateGetTime agent.createdAt)
    let ageDays := R.div ageMs (.fin (1000 * 60 * 60 * 24))
    let score := rawScore R agent ageDays
    let tier := determineTier score
    .report
      { username := agent.username
        score := JsNum.min (.fin 1000) score
        maxScore := 1000
        tier := tier
        metrics :=
          { ageDays := JsNum.floor ageDays
            followers := agent.followers
            following := agent.following
            posts := agent.posts
            platformVerified := agent.verified }
        calculatedAt := now }

end MoltbookBridge

/-! ## Moltbook routes (`routes/moltbook.js`) -/

namespace MoltbookRoutes

open MoltbookBridge

/-- A pending `setTimeout(() => challenges.delete(username), 15 * 60 * 1000)`: the captured
username and the time from which the callback may run. -/
structure Timer where
  username : JsVal
  due : ℕ
  deriving DecidableEq

/-- The state of the router: the map `challenges` and the pending timers. -/
structure State where
  challenges : JsMap JsVal Challenge
  timers : List Timer
  deriving DecidableEq

/-- The state at start-up. -/
def State.init : State := { challenges := [], timers := [] }

/-- The response of `POST /challenge`. -/
structure ChallengeReply where
  status : ℕ
  error : Option String := none
  challenge : Option Challenge := none
  deriving DecidableEq

/-- The handler of `POST /challenge`: stores the new challenge under the username and schedules
the deletion of that username 15 minutes later. -/
def postChallenge (R : JsRuntime) (st : State) (username : JsVal) (nonce : String) (now : ℕ) :
    State × ChallengeReply :=
  if !username.truthy then
    (st, { status := 400, error := some "Username required" })
  else
    let challenge := generateChallenge R username nonce now
    ({ challenges := JsMap.set st.challenges username challenge
       timers := st.timers ++ [{ username := username, due := now + 15 * 60 * 1000 }] },
     { status := 200, challenge := some challenge })

/-- The timer callback `() => challenges.delete(username)`. -/
def timerCallback (st : State) (t : Timer) : State :=
  { challenges := JsMap.delete st.challenges t.username
    timers := st.timers.erase t }

/-- The response of `POST /verify`: an error, or the spread ownership result with the
username and the challenge that was checked. -/
structure VerifyReply where
  status : ℕ
  error : Option String := none
  username : Option JsVal := none
  verified : Option Bool := none
  checkedAt : Option ℕ := none
  postsChecked : Option ℕ := none
  challenge : Option String := none
  deriving DecidableEq

/-- What `POST /verify` does: the next state, the response, and the usernames whose posts were
requested from the platform while handling the request. -/
structure VerifyOutcome where
  state : State
  reply : VerifyReply
  fetched : List JsVal
  deriving DecidableEq

/-- The handler of `POST /verify`; `fetch` is the platform's answer to the posts request,
consulted only when the handler reaches the call of `verifyOwnership`. -/
def postVerify (st : State) (username : JsVal) (fetch : PostsFetch) (now : ℕ) : VerifyOutcome :=
  if !username.truthy then
    { state := st, reply := { status := 400, error := some "Username required" }, fetched := [] }
  else
    match JsMap.get st.challenges username with
    | none =>
      { state := st
        reply := { status := 400, error := some "No challenge found. Generate one first." }
        fetched := [] }
    | some storedChallenge =>
      if now > storedChallenge.expiresAt then
        { state := { st with challenges := JsMap.delete st.challenges username }
          reply := { status := 400, error := some "Challenge expired. Generate a new one." }
          fetched := [] }
      else
        let result := verifyOwnership username storedChallenge.challenge fetch now
        { state :=
            if result.verified then
              { st with challenges := JsMap.delete st.challenges username }
            else st
          reply :=
            { status := 200
              error := result.error
              username := some username
              verified := some result.verified
              checkedAt := result.checkedAt
              postsChecked := result.postsChecked
              challenge := some storedChallenge.challenge }
          fetched := [username] }

/-- An event at the router: a challenge request (with the random nonce drawn for it), a verify
request (with the platform's answer), or the firing of a timer. -/
inductive Event where
  | challenge (username : JsVal) (nonce : String)
  | verify (username : JsVal) (fetch : PostsFetch)
  | timeout (t : Timer)

/-- The state after one event at clock reading `now`.  A timer fires only if it is pending and
its delay has elapsed. -/
def step (R : JsRuntime) (st : State) (ev : Event) (now : ℕ) : State :=
  match ev with
  | .challenge username nonce => (postChallenge R st username nonce now).1
  | .verify username fetch => (postVerify st username fetch now).state
  | .timeout t => if t ∈ st.timers ∧ t.due ≤ now then timerCallback st t else st

/-- The states reachable from start-up. -/
inductive Reachable (R : JsRuntime) : State → Prop where
  | init : Reachable R State.init
  | step {st : State} (ev : Event) (now : ℕ) : Reachable R st → Reachable R (step R st ev now)

/-- A posts response whose only post quotes the given challenge. -/
def quoting (c : String) : PostsFetch :=
  .ok (.withPosts [{ content := some ("proof " ++ c) }])

/-- A sample state: a challenge generated for `alice` at time 0. -/
def sampleState : State := step witnessRuntime State.init (.challenge (.str "alice") "k3x9q2mz") 0

/-- The challenge stored in `sampleState`. -/
def sampleChallenge : Challenge := generateChallenge witnessRuntime (.str "alice") "k3x9q2mz" 0

/-- The state after two challenge requests for `alice`, at times `T` and `T + 10 min`. -/
def secondChallengeState (R : JsRuntime) (n1 n2 : String) (T : ℕ) : State :=
  step R (step R State.init (.challenge (.str "alice") n1) T)
    (.challenge (.str "alice") n2) (T + 600000)

/-- The state after the timer of the first of the two requests has fired, at `T + 15 min`. -/
def firstTimerFiredState (R : JsRuntime) (n1 n2 : String) (T : ℕ) : State :=
  step R (secondChallengeState R n1 n2 T)
    (.timeout { username := .str "alice", due := T + 900000 }) (T + 900000)

end MoltbookRoutes

/-! ## Arrays and query parameters -/

namespace JsArray

variable {α : Type}

/-- The method `Array.prototype.sort(comparefn)`: `a` stays in front of a later `b` unless
`comparefn(a, b) > 0` (a NaN result counts as `0`).  The language fixes the result, a stable
sort, when the comparator is consistent on the elements; otherwise the order is left to the
implementation, of which this insertion order is one. -/
def sort (comparefn : α → α → JsNum) (xs : List α) : List α :=
  xs.insertionSort (fun a b => JsNum.gt (comparefn a b) (.fin 0) = false)

/-- The position denoted by an integer argument of `slice` in an array of length `len`:
a negative argument counts from the end, and the result is clamped to `[0, len]`. -/
def relativeIndex (len : ℕ) (i : ℤ) : ℕ :=
  if i < 0 then ((len : ℤ) + i).toNat else min i.toNat len

/-- The method `Array.prototype.slice(start, stop)` for integer arguments. -/
def slice (xs : List α) (start stop : ℤ) : List α :=
  (xs.drop (relativeIndex xs.length start)).take
    (relativeIndex xs.length stop - relativeIndex xs.length start)

/-- The expression `parseInt(text) || d`, given the result of `parseInt`: NaN (`none`) or an
integer. -/
def orDefault (parsed : Option ℤ) (d : ℤ) : ℤ :=
  match parsed with
  | none => d
  | some n => if n = 0 then d else n

end JsArray

/-! ## Reputation routes: leaderboard -/

namespace ReputationRoutes

/-- The response of `GET /leaderboard`. -/
structure LeaderboardReply where
  agents : List Reputation
  count : ℕ
  filterTier : JsVal
  deriving DecidableEq

/-- The comparator `(a, b) => b.score - a.score`. -/
def compareScores (R : JsRuntime) (a b : Reputation) : JsNum :=
  numSub R (b.score.toNumber R) (a.score.toNumber R)

/-- The handler of `GET /leaderboard`, given the result of `parseInt(req.query.limit)` and the
query value `tier` (`undefined` when absent). -/
def getLeaderboard (R : JsRuntime) (store : Store) (limitParsed : Option ℤ) (tier : JsVal) :
    LeaderboardReply :=
  let limit := JsArray.orDefault limitParsed 10
  let agents := JsMap.values store
  let agents :=
    if tier.truthy then agents.filter (fun a => decide (JsVal.str a.tier = tier)) else agents
  let agents := JsArray.sort (compareScores R) agents
  let topAgents := JsArray.slice agents 0 limit
  { agents := topAgents, count := topAgents.length, filterTier := tier }

/-- Every stored score is an integer in [0,1000]. -/
def IntegerScores (store : Store) : Prop :=
  ∀ rec ∈ JsMap.values store, ∃ s : ℤ, rec.score = JsVal.ofInt s ∧ 0 ≤ s ∧ s ≤ 1000

/-- The numeric value of a stored score that is a finite number (0 for any other value). -/
def scoreKey (rec : Reputation) : ℚ :=
  match rec.score with
  | .num (.fin q) => q
  | _ => 0

/-- A stored record passes the tier filter of the leaderboard: every record when the query
value is falsy, the records whose tier is that string otherwise. -/
def passesFilter (tier : JsVal) (rec : Reputation) : Bool :=
  !tier.truthy || decide (JsVal.str rec.tier = tier)

/-- An update request that supplies only a score. -/
def scoreOnly (s : ℤ) : UpdateBody :=
  { emptyBody with score := JsVal.ofInt s }

/-- The request `\x7bscore: 1000, totalInteractions: 10, successfulInteractions: 7\x7d`. -/
def exampleBody : UpdateBody :=
  { emptyBody with
    score := JsVal.ofInt 1000
    totalInteractions := JsVal.ofInt 10
    successfulInteractions := JsVal.ofInt 7 }

/-- The record stored for `did:a` by an update at time 0 that supplies only the score 700. -/
def goldRecord : Reputation :=
  { did := "did:a", score := JsVal.ofInt 700, maxScore := 1000, tier := "gold",
    metrics := ⟨.num (.fin 0), .num (.fin 0), .num (.fin 0), .num (.fin 0), .num (.fin 0)⟩,
    interactions := ⟨.num (.fin 0), .num (.fin 0), .fin 0, .fin 0⟩,
    updatedAt := some 0 }

/-- The record stored for `did:a` by an update at time 0 that omits every field. -/
def scorelessRecord : Reputation :=
  { did := "did:a", score := .undefined, maxScore := 1000, tier := "unrated",
    metrics := ⟨.num (.fin 0), .num (.fin 0), .num (.fin 0), .num (.fin 0), .num (.fin 0)⟩,
    interactions := ⟨.num (.fin 0), .num (.fin 0), .fin 0, .fin 0⟩,
    updatedAt := some 0 }

/-- The record stored for `did:b` by an update at time 1 that supplies only the score 10. -/
def tenRecord : Reputation :=
  { did := "did:b", score := JsVal.ofInt 10, maxScore := 1000, tier := "unrated",
    metrics := ⟨.num (.fin 0), .num (.fin 0), .num (.fin 0), .num (.fin 0), .num (.fin 0)⟩,
    interactions := ⟨.num (.fin 0), .num (.fin 0), .fin 0, .fin 0⟩,
    updatedAt := some 1 }

/-- A store with a single record, of score 700 (tier gold). -/
def goldStore : Store := (postDid witnessRuntime [] "did:a" (scoreOnly 700) 0).1

/-- A store holding a record without score, stored first, and a record of score 10. -/
def scorelessFirstStore : Store :=
  runUpdates witnessRuntime [] [("did:a", emptyBody, 0), ("did:b", scoreOnly 10, 1)]

/-- A store holding a record of score 10, stored first, and a record of score 700. -/
def rankedStore : Store := [("did:b", tenRecord), ("did:a", goldRecord)]

end ReputationRoutes

/-! ## Credential routes: list by DID -/

namespace CredentialRoutes

/-- An entry of the list returned by `GET /agent/:didHash`. -/
structure AnchorSummary where
  credentialHash : JsVal
  type : JsVal
  issuedAt : ℕ
  expiresAt : Option JsDate
  revoked : Bool
  status : String
  deriving DecidableEq

/-- The callback that builds a list entry; the status is computed at read time. -/
def summarize (now : ℕ) (c : Anchor) : AnchorSummary :=
  { credentialHash := c.credentialHash
    type := c.credentialType
    issuedAt := c.issuedAt
    expiresAt := c.expiresAt
    revoked := c.revoked
    status := if c.revoked then "revoked" else if isExpired c now then "expired" else "active" }

/-- The response of `GET /agent/:didHash`. -/
structure ListReply where
  didHash : String
  credentials : List AnchorSummary
  count : ℕ
  deriving DecidableEq

/-- The handler of `GET /agent/:didHash`; the route parameter is a string and is compared with
`===`. -/
def getAgentCredentials (store : Store) (didHash : String) (now : ℕ) : ListReply :=
  let credentials :=
    ((JsMap.values store).filter (fun c => decide (c.didHash = .str didHash))).map (summarize now)
  { didHash := didHash, credentials := credentials, count := credentials.length }

/-- A request to the credential router, of any of its four routes. -/
inductive AnyRequest where
  | anchor (body : AnchorBody)
  | verify (credentialHash : JsVal)
  | revoke (body : RevokeBody)
  | list (didHash : String)

/-- The store after one request: the verify and list handlers do not write to it. -/
def stepAny (R : JsRuntime) (store : Store) (req : AnyRequest) (now : ℕ) : Store :=
  match req with
  | .anchor body => (postAnchor R store body now).1
  | .verify _ => store
  | .revoke body => (postRevoke store body now).1
  | .list _ => store

/-- The store after a sequence of requests, each with its own clock reading. -/
def runRequests (R : JsRuntime) (store : Store) : List (AnyRequest × ℕ) → Store
  | [] => store
  | (req, now) :: rest => runRequests R (stepAny R store req now) rest

end CredentialRoutes

/-! ## DID routes (`routes/did.js`) -/

namespace DidRoutes

/-- Library functions used by the DID router that the repository does not define. -/
structure DidBuiltins where
  /-- The method `String.prototype.toLowerCase`. -/
  toLowerCase : String → String
  /-- The digest `ethers.keccak256(ethers.toUtf8Bytes(text))`, as a hex string. -/
  keccak256 : String → String

/-- Library functions used to instantiate statements at concrete inputs. -/
def witnessBuiltins : DidBuiltins where
  toLowerCase := fun s => String.mk (s.data.map Char.toLower)
  keccak256 := fun s => "0x" ++ s

/-- The character class `[a-z0-9]`. -/
def isSlugChar (c : Char) : Bool :=
  (decide ('a' ≤ c) && decide (c ≤ 'z')) || (decide ('0' ≤ c) && decide (c ≤ '9'))

/-- The call `.replace(/[^a-z0-9]/g, '-')`: every code unit outside `[a-z0-9]` becomes a
hyphen (a character beyond the basic plane is two code units). -/
def sanitize (text : String) : String :=
  String.mk (text.data.flatMap fun c =>
    if isSlugChar c then [c] else if c.val < 0x10000 then ['-'] else ['-', '-'])

/-- The digit characters of radix 36: `0` to `9`, then `a` to `z`. -/
def base36Digit (d : ℕ) : Char :=
  if d < 10 then Char.ofNat (48 + d) else Char.ofNat (87 + d)

/-- The value of a radix 36 digit character. -/
def base36Value (c : Char) : ℕ :=
  if c.toNat < 58 then c.toNat - 48 else c.toNat - 87

/-- The call `n.toString(36)` for a non-negative integer `n`. -/
def toBase36 (n : ℕ) : String :=
  if n = 0 then "0" else String.mk ((Nat.digits 36 n).reverse.map base36Digit)

/-- The call `.substring(2, 10)` on the text of `Math.random().toString(36)`. -/
def randomSuffix (randomText : String) : String :=
  String.mk ((randomText.data.drop 2).take 8)

/-- An entry of `verificationMethod`. -/
structure VerificationMethod where
  id : String
  type : String
  controller : String
  publicKeyMultibase : JsVal
  deriving DecidableEq

/-- An entry of `service`. -/
structure Service where
  id : String
  type : String
  serviceEndpoint : String
  deriving DecidableEq

/-- The object `agentMetadata`. -/
structure AgentMetadata where
  name : String
  platform : JsVal
  created : ℕ
  deriving DecidableEq

/-- The DID document.  The field `active` does not exist until the DID is deactivated. -/
structure DidDocument where
  context : List String
  id : String
  created : ℕ
  controller : String
  verificationMethod : List VerificationMethod
  authentication : List String
  assertionMethod : List String
  service : List Service
  agentMetadata : AgentMetadata
  active : Option Bool := none
  deriving DecidableEq

/-- A record of `didStore`. -/
structure DidRecord where
  did : String
  didHash : String
  document : DidDocument
  stake : JsVal
  active : Bool
  createdAt : ℕ
  deriving DecidableEq

/-- The store `didStore`, keyed by DID. -/
abbrev Store := JsMap String DidRecord

/-- The fields read from the body of `POST /register`. -/
structure RegisterBody where
  platform : JsVal
  agentName : JsVal
  publicKey : JsVal
  stake : JsVal
  deriving DecidableEq

/-- The response of `POST /register`. -/
structure RegisterReply where
  status : ℕ
  error : Option String := none
  did : Option String := none
  didHash : Option String := none
  document : Option DidDocument := none
  message : Option String := none
  deriving DecidableEq

/-- The template `did:agent:platform:name-timestamp-random`. -/
def makeDid (R : JsRuntime) (B : DidBuiltins) (platform : JsVal) (agentName : String) (now : ℕ)
    (randomText : String) : String :=
  "did:agent:" ++ platform.toStr R ++ ":" ++ sanitize (B.toLowerCase agentName) ++ "-"
    ++ toBase36 now ++ "-" ++ randomSuffix randomText

/-- The DID document built by `POST /register`. -/
def makeDocument (R : JsRuntime) (did : String) (body : RegisterBody) (agentName : String)
    (now : ℕ) : DidDocument :=
  { context := ["https://www.w3.org/ns/did/v1", "https://agentverify.io/v1"]
    id := did
    created := now
    controller := "did:key:" ++ body.publicKey.toStr R
    verificationMethod :=
      [{ id := did ++ "#keys-1"
         type := "Ed25519VerificationKey2020"
         controller := did
         publicKeyMultibase := body.publicKey }]
    authentication := ["#keys-1"]
    assertionMethod := ["#keys-1"]
    service :=
      [{ id := "#avs"
         type := "AgentVerificationService"
         serviceEndpoint := "https://api.agentverify.io/v1" }]
    agentMetadata := { name := agentName, platform := body.platform, created := now } }

/-- The record stored by `POST /register`. -/
def makeRecord (R : JsRuntime) (B : DidBuiltins) (body : RegisterBody) (agentName : String)
    (now : ℕ) (randomText : String) : DidRecord :=
  { did := makeDid R B body.platform agentName now randomText
    didHash := B.keccak256 (makeDid R B body.platform agentName now randomText)
    document := makeDocument R (makeDid R B body.platform agentName now randomText) body
      agentName now
    stake := body.stake.orElse (.str "0")
    active := true
    createdAt := now }

/-- The handler of `POST /register`; `now` is the clock and `randomText` the text of
`Math.random().toString(36)`.  An `agentName` that is not a string has no `toLowerCase`
method: the call throws and the handler answers 500. -/
def postRegister (R : JsRuntime) (B : DidBuiltins) (store : Store) (body : RegisterBody)
    (now : ℕ) (randomText : String) : Store × RegisterReply :=
  if !body.platform.truthy || !body.agentName.truthy || !body.publicKey.truthy then
    (store, { status := 400,
              error := some "Missing required fields: platform, agentName, publicKey" })
  else
    match body.agentName with
    | .str agentName =>
      let record := makeRecord R B body agentName now randomText
      (JsMap.set store record.did record,
        { status := 201, did := some record.did, didHash := some record.didHash,
          document := some record.document, message := some "DID registered successfully" })
    | _ => (store, { status := 500, error := some "Failed to register DID" })

/-- The response of `GET /:did`. -/
structure ResolveReply where
  status : ℕ
  error : Option String := none
  document : Option DidDocument := none
  deriving DecidableEq

/-- The handler of `GET /:did`. -/
def getDid (store : Store) (did : String) : ResolveReply :=
  match JsMap.get store did with
  | some record => { status := 200, document := some record.document }
  | none => { status := 404, error := some "DID not found" }

/-- The response of `GET /:did/status`. -/
structure StatusReply where
  status : ℕ
  error : Option String := none
  did : Option String := none
  didHash : Option String := none
  active : Option Bool := none
  stake : Option JsVal := none
  createdAt : Option ℕ := none
  deriving DecidableEq

/-- The handler of `GET /:did/status`. -/
def getStatus (store : Store) (did : String) : StatusReply :=
  match JsMap.get store did with
  | none => { status := 404, error := some "DID not found" }
  | some record =>
    { status := 200, did := some did, didHash := some record.didHash,
      active := some record.active, stake := some record.stake,
      createdAt := some record.createdAt }

/-- The response of `POST /:did/deactivate`. -/
structure DeactivateReply where
  status : ℕ
  error : Option String := none
  did : Option String := none
  didStatus : Option String := none
  message : Option String := none
  deriving DecidableEq

/-- The handler of `POST /:did/deactivate`: the stored record and its document are updated in
place. -/
def postDeactivate (store : Store) (did : String) : Store × DeactivateReply :=
  match JsMap.get store did with
  | none => (store, { status := 404, error := some "DID not found" })
  | some record =>
    (JsMap.set store did
        { record with active := false, document := { record.document with active := some false } },
      { status := 200, did := some did, didStatus := some "deactivated",
        message := some "DID deactivated successfully" })

/-- An entry of the list returned by `GET /`. -/
structure DidSummary where
  did : String
  name : String
  platform : JsVal
  active : Bool
  createdAt : ℕ
  deriving DecidableEq

/-- The callback that builds a list entry. -/
def summarize (r : DidRecord) : DidSummary :=
  { did := r.did
    name := r.document.agentMetadata.name
    platform := r.document.agentMetadata.platform
    active := r.active
    createdAt := r.createdAt }

/-- The response of `GET /`. -/
structure ListReply where
  dids : List DidSummary
  page : ℤ
  limit : ℤ
  total : ℕ
  pages : ℤ
  deriving DecidableEq

/-- The handler of `GET /`, given the results of `parseInt` on the two query values.  The
page, the limit and the array length are integers; on them the binary64 results of
`(page - 1) * limit`, `offset + limit` and `Math.ceil(length / limit)` select the same
elements and the same page count as the exact values (an array is shorter than 2^32), so the
arithmetic is done on integers. -/
def getList (store : Store) (pageParsed limitParsed : Option ℤ) : ListReply :=
  let page := JsArray.orDefault pageParsed 1
  let limit := JsArray.orDefault limitParsed 20
  let offset := (page - 1) * limit
  let allDids := JsMap.values store
  let paginatedDids := JsArray.slice allDids offset (offset + limit)
  { dids := paginatedDids.map summarize
    page := page
    limit := limit
    total := allDids.length
    pages := ⌈((allDids.length : ℤ) : ℚ) / (limit : ℚ)⌉ }

/-- A request to the DID router. -/
inductive Request where
  | register (body : RegisterBody) (randomText : String)
  | resolve (did : String)
  | status (did : String)
  | deactivate (did : String)
  | list (pageParsed limitParsed : Option ℤ)

/-- The store after one request: only registration and deactivation write to it. -/
def step (R : JsRuntime) (B : DidBuiltins) (store : Store) (req : Request) (now : ℕ) : Store :=
  match req with
  | .register body randomText => (postRegister R B store body now randomText).1
  | .resolve _ => store
  | .status _ => store
  | .deactivate did => (postDeactivate store did).1
  | .list _ _ => store

/-- The stores reachable from the empty store. -/
inductive Reachable (R : JsRuntime) (B : DidBuiltins) : Store → Prop where
  | empty : Reachable R B []
  | step {store : Store} (req : Request) (now : ℕ) :
      Reachable R B store → Reachable R B (step R B store req now)

/-- A sample registration request. -/
def sampleBody : RegisterBody :=
  { platform := .str "moltbook", agentName := .str "My Bot", publicKey := .str "z6Mk",
    stake := .undefined }

/-- The did generated for the sample request at time 0 with a sample random text. -/
def sampleDid : String :=
  makeDid witnessRuntime witnessBuiltins sampleBody.platform "My Bot" 0 "0.4fzyo82mvyr"

/-- The store after the sample registration. -/
def registeredStore : Store :=
  step witnessRuntime witnessBuiltins [] (.register sampleBody "0.4fzyo82mvyr") 0

/-- The store after the sample registration and the deactivation of its did. -/
def deactivatedStore : Store :=
  step witnessRuntime witnessBuiltins registeredStore (.deactivate sampleDid) 1

/-- The store after a further registration of the sample request that draws the same clock
reading and the same random text, and so generates the same did. -/
def reregisteredStore : Store :=
  step witnessRuntime witnessBuiltins deactivatedStore (.register sampleBody "0.4fzyo82mvyr") 0

end DidRoutes

/-! ## Reputation routes: lookup, tier definitions and the router -/

namespace ReputationRoutes

/-- The default record that `GET /:did` builds when the store holds none for the DID. -/
def defaultReputation (did : String) : Reputation :=
  { did := did
    score := .num (.fin 0)
    maxScore := 1000
    tier := "unrated"
    metrics :=
      { reliability := .num (.fin 0)
        taskCompletion := .num (.fin 0)
        security := .num (.fin 0)
        timeliness := .num (.fin 0)
        peerEndorsements := .num (.fin 0) }
    interactions :=
      { total := .num (.fin 0)
        successful := .num (.fin 0)
        disputed := .fin 0
        failed := .fin 0 }
    updatedAt := none }

/-- The handler of `GET /:did`: the stored record, or the default one. -/
def getDid (store : Store) (did : String) : Reputation :=
  match JsMap.get store did with
  | some reputation => reputation
  | none => defaultReputation did

/-- The response of `GET /tiers`. -/
structure TiersReply where
  tiers : List (String × TierRange)
  maxScore : ℤ
  deriving DecidableEq

/-- The handler of `GET /tiers`. -/
def getTiers : TiersReply := { tiers := TIERS, maxScore := 1000 }

/-- The request methods used by the router. -/
inductive Method where
  | get
  | post
  deriving DecidableEq

/-- The four handlers registered on the router. -/
inductive Handler where
  | getDid
  | postDid
  | getLeaderboard
  | getTiers
  deriving DecidableEq

/-- A route path of the router: one named parameter (`/:name`) or one literal segment. -/
inductive PathPattern where
  | param (name : String)
  | literal (segment : String)
  deriving DecidableEq

/-- A registered route. -/
structure Route where
  method : Method
  pattern : PathPattern
  handler : Handler
  deriving DecidableEq

/-- The routes of `routes/reputation.js` in the order of their registration. -/
def routes : List Route :=
  [{ method := .get, pattern := .param "did", handler := .getDid },
   { method := .post, pattern := .param "did", handler := .postDid },
   { method := .get, pattern := .literal "leaderboard", handler := .getLeaderboard },
   { method := .get, pattern := .literal "tiers", handler := .getTiers }]

/-- A segment in lower case (route matching ignores the case of letters). -/
def lowerSegment (s : String) : String := String.mk (s.data.map Char.toLower)

/-- Matching of a request path, given as its non-empty segments below the mount point, against
a route path; the result is the list of bound parameters.  A named parameter matches any one
segment, a literal matches that segment. -/
def PathPattern.matchPath : PathPattern → List String → Option (List (String × String))
  | .param name, [segment] => if segment ≠ "" then some [(name, segment)] else none
  | .literal text, [segment] =>
    if lowerSegment segment = lowerSegment text then some [] else none
  | _, _ => none

/-- The router: the routes are tried in registration order and the first one whose method and
path match handles the request (no handler of this router passes the request on). -/
def dispatch (method : Method) (path : List String) :
    Option (Handler × List (String × String)) :=
  routes.findSome? fun r =>
    if r.method = method then (r.pattern.matchPath path).map fun params => (r.handler, params)
    else none

/-- The order of the tier names: unrated < bronze < silver < gold < platinum. -/
def tierRank (tier : String) : ℕ :=
  if tier = "unrated" then 0
  else if tier = "bronze" then 1
  else if tier = "silver" then 2
  else if tier = "gold" then 3
  else if tier = "platinum" then 4
  else 0

end ReputationRoutes

/-! ## Binary64 arithmetic

The arithmetic operators of the language work on IEEE 754 binary64 numbers: the exact result
is rounded to the nearest representable value, ties going to the even significand.  Signed zeros
are not distinguished. -/

namespace Binary64

/-- Rounding of a rational to the nearest integer, a tie going to the even neighbour. -/
def roundHalfEven (x : ℚ) : ℤ :=
  if x - ⌊x⌋ < 1 / 2 then ⌊x⌋
  else if 1 / 2 < x - ⌊x⌋ then ⌊x⌋ + 1
  else if ⌊x⌋ % 2 = 0 then ⌊x⌋ else ⌊x⌋ + 1

/-- The binary exponent of the binade of `q`, not below that of the subnormal numbers. -/
def exponent (q : ℚ) : ℤ := max (Int.log 2 |q|) (-1022)

/-- The distance between neighbouring binary64 values in the binade of `q` (53 significant
bits). -/
def ulp (q : ℚ) : ℚ := 2 ^ (exponent q - 52)

/-- Rounding of an exact result to binary64: the nearest multiple of `ulp q`, a tie going to
the even multiple; a magnitude of `2 ^ 1024` or more overflows to an infinity. -/
def round (q : ℚ) : JsNum :=
  if 2 ^ 1024 ≤ (roundHalfEven (q / ulp q) : ℚ) * ulp q then .posInf
  else if (roundHalfEven (q / ulp q) : ℚ) * ulp q ≤ -2 ^ 1024 then .negInf
  else .fin ((roundHalfEven (q / ulp q) : ℚ) * ulp q)

/-- The operator `a + b` on numbers. -/
def add : JsNum → JsNum → JsNum
  | .fin x, .fin y => round (x + y)
  | .nan, _ => .nan
  | _, .nan => .nan
  | .posInf, .negInf => .nan
  | .negInf, .posInf => .nan
  | .posInf, _ => .posInf
  | _, .posInf => .posInf
  | .negInf, _ => .negInf
  | _, .negInf => .negInf

/-- The operator `-a` on numbers. -/
def neg : JsNum → JsNum
  | .fin x => .fin (-x)
  | .posInf => .negInf
  | .negInf => .posInf
  | .nan => .nan

/-- The operator `a - b` on numbers. -/
def sub (a b : JsNum) : JsNum := add a (neg b)

/-- The product of an infinity of the given sign (`true` for positive) with a finite number. -/
def infTimes (positive : Bool) (x : ℚ) : JsNum :=
  if x = 0 then .nan
  else if decide (0 < x) = positive then .posInf else .negInf

/-- The operator `a * b` on numbers. -/
def mul : JsNum → JsNum → JsNum
  | .fin x, .fin y => round (x * y)
  | .nan, _ => .nan
  | _, .nan => .nan
  | .fin x, .posInf => infTimes true x
  | .fin x, .negInf => infTimes false x
  | .posInf, .fin y => infTimes true y
  | .negInf, .fin y => infTimes false y
  | .posInf, .posInf => .posInf
  | .negInf, .negInf => .posInf
  | .posInf, .negInf => .negInf
  | .negInf, .posInf => .negInf

/-- The operator `a / b` on numbers.  A zero divisor is taken as the positive zero; the
divisors in this repository are a non-zero constant and a maximum with 1. -/
def div : JsNum → JsNum → JsNum
  | .fin x, .fin y =>
    if y = 0 then (if x = 0 then .nan else if 0 < x then .posInf else .negInf)
    else round (x / y)
  | .nan, _ => .nan
  | _, .nan => .nan
  | .fin _, _ => .fin 0
  | .posInf, .fin y => if 0 ≤ y then .posInf else .negInf
  | .negInf, .fin y => if 0 ≤ y then .negInf else .posInf
  | _, _ => .nan

/-- The values `m * 2 ^ j` with a significand `m` of at most 53 bits and an exponent `j` not
below that of the subnormal numbers: every finite binary64 value has this form. -/
def Representable (v : ℚ) : Prop :=
  ∃ m j : ℤ, |m| < 2 ^ 53 ∧ -1074 ≤ j ∧ v = (m : ℚ) * 2 ^ j

end Binary64

/-- A runtime whose arithmetic operators are those of binary64; the other built-ins are those
of `base`. -/
def binary64 (base : JsRuntime) : JsRuntime :=
  { base with
    add := Binary64.add
    sub := Binary64.sub
    mul := Binary64.mul
    div := Binary64.div }

namespace MoltbookBridge

/-- The score formula in the words of the specification, over exact arithmetic: the age, the
followers, the posts, the ratio bonus and the verified bonus, clamped to 1000. -/
def specScore (ageDays : ℚ) (followers following posts : ℤ) (verified : Bool) : ℤ :=
  min 1000
    (min 200 ⌊ageDays * 2⌋ + min 300 ⌊(followers : ℚ) / 2⌋ + min 200 ⌊(posts : ℚ) / 5⌋
      + (if followers > following ∧ followers > 10 then
          min 100 ⌊20 * (followers : ℚ) / ((max 1 following : ℤ) : ℚ)⌋
        else 0)
      + (if verified then 200 else 0))

/-- A profile with the given creation time and counts, not verified. -/
def profileOf (createdAt followers following posts : ℤ) : ProfileData :=
  { username := .str "alice"
    displayName := .undefined
    bio := .undefined
    avatar := .undefined
    createdAt := JsVal.ofInt createdAt
    followersCount := JsVal.ofInt followers
    followingCount := JsVal.ofInt following
    postsCount := JsVal.ofInt posts
    verified := .undefined }

end MoltbookBridge

end ClawMark

/-! # Verified properties -/

namespace ClawMark

/-! ## Keyed stores -/

namespace JsMap

variable {κ α : Type} [DecidableEq κ]

theorem get_nil (k : κ) : get ([] : JsMap κ α) k = none := rfl

theorem get_cons (e : κ × α) (m : JsMap κ α) (k : κ) :
    get (e :: m) k = if e.1 = k then some e.2 else get m k := by
  unfold get
  by_cases h : e.1 = k <;> simp [List.find?, h]

theorem has_cons (e : κ × α) (m : JsMap κ α) (k : κ) :
    has (e :: m) k = (decide (e.1 = k) || has m k) := by
  simp [has]

theorem has_eq_isSome (m : JsMap κ α) (k : κ) : has m k = (get m k).isSome := by
  induction m with
  | nil => rfl
  | cons e m ih =>
    rw [has_cons, get_cons, ih]
    by_cases h : e.1 = k <;> simp [h]

theorem get_eq_none_of_not_has {m : JsMap κ α} {k : κ} (h : has m k = false) :
    get m k = none := by
  rw [has_eq_isSome] at h
  cases hg : get m k with
  | none => rfl
  | some v => rw [hg] at h; cases h

theorem get_set (m : JsMap κ α) (k k' : κ) (v : α) :
    get (set m k v) k' = if k' = k then some v else get m k' := by
  unfold set
  by_cases hk : has m k = true
  · rw [if_pos hk]
    induction m with
    | nil => simp [has] at hk
    | cons e m ih =>
      rw [List.map_cons, get_cons, get_cons]
      by_cases he : e.1 = k
      · by_cases hk' : k' = k
        · subst hk'; simp [he]
        · have h1 : ¬ k = k' := fun h => hk' h.symm
          have h2 : ¬ e.1 = k' := fun h => hk' (h.symm.trans he)
          simp only [he, if_true, h1, if_false, hk', h2]
          by_cases hm : has m k = true
          · simpa [hk'] using ih hm
          · have hm' : has m k = false := by simpa using hm
            have hfix : m.map (fun e => if e.1 = k then (k, v) else e) = m := by
              have : ∀ x ∈ m, (if x.1 = k then (k, v) else x) = x := by
                intro x hx
                have : ¬ x.1 = k := by
                  intro hxk
                  have : has m k = true := by
                    simp only [has, List.any_eq_true, decide_eq_true_eq]
                    exact ⟨x, hx, hxk⟩
                  rw [hm'] at this; cases this
                simp [this]
              calc m.map (fun e => if e.1 = k then (k, v) else e)
                  = m.map id := List.map_congr_left (by simpa using this)
                _ = m := List.map_id m
            rw [hfix]
      · have hm : has m k = true := by
          rw [has_cons] at hk
          simpa [he] using hk
        simp only [he, if_false]
        by_cases hk' : k' = k
        · subst hk'
          simp only [he, if_false]
          simpa using ih hm
        · rw [ih hm]; simp [hk']
  · have hk0 : has m k = false := by simpa using hk
    rw [if_neg hk]
    have hnone := get_eq_none_of_not_has hk0
    clear hk hk0
    induction m with
    | nil =>
      simp only [List.nil_append, get_cons, get_nil]
      by_cases h : k = k'
      · subst h; simp
      · have : ¬ k' = k := fun h' => h h'.symm
        simp [h, this]
    | cons e m ih =>
      rw [get_cons] at hnone
      by_cases he : e.1 = k
      · simp [he] at hnone
      · simp only [he, if_false] at hnone
        rw [List.cons_append, get_cons, get_cons, ih hnone]
        by_cases hk' : k' = k
        · subst hk'; simp [he]
        · simp [hk']

theorem get_delete (m : JsMap κ α) (k k' : κ) :
    get (delete m k) k' = if k' = k then none else get m k' := by
  induction m with
  | nil => simp [delete, get_nil]
  | cons e m ih =>
    unfold delete at ih ⊢
    by_cases he : e.1 = k
    · rw [List.filter_cons_of_neg (by simp [he]), ih, get_cons]
      by_cases hk' : k' = k
      · simp [hk']
      · have : ¬ e.1 = k' := fun h => hk' (h.symm.trans he)
        simp [hk', this]
    · rw [List.filter_cons_of_pos (by simp [he]), get_cons, get_cons, ih]
      by_cases hk' : k' = k
      · subst hk'; simp [he]
      · simp [hk']

end JsMap

/-! ## Tier table -/

theorem inRange_ofInt (R : JsRuntime) (s : ℤ) (r : TierRange) :
    inRange R (JsVal.ofInt s) r = decide (r.min ≤ s ∧ s ≤ r.max) := by
  simp [inRange, JsVal.ofInt, JsVal.toNumber, JsNum.ge, JsNum.le, Bool.decide_and]

theorem calculateTier_ofInt (R : JsRuntime) (s : ℤ) :
    calculateTier R (JsVal.ofInt s) =
      if 0 ≤ s ∧ s ≤ 199 then "unrated"
      else if 200 ≤ s ∧ s ≤ 399 then "bronze"
      else if 400 ≤ s ∧ s ≤ 699 then "silver"
      else if 700 ≤ s ∧ s ≤ 899 then "gold"
      else if 900 ≤ s ∧ s ≤ 1000 then "platinum"
      else "unrated" := by
  simp only [calculateTier, TIERS, List.find?, inRange_ofInt]
  split_ifs <;> simp only [*, and_self, decide_True, decide_False]

/-- C1: for every integer score in [0,1000], calculateTier returns the name of the one and only
entry of TIERS whose inclusive range contains the score; the five ranges are pairwise disjoint
and cover [0,1000]; and the boundary scores 199, 200, 699, 700, 1000 map to unrated, bronze,
silver, gold, platinum. -/
theorem calculateTier_unique_band (R : JsRuntime) (s : ℤ) (h0 : 0 ≤ s) (h1 : s ≤ 1000) :
    (∃ e ∈ TIERS, calculateTier R (JsVal.ofInt s) = e.1 ∧ e.2.min ≤ s ∧ s ≤ e.2.max ∧
        ∀ e' ∈ TIERS, e'.2.min ≤ s → s ≤ e'.2.max → e' = e) ∧
    (∀ e ∈ TIERS, ∀ e' ∈ TIERS, e ≠ e' →
        ∀ n : ℤ, ¬ (e.2.min ≤ n ∧ n ≤ e.2.max ∧ e'.2.min ≤ n ∧ n ≤ e'.2.max)) ∧
    (∀ n : ℤ, 0 ≤ n → n ≤ 1000 → ∃ e ∈ TIERS, e.2.min ≤ n ∧ n ≤ e.2.max) ∧
    calculateTier R (JsVal.ofInt 199) = "unrated" ∧
    calculateTier R (JsVal.ofInt 200) = "bronze" ∧
    calculateTier R (JsVal.ofInt 699) = "silver" ∧
    calculateTier R (JsVal.ofInt 700) = "gold" ∧
    calculateTier R (JsVal.ofInt 1000) = "platinum" := by
  refine ⟨?_, ?_, ?_, ?_, ?_, ?_, ?_, ?_⟩
  · rw [calculateTier_ofInt]
    simp only [TIERS, List.mem_cons, List.mem_singleton, List.not_mem_nil, or_false]
    by_cases a : s ≤ 199
    · refine ⟨("unrated", ⟨0, 199⟩), by simp, by simp [h0, a], h0, a, ?_⟩
      rintro e' (rfl | rfl | rfl | rfl | rfl) <;> simp <;> omega
    by_cases b : s ≤ 399
    · refine ⟨("bronze", ⟨200, 399⟩), by simp, ?_, show (200 : ℤ) ≤ s by omega, b, ?_⟩
      · rw [if_neg (by omega), if_pos (by omega)]
      rintro e' (rfl | rfl | rfl | rfl | rfl) <;> simp <;> omega
    by_cases c : s ≤ 699
    · refine ⟨("silver", ⟨400, 699⟩), by simp, ?_, show (400 : ℤ) ≤ s by omega, c, ?_⟩
      · rw [if_neg (by omega), if_neg (by omega), if_pos (by omega)]
      rintro e' (rfl | rfl | rfl | rfl | rfl) <;> simp <;> omega
    by_cases d : s ≤ 899
    · refine ⟨("gold", ⟨700, 899⟩), by simp, ?_, show (700 : ℤ) ≤ s by omega, d, ?_⟩
      · rw [if_neg (by omega), if_neg (by omega), if_neg (by omega), if_pos (by omega)]
      rintro e' (rfl | rfl | rfl | rfl | rfl) <;> simp <;> omega
    · refine ⟨("platinum", ⟨900, 1000⟩), by simp, ?_, show (900 : ℤ) ≤ s by omega, h1, ?_⟩
      · rw [if_neg (by omega), if_neg (by omega), if_neg (by omega), if_neg (by omega),
          if_pos (by omega)]
      rintro e' (rfl | rfl | rfl | rfl | rfl) <;> simp <;> omega
  · simp only [TIERS, List.mem_cons, List.mem_singleton, List.not_mem_nil, or_false]
    rintro e (rfl | rfl | rfl | rfl | rfl) e' (rfl | rfl | rfl | rfl | rfl) hne n <;>
      first
        | exact absurd rfl hne
        | (simp; omega)
  · intro n hn0 hn1
    simp only [TIERS, List.mem_cons, List.mem_singleton, List.not_mem_nil, or_false]
    by_cases a : n ≤ 199
    · exact ⟨_, Or.inl rfl, hn0, a⟩
    by_cases b : n ≤ 399
    · exact ⟨_, Or.inr (Or.inl rfl), by simp; omega, b⟩
    by_cases c : n ≤ 699
    · exact ⟨_, Or.inr (Or.inr (Or.inl rfl)), by simp; omega, c⟩
    by_cases d : n ≤ 899
    · exact ⟨_, Or.inr (Or.inr (Or.inr (Or.inl rfl))), by simp; omega, d⟩
    · exact ⟨_, Or.inr (Or.inr (Or.inr (Or.inr rfl))), by simp; omega, hn1⟩
  all_goals rw [calculateTier_ofInt]; simp

/-- Witness for C1 at the score 500. -/
theorem calculateTier_unique_band_witness :
    ((0 : ℤ) ≤ 500 ∧ (500 : ℤ) ≤ 1000) ∧
    ∃ e ∈ TIERS, calculateTier witnessRuntime (JsVal.ofInt 500) = e.1 ∧
      e.2.min ≤ 500 ∧ 500 ≤ e.2.max ∧
      ∀ e' ∈ TIERS, e'.2.min ≤ 500 → 500 ≤ e'.2.max → e' = e :=
  ⟨by decide, (calculateTier_unique_band witnessRuntime 500 (by decide) (by decide)).1⟩

/-! ## Credential routes -/

namespace CredentialRoutes

/-- The three required fields of an anchor request are all truthy. -/
theorem postAnchor_missing (R : JsRuntime) (store : Store) (body : AnchorBody) (now : ℕ)
    (h : ¬ (body.credentialHash.truthy = true ∧ body.didHash.truthy = true ∧
      body.credentialType.truthy = true)) :
    postAnchor R store body now =
      (store,
        { status := 400
          error := some "Missing required fields: credentialHash, didHash, credentialType" }) := by
  unfold postAnchor
  rw [if_pos]
  simp only [Bool.or_eq_true, Bool.not_eq_true']
  by_contra hc
  apply h
  simp only [not_or, Bool.not_eq_false] at hc
  exact ⟨hc.1.1, hc.1.2, hc.2⟩

theorem postAnchor_conflict (R : JsRuntime) (store : Store) (body : AnchorBody) (now : ℕ)
    (h1 : body.credentialHash.truthy = true) (h2 : body.didHash.truthy = true)
    (h3 : body.credentialType.truthy = true)
    (hhas : JsMap.has store body.credentialHash = true) :
    postAnchor R store body now =
      (store,
        { status := 409
          error := some "Credential already anchored"
          credentialHash := some body.credentialHash }) := by
  simp [postAnchor, h1, h2, h3, hhas]

theorem postAnchor_fresh (R : JsRuntime) (store : Store) (body : AnchorBody) (now : ℕ)
    (h1 : body.credentialHash.truthy = true) (h2 : body.didHash.truthy = true)
    (h3 : body.credentialType.truthy = true)
    (hhas : JsMap.has store body.credentialHash = false) :
    postAnchor R store body now =
      (JsMap.set store body.credentialHash
        { credentialHash := body.credentialHash
          didHash := body.didHash
          credentialType := body.credentialType
          issuedAt := now
          expiresAt := if body.expiresAt.truthy then some (R.newDate body.expiresAt) else none
          revoked := false },
       { status := 201
         credentialHash := some body.credentialHash
         anchorStatus := some "anchored"
         issuedAt := some now
         message := some "Credential anchored successfully" }) := by
  simp [postAnchor, h1, h2, h3, hhas]

theorem postAnchor_keys_truthy (R : JsRuntime) (store : Store) (body : AnchorBody) (now : ℕ)
    (inv : ∀ k a, JsMap.get store k = some a → k.truthy = true) :
    ∀ k a, JsMap.get (postAnchor R store body now).1 k = some a → k.truthy = true := by
  intro k a
  by_cases hf : body.credentialHash.truthy = true ∧ body.didHash.truthy = true ∧
      body.credentialType.truthy = true
  · obtain ⟨h1, h2, h3⟩ := hf
    cases hhas : JsMap.has store body.credentialHash with
    | true => rw [postAnchor_conflict R store body now h1 h2 h3 hhas]; exact inv k a
    | false =>
      rw [postAnchor_fresh R store body now h1 h2 h3 hhas]
      simp only [JsMap.get_set]
      by_cases hk : k = body.credentialHash
      · intro _; rw [hk]; exact h1
      · rw [if_neg hk]; exact inv k a
  · rw [postAnchor_missing R store body now hf]; exact inv k a

theorem postRevoke_keys_truthy (store : Store) (body : RevokeBody) (now : ℕ)
    (inv : ∀ k a, JsMap.get store k = some a → k.truthy = true) :
    ∀ k a, JsMap.get (postRevoke store body now).1 k = some a → k.truthy = true := by
  intro k a
  unfold postRevoke
  split_ifs with h1
  · exact inv k a
  · cases hg : JsMap.get store body.credentialHash with
    | none => exact inv k a
    | some anchor =>
      simp only [JsMap.get_set]
      by_cases hk : k = body.credentialHash
      · intro _
        rw [hk]
        exact inv _ anchor hg
      · rw [if_neg hk]; exact inv k a

theorem Reachable.anchor_keys_truthy {R : JsRuntime} {store : Store} (hr : Reachable R store) :
    ∀ k a, JsMap.get store k = some a → k.truthy = true := by
  induction hr with
  | empty => intro k a h; simp [JsMap.get_nil] at h
  | step req now _ ih =>
    cases req with
    | anchor body => exact postAnchor_keys_truthy R _ body now ih
    | revoke body => exact postRevoke_keys_truthy _ body now ih

/-- C2: for every anchored credential whose revoked flag is set, in any store reachable by anchor
and revoke requests, verify answers with valid=false and reason "Credential revoked" (and so
never "Credential expired"), whatever the anchor's expiresAt and whatever the current time. -/
theorem postVerify_revoked_precedence (R : JsRuntime) (store : Store) (hr : Reachable R store)
    (credentialHash : JsVal) (anchor : Anchor)
    (hget : JsMap.get store credentialHash = some anchor) (hrev : anchor.revoked = true)
    (now : ℕ) :
    postVerify store credentialHash now =
      { status := 200, valid := some false, reason := some "Credential revoked",
        anchoredAt := some anchor.issuedAt } ∧
    (postVerify store credentialHash now).reason ≠ some "Credential expired" := by
  have ht := hr.anchor_keys_truthy credentialHash anchor hget
  have h : postVerify store credentialHash now =
      { status := 200, valid := some false, reason := some "Credential revoked",
        anchoredAt := some anchor.issuedAt } := by
    simp [postVerify, ht, hget, hrev]
  rw [h]
  exact ⟨rfl, by simp⟩

/-- Witness for C2: the hash `h1`, anchored with expiry 5 and then revoked, verified at time 10. -/
theorem postVerify_revoked_precedence_witness :
    postVerify sampleRevokedStore (.str "h1") 10 =
      { status := 200, valid := some false, reason := some "Credential revoked",
        anchoredAt := some 1 } ∧
    (postVerify sampleRevokedStore (.str "h1") 10).reason ≠ some "Credential expired" :=
  postVerify_revoked_precedence witnessRuntime sampleRevokedStore
    (Reachable.step _ _ (Reachable.step _ _ Reachable.empty)) (.str "h1")
    { credentialHash := .str "h1", didHash := .str "d1", credentialType := .str "kyc",
      issuedAt := 1, expiresAt := some (.time 5), revoked := true, revokedAt := some 2,
      revocationReason := some (.str "No reason provided") }
    (by decide) rfl 10

/-- C3 as stated fails: the hash `h1` is a key of the store, yet a second anchor request for it
that lacks `didHash` is answered 400 (missing fields), not 409. -/
theorem postAnchor_existing_hash_not_conflict :
    JsMap.has sampleStore sampleIncompleteBody.credentialHash = true ∧
    (postAnchor witnessRuntime sampleStore sampleIncompleteBody 3).2.status = 400 ∧
    (postAnchor witnessRuntime sampleStore sampleIncompleteBody 3).2.status ≠ 409 := by
  decide

/-- C3 (amended): when the request's credentialHash is already a key of the store, the store is
left exactly as it was, and the answer is 409 "Credential already anchored" when credentialHash,
didHash and credentialType are all present (whatever their values and whatever expiresAt), and
400 "Missing required fields" otherwise.  When the hash is not yet a key and the three fields
are present, the answer is 201 and the store then holds for that hash an anchor with
issuedAt = now, revoked = false and the request's didHash and credentialType, every other key
being unchanged. -/
theorem postAnchor_existing_or_fresh (R : JsRuntime) (store : Store) (body : AnchorBody)
    (now : ℕ) :
    (JsMap.has store body.credentialHash = true →
      (postAnchor R store body now).1 = store ∧
      ((body.credentialHash.truthy = true ∧ body.didHash.truthy = true ∧
          body.credentialType.truthy = true) →
        (postAnchor R store body now).2 =
          { status := 409
            error := some "Credential already anchored"
            credentialHash := some body.credentialHash }) ∧
      (¬ (body.credentialHash.truthy = true ∧ body.didHash.truthy = true ∧
          body.credentialType.truthy = true) →
        (postAnchor R store body now).2 =
          { status := 400
            error := some "Missing required fields: credentialHash, didHash, credentialType" })) ∧
    (JsMap.has store body.credentialHash = false →
      (body.credentialHash.truthy = true ∧ body.didHash.truthy = true ∧
          body.credentialType.truthy = true) →
      (postAnchor R store body now).2.status = 201 ∧
      (∃ anchor, JsMap.get (postAnchor R store body now).1 body.credentialHash = some anchor ∧
        anchor.issuedAt = now ∧ anchor.revoked = false ∧ anchor.didHash = body.didHash ∧
        anchor.credentialType = body.credentialType ∧ anchor.revokedAt = none ∧
        anchor.revocationReason = none) ∧
      ∀ k, k ≠ body.credentialHash →
        JsMap.get (postAnchor R store body now).1 k = JsMap.get store k) := by
  refine ⟨fun hhas => ?_, fun hhas hf => ?_⟩
  · by_cases hf : body.credentialHash.truthy = true ∧ body.didHash.truthy = true ∧
        body.credentialType.truthy = true
    · rw [postAnchor_conflict R store body now hf.1 hf.2.1 hf.2.2 hhas]
      exact ⟨rfl, fun _ => rfl, fun h => absurd hf h⟩
    · rw [postAnchor_missing R store body now hf]
      exact ⟨rfl, fun h => absurd h hf, fun _ => rfl⟩
  · rw [postAnchor_fresh R store body now hf.1 hf.2.1 hf.2.2 hhas]
    refine ⟨rfl, ⟨_, by rw [JsMap.get_set, if_pos rfl], rfl, rfl, rfl, rfl, rfl, rfl⟩, ?_⟩
    intro k hk
    rw [JsMap.get_set, if_neg hk]

/-- Witness for C3 (amended): a second request for `h1` with another didHash, type and expiry
leaves the store as it was and is answered 409; the first request on the empty store is
answered 201. -/
theorem postAnchor_existing_or_fresh_witness :
    ((postAnchor witnessRuntime sampleStore sampleSecondBody 3).1 = sampleStore ∧
      (postAnchor witnessRuntime sampleStore sampleSecondBody 3).2.status = 409) ∧
    (postAnchor witnessRuntime [] sampleAnchorBody 1).2.status = 201 :=
  ⟨⟨((postAnchor_existing_or_fresh witnessRuntime sampleStore sampleSecondBody 3).1
        (by decide)).1,
     by rw [((postAnchor_existing_or_fresh witnessRuntime sampleStore sampleSecondBody 3).1
        (by decide)).2.1 (by decide)]⟩,
   ((postAnchor_existing_or_fresh witnessRuntime [] sampleAnchorBody 1).2
      (by decide) (by decide)).1⟩

end CredentialRoutes

/-! ## Reputation routes -/

namespace ReputationRoutes

theorem calculateTier_undefined (R : JsRuntime) : calculateTier R .undefined = "unrated" := by
  simp [calculateTier, TIERS, List.find?, inRange, JsVal.toNumber, JsNum.ge, JsNum.le]

/-- C4 (defect in the code): an update whose body omits score passes the range validation
(both comparisons with undefined are false), is answered 200, and stores a record whose score
is undefined and whose tier is the fall-through value unrated; that record has no integer score
in [0,1000], so the stated invariant fails in a store reachable by one update request. -/
theorem postDid_omitted_score_stored (R : JsRuntime) (did : String) (now : ℕ) :
    (postDid R [] did emptyBody now).2.status = 200 ∧
    ∃ rec, JsMap.get (runUpdates R [] [(did, emptyBody, now)]) did = some rec ∧
      rec.score = .undefined ∧ rec.tier = "unrated" ∧ ¬ RecordOk rec := by
  have hv : (JsNum.lt (emptyBody.score.toNumber R) (.fin 0) ||
      JsNum.gt (emptyBody.score.toNumber R) (.fin 1000)) = false := by
    simp [emptyBody, JsVal.toNumber, JsNum.lt, JsNum.gt]
  refine ⟨by simp [postDid, hv], ?_⟩
  simp only [runUpdates, postDid, hv, Bool.false_eq_true, if_false, JsMap.get_set, if_true]
  refine ⟨_, rfl, rfl, calculateTier_undefined R, ?_⟩
  rintro ⟨s, hs, -⟩
  simp [emptyBody, JsVal.ofInt] at hs

end ReputationRoutes

/-! ## Moltbook bridge -/

namespace MoltbookBridge

theorem postMatches_iff (challenge : String) (post : Post) :
    postMatches challenge post = true ↔
      ∃ c, post.content = some c ∧ c ≠ "" ∧ challenge.data <:+: c.data := by
  unfold postMatches includes
  cases hc : post.content with
  | none => simp
  | some content => simp

theorem ne_empty_of_infix {challenge c : String} (hne : challenge ≠ "")
    (h : challenge.data <:+: c.data) : c ≠ "" := by
  rintro rfl
  apply hne
  have : challenge.data = [] := List.eq_nil_of_infix_nil h
  exact String.ext this

/-- C8: for every challenge string and every list of posts returned by a successful posts
request (as the `posts` field of the body or as a bare list), verifyOwnership reports
verified=true exactly when some post has a content (present and not the empty string) that
contains the challenge as a contiguous substring, and reports postsChecked equal to the length
of the list; for a non-empty challenge the condition is simply that some post's content contains
the challenge. -/
theorem verifyOwnership_verified_iff (username : JsVal) (challenge : String)
    (posts : List Post) (now : ℕ) (data : PostsData)
    (hdata : data = .withPosts posts ∨ data = .array posts) :
    ((verifyOwnership username challenge (.ok data) now).verified = true ↔
      ∃ p ∈ posts, ∃ c, p.content = some c ∧ c ≠ "" ∧ challenge.data <:+: c.data) ∧
    (challenge ≠ "" →
      ((verifyOwnership username challenge (.ok data) now).verified = true ↔
        ∃ p ∈ posts, ∃ c, p.content = some c ∧ challenge.data <:+: c.data)) ∧
    (verifyOwnership username challenge (.ok data) now).postsChecked = some posts.length ∧
    (verifyOwnership username challenge (.ok data) now).error = none := by
  have hv : (verifyOwnership username challenge (.ok data) now).verified
      = posts.any (postMatches challenge) := by
    rcases hdata with rfl | rfl <;> rfl
  have hmain : (verifyOwnership username challenge (.ok data) now).verified = true ↔
      ∃ p ∈ posts, ∃ c, p.content = some c ∧ c ≠ "" ∧ challenge.data <:+: c.data := by
    rw [hv, List.any_eq_true]
    constructor
    · rintro ⟨p, hp, hm⟩
      exact ⟨p, hp, (postMatches_iff challenge p).1 hm⟩
    · rintro ⟨p, hp, hm⟩
      exact ⟨p, hp, (postMatches_iff challenge p).2 hm⟩
  refine ⟨hmain, fun hne => ?_, ?_, ?_⟩
  · rw [hmain]
    constructor
    · rintro ⟨p, hp, c, hc, -, hi⟩
      exact ⟨p, hp, c, hc, hi⟩
    · rintro ⟨p, hp, c, hc, hi⟩
      exact ⟨p, hp, c, hc, ne_empty_of_infix hne hi, hi⟩
  · rcases hdata with rfl | rfl <;> rfl
  · rcases hdata with rfl | rfl <;> rfl

/-- Witness for C8: two posts, the second quoting the challenge `abc`. -/
theorem verifyOwnership_verified_iff_witness :
    (verifyOwnership (.str "alice") "abc"
        (.ok (.array [{ content := none }, { content := some "xabcx" }])) 7).verified = true ∧
    (verifyOwnership (.str "alice") "abc"
        (.ok (.array [{ content := none }, { content := some "xabcx" }])) 7).postsChecked
      = some 2 :=
  have h := verifyOwnership_verified_iff (.str "alice") "abc"
    [{ content := none }, { content := some "xabcx" }] 7
    (.array [{ content := none }, { content := some "xabcx" }]) (Or.inr rfl)
  ⟨h.1.2 ⟨{ content := some "xabcx" }, by simp, "xabcx", rfl, by decide,
      ⟨['x'], ['x'], rfl⟩⟩, h.2.2.1⟩

theorem determineTier_min_1000 (score : JsNum) :
    determineTier (JsNum.min (.fin 1000) score) = determineTier score := by
  cases score with
  | nan => rfl
  | negInf => rfl
  | posInf =>
    simp only [JsNum.min, JsNum.le, determineTier, JsNum.ge, if_true, decide_eq_true_eq]
    rw [if_pos (by norm_num)]
  | fin q =>
    by_cases h : (1000 : ℚ) ≤ q
    · have h8 : (800 : ℚ) ≤ q := by linarith
      simp only [JsNum.min, JsNum.le, determineTier, JsNum.ge, h, h8, decide_True, if_true,
        decide_eq_true_eq]
      rw [if_pos (by norm_num)]
    · simp [JsNum.min, JsNum.le, h]

theorem determineTier_bands (score : JsNum) :
    (JsNum.lt score (.fin 400) = true → determineTier score = "bronze") ∧
    (JsNum.ge score (.fin 400) = true → JsNum.lt score (.fin 600) = true →
      determineTier score = "silver") ∧
    (JsNum.ge score (.fin 600) = true → JsNum.lt score (.fin 800) = true →
      determineTier score = "gold") ∧
    (JsNum.ge score (.fin 800) = true → determineTier score = "platinum") ∧
    determineTier score ≠ "unrated" := by
  have hne : determineTier score ≠ "unrated" := by
    unfold determineTier
    split_ifs <;> decide
  cases score with
  | nan => exact ⟨by simp [JsNum.lt], by simp [JsNum.ge, JsNum.le], by simp [JsNum.ge, JsNum.le],
      by simp [JsNum.ge, JsNum.le], hne⟩
  | negInf => exact ⟨fun _ => rfl, by simp [JsNum.ge, JsNum.le], by simp [JsNum.ge, JsNum.le],
      by simp [JsNum.ge, JsNum.le], hne⟩
  | posInf => exact ⟨by simp [JsNum.lt], by simp [JsNum.lt], by simp [JsNum.lt],
      fun _ => by simp [determineTier, JsNum.ge, JsNum.le], hne⟩
  | fin q =>
    have hd : determineTier (.fin q) =
        if 800 ≤ q then "platinum" else if 600 ≤ q then "gold"
        else if 400 ≤ q then "silver" else "bronze" := by
      simp [determineTier, JsNum.ge, JsNum.le]
    simp only [JsNum.lt, JsNum.ge, JsNum.le, decide_eq_true_eq]
    refine ⟨fun h => ?_, fun h1 h2 => ?_, fun h1 h2 => ?_, fun h => ?_, hne⟩
    · rw [hd, if_neg (by linarith), if_neg (by linarith), if_neg (by linarith)]
    · rw [hd, if_neg (by linarith), if_neg (by linarith), if_pos h1]
    · rw [hd, if_neg (by linarith), if_pos h1]
    · rw [hd, if_pos h]

/-- C10: for every found agent, getReputationMetrics returns a report whose tier is the one the
platform table assigns to the returned (clamped) score: bronze when score < 400, silver when
400 <= score < 600, gold when 600 <= score < 800, platinum when score >= 800; the tier unrated
is never returned. -/
theorem getReputationMetrics_tier_of_score (R : JsRuntime) (data : ProfileData) (now : ℕ) :
    ∃ r, getReputationMetrics R (.ok data) now = .report r ∧
      r.tier = determineTier r.score ∧
      (JsNum.lt r.score (.fin 400) = true → r.tier = "bronze") ∧
      (JsNum.ge r.score (.fin 400) = true → JsNum.lt r.score (.fin 600) = true →
        r.tier = "silver") ∧
      (JsNum.ge r.score (.fin 600) = true → JsNum.lt r.score (.fin 800) = true →
        r.tier = "gold") ∧
      (JsNum.ge r.score (.fin 800) = true → r.tier = "platinum") ∧
      r.tier ≠ "unrated" := by
  refine ⟨_, rfl, ?_⟩
  have ht : ∀ s : JsNum, determineTier s = determineTier (JsNum.min (.fin 1000) s) :=
    fun s => (determineTier_min_1000 s).symm
  refine ⟨ht _, ?_⟩
  show (_ → determineTier _ = _) ∧ (_ → _ → determineTier _ = _) ∧
    (_ → _ → determineTier _ = _) ∧ (_ → determineTier _ = _) ∧ determineTier _ ≠ _
  rw [ht]
  exact determineTier_bands _

end MoltbookBridge

/-! ## Moltbook routes -/

namespace MoltbookRoutes

open MoltbookBridge

theorem postChallenge_accepted (R : JsRuntime) (st : State) (username : JsVal) (nonce : String)
    (now : ℕ) (hu : username.truthy = true) :
    postChallenge R st username nonce now =
      ({ challenges := JsMap.set st.challenges username (generateChallenge R username nonce now)
         timers := st.timers ++ [{ username := username, due := now + 15 * 60 * 1000 }] },
       { status := 200, challenge := some (generateChallenge R username nonce now) }) := by
  simp [postChallenge, hu]

theorem postVerify_expired (st : State) (username : JsVal) (fetch : PostsFetch) (now : ℕ)
    (c : Challenge) (hu : username.truthy = true)
    (hget : JsMap.get st.challenges username = some c) (hexp : c.expiresAt < now) :
    postVerify st username fetch now =
      { state := { st with challenges := JsMap.delete st.challenges username }
        reply := { status := 400, error := some "Challenge expired. Generate a new one." }
        fetched := [] } := by
  simp [postVerify, hu, hget, hexp]

theorem postVerify_missing (st : State) (username : JsVal) (fetch : PostsFetch) (now : ℕ)
    (hget : JsMap.get st.challenges username = none) :
    (postVerify st username fetch now).state = st ∧
    (postVerify st username fetch now).fetched = [] ∧
    (postVerify st username fetch now).reply.status = 400 ∧
    (username.truthy = true → (postVerify st username fetch now).reply =
      { status := 400, error := some "No challenge found. Generate one first." }) := by
  unfold postVerify
  by_cases hu : username.truthy = true
  · simp [hu, hget]
  · simp [hu]

theorem postVerify_live (st : State) (username : JsVal) (fetch : PostsFetch) (now : ℕ)
    (c : Challenge) (hu : username.truthy = true)
    (hget : JsMap.get st.challenges username = some c) (hlive : ¬ c.expiresAt < now) :
    postVerify st username fetch now =
      { state :=
          if (verifyOwnership username c.challenge fetch now).verified then
            { st with challenges := JsMap.delete st.challenges username }
          else st
        reply :=
          { status := 200
            error := (verifyOwnership username c.challenge fetch now).error
            username := some username
            verified := some (verifyOwnership username c.challenge fetch now).verified
            checkedAt := (verifyOwnership username c.challenge fetch now).checkedAt
            postsChecked := (verifyOwnership username c.challenge fetch now).postsChecked
            challenge := some c.challenge }
        fetched := [username] } := by
  simp [postVerify, hu, hget, hlive]

theorem step_keys_truthy (R : JsRuntime) (st : State) (ev : Event) (now : ℕ)
    (inv : ∀ k c, JsMap.get st.challenges k = some c → k.truthy = true) :
    ∀ k c, JsMap.get (step R st ev now).challenges k = some c → k.truthy = true := by
  intro k c
  cases ev with
  | challenge username nonce =>
    by_cases hu : username.truthy = true
    · simp only [step, postChallenge_accepted R st username nonce now hu, JsMap.get_set]
      by_cases hk : k = username
      · intro _; rw [hk]; exact hu
      · rw [if_neg hk]; exact inv k c
    · simp only [step, postChallenge, hu, Bool.false_eq_true, Bool.not_false, if_true]
      simpa [hu] using inv k c
  | verify username fetch =>
    simp only [step]
    by_cases hu : username.truthy = true
    · cases hget : JsMap.get st.challenges username with
      | none => rw [(postVerify_missing st username fetch now hget).1]; exact inv k c
      | some c0 =>
        by_cases hexp : c0.expiresAt < now
        · rw [postVerify_expired st username fetch now c0 hu hget hexp]
          simp only [JsMap.get_delete]
          by_cases hk : k = username
          · simp [hk]
          · rw [if_neg hk]; exact inv k c
        · rw [postVerify_live st username fetch now c0 hu hget hexp]
          by_cases hv : (verifyOwnership username c0.challenge fetch now).verified = true
          · simp only [hv, if_true, JsMap.get_delete]
            by_cases hk : k = username
            · simp [hk]
            · rw [if_neg hk]; exact inv k c
          · simp only [hv, Bool.false_eq_true, if_false]
            exact inv k c
    · have : (postVerify st username fetch now).state = st := by
        simp [postVerify, hu]
      rw [this]; exact inv k c
  | timeout t =>
    simp only [step]
    split_ifs with h
    · simp only [timerCallback, JsMap.get_delete]
      by_cases hk : k = t.username
      · simp [hk]
      · rw [if_neg hk]; exact inv k c
    · exact inv k c

theorem Reachable.challenge_keys_truthy {R : JsRuntime} {st : State} (hr : Reachable R st) :
    ∀ k c, JsMap.get st.challenges k = some c → k.truthy = true := by
  induction hr with
  | init => intro k c h; simp [State.init, JsMap.get_nil] at h
  | step ev now _ ih => exact step_keys_truthy R _ ev now ih

/-- C5: in every reachable state, for every username with a stored challenge and every clock
reading strictly later than that challenge's expiresAt, the verify request is answered 400
"Challenge expired. Generate a new one." without any request to the external platform, and the
stored challenge of that username is removed (the other usernames keep theirs); a verify
request for the same username in the resulting state, at any time and whatever the platform
would answer, is answered 400 "No challenge found. Generate one first.", again without any
request to the platform. -/
theorem postVerify_expired_then_missing (R : JsRuntime) (st : State) (hr : Reachable R st)
    (username : JsVal) (c : Challenge) (hget : JsMap.get st.challenges username = some c)
    (now : ℕ) (hexp : c.expiresAt < now) (fetch : PostsFetch) :
    (postVerify st username fetch now).reply =
      { status := 400, error := some "Challenge expired. Generate a new one." } ∧
    (postVerify st username fetch now).fetched = [] ∧
    JsMap.get (postVerify st username fetch now).state.challenges username = none ∧
    (∀ k, k ≠ username →
      JsMap.get (postVerify st username fetch now).state.challenges k
        = JsMap.get st.challenges k) ∧
    ∀ (fetch2 : PostsFetch) (now2 : ℕ),
      (postVerify (postVerify st username fetch now).state username fetch2 now2).reply =
        { status := 400, error := some "No challenge found. Generate one first." } ∧
      (postVerify (postVerify st username fetch now).state username fetch2 now2).fetched = [] := by
  have hu := hr.challenge_keys_truthy username c hget
  rw [postVerify_expired st username fetch now c hu hget hexp]
  have hgone : JsMap.get (JsMap.delete st.challenges username) username = none := by
    rw [JsMap.get_delete, if_pos rfl]
  refine ⟨rfl, rfl, hgone, ?_, ?_⟩
  · intro k hk
    show JsMap.get (JsMap.delete st.challenges username) k = _
    rw [JsMap.get_delete, if_neg hk]
  · intro fetch2 now2
    have h := postVerify_missing { st with challenges := JsMap.delete st.challenges username }
      username fetch2 now2 hgone
    exact ⟨h.2.2.2 hu, h.2.1⟩

/-- C6: in every reachable state, for every username with a stored challenge that has not
expired at the time of the request, the verify request asks the platform for that user's posts
and removes the stored challenge if and only if the ownership result has verified=true; when
the result has verified=false, which is the case whenever the posts request fails (exception or
non-2xx response), the whole state is unchanged and the same challenge is still stored for the
username; in both cases the challenges of the other usernames are unchanged. -/
theorem postVerify_consumes_iff_verified (R : JsRuntime) (st : State) (hr : Reachable R st)
    (username : JsVal) (c : Challenge) (hget : JsMap.get st.challenges username = some c)
    (now : ℕ) (hlive : ¬ c.expiresAt < now) (fetch : PostsFetch) :
    (postVerify st username fetch now).reply.verified
      = some (verifyOwnership username c.challenge fetch now).verified ∧
    (postVerify st username fetch now).reply.challenge = some c.challenge ∧
    (postVerify st username fetch now).fetched = [username] ∧
    (JsMap.get (postVerify st username fetch now).state.challenges username = none ↔
      (verifyOwnership username c.challenge fetch now).verified = true) ∧
    ((verifyOwnership username c.challenge fetch now).verified = false →
      (postVerify st username fetch now).state = st ∧
      JsMap.get (postVerify st username fetch now).state.challenges username = some c) ∧
    ((∃ message, fetch = .threw message) ∨ (∃ status, fetch = .notOk status) →
      (verifyOwnership username c.challenge fetch now).verified = false) ∧
    (∀ k, k ≠ username →
      JsMap.get (postVerify st username fetch now).state.challenges k
        = JsMap.get st.challenges k) := by
  have hu := hr.challenge_keys_truthy username c hget
  rw [postVerify_live st username fetch now c hu hget hlive]
  refine ⟨rfl, rfl, rfl, ?_, ?_, ?_, ?_⟩
  · cases hv : (verifyOwnership username c.challenge fetch now).verified with
    | true => simp [JsMap.get_delete]
    | false => simp [hget]
  · intro hv
    simp [hv, hget]
  · rintro (⟨message, rfl⟩ | ⟨status, rfl⟩) <;> rfl
  · intro k hk
    cases hv : (verifyOwnership username c.challenge fetch now).verified with
    | true => simp [JsMap.get_delete, hk]
    | false => simp

theorem sampleState_get :
    JsMap.get sampleState.challenges (.str "alice") = some sampleChallenge := by
  show JsMap.get (postChallenge witnessRuntime State.init (.str "alice") "k3x9q2mz" 0).1.challenges
    (.str "alice") = some sampleChallenge
  rw [postChallenge_accepted witnessRuntime State.init (.str "alice") "k3x9q2mz" 0 (by decide)]
  show JsMap.get (JsMap.set State.init.challenges (.str "alice") sampleChallenge) (.str "alice")
    = some sampleChallenge
  rw [JsMap.get_set, if_pos rfl]

/-- Witness for C5: a challenge generated for `alice` at time 0 (expiring at 900000) and a verify
request 16 minutes after generation, followed by a second verify request. -/
theorem postVerify_expired_then_missing_witness :
    (postVerify sampleState (.str "alice") (quoting sampleChallenge.challenge) 960000).reply =
      { status := 400, error := some "Challenge expired. Generate a new one." } ∧
    (postVerify (postVerify sampleState (.str "alice") (quoting sampleChallenge.challenge)
        960000).state (.str "alice") (quoting sampleChallenge.challenge) 960001).reply =
      { status := 400, error := some "No challenge found. Generate one first." } :=
  have h := postVerify_expired_then_missing witnessRuntime sampleState
    (Reachable.step _ _ Reachable.init) (.str "alice") sampleChallenge
    sampleState_get
    960000 (by decide) (quoting sampleChallenge.challenge)
  ⟨h.1, (h.2.2.2.2 (quoting sampleChallenge.challenge) 960001).1⟩

/-- Witness for C6: the challenge of `alice` is still live at time 1000; a failed posts request
leaves the state as it was. -/
theorem postVerify_consumes_iff_verified_witness :
    (postVerify sampleState (.str "alice") (.notOk 503) 1000).state = sampleState ∧
    (postVerify sampleState (.str "alice") (.notOk 503) 1000).fetched = [.str "alice"] :=
  have h := postVerify_consumes_iff_verified witnessRuntime sampleState
    (Reachable.step _ _ Reachable.init) (.str "alice") sampleChallenge
    sampleState_get
    1000 (by decide) (.notOk 503)
  ⟨(h.2.2.2.2.1 (h.2.2.2.2.2.1 (Or.inr ⟨503, rfl⟩))).1, h.2.2.1⟩

theorem verifyOwnership_quoting (username : JsVal) (c : String) (now : ℕ) :
    (verifyOwnership username c (quoting c) now).verified = true := by
  have hne : ("proof " ++ c) ≠ "" := by
    intro h
    have := congrArg String.length h
    simp at this
    exact absurd this.1 (by decide)
  have hin : c.data <:+: ("proof " ++ c).data := by
    rw [String.data_append]
    exact (List.suffix_append _ _).isInfix
  have hm : postMatches c { content := some ("proof " ++ c) } = true :=
    (postMatches_iff c _).2 ⟨_, rfl, hne, hin⟩
  simp only [verifyOwnership, quoting, List.any_cons, hm, List.any_nil, Bool.or_false]

/-- C7 (defect in the code): the timer scheduled by a first challenge request for `alice` at
time T fires at T + 15 min and deletes whatever is stored for `alice`, here the challenge of a
second request made at T + 10 min, which expires only at T + 25 min.  Before the timer fires a
verify request whose posts quote that challenge succeeds; at the same clock reading after the
timer has fired it is answered "No challenge found. Generate one first.". -/
theorem timer_deletes_live_challenge (R : JsRuntime) (n1 n2 : String) (T : ℕ) :
    JsMap.get (secondChallengeState R n1 n2 T).challenges (.str "alice")
      = some (generateChallenge R (.str "alice") n2 (T + 600000)) ∧
    T + 900000 < (generateChallenge R (.str "alice") n2 (T + 600000)).expiresAt ∧
    JsMap.get (firstTimerFiredState R n1 n2 T).challenges (.str "alice") = none ∧
    (postVerify (secondChallengeState R n1 n2 T) (.str "alice")
      (quoting (generateChallenge R (.str "alice") n2 (T + 600000)).challenge)
      (T + 900000)).reply.verified = some true ∧
    (postVerify (firstTimerFiredState R n1 n2 T) (.str "alice")
      (quoting (generateChallenge R (.str "alice") n2 (T + 600000)).challenge)
      (T + 900000)).reply =
        { status := 400, error := some "No challenge found. Generate one first." } := by
  have hu : (JsVal.str "alice").truthy = true := by decide
  have hs2 : secondChallengeState R n1 n2 T =
      { challenges := JsMap.set (JsMap.set [] (.str "alice")
            (generateChallenge R (.str "alice") n1 T)) (.str "alice")
            (generateChallenge R (.str "alice") n2 (T + 600000))
        timers := [{ username := .str "alice", due := T + 15 * 60 * 1000 },
                   { username := .str "alice", due := T + 600000 + 15 * 60 * 1000 }] } := by
    simp only [secondChallengeState, step, postChallenge_accepted _ _ _ _ _ hu, State.init,
      List.nil_append, List.cons_append]
  have hget2 : JsMap.get (secondChallengeState R n1 n2 T).challenges (.str "alice")
      = some (generateChallenge R (.str "alice") n2 (T + 600000)) := by
    rw [hs2, JsMap.get_set, if_pos rfl]
  have hget3 : JsMap.get (firstTimerFiredState R n1 n2 T).challenges (.str "alice") = none := by
    have hfire : ({ username := .str "alice", due := T + 900000 } : Timer)
          ∈ (secondChallengeState R n1 n2 T).timers ∧
        ({ username := .str "alice", due := T + 900000 } : Timer).due ≤ T + 900000 := by
      rw [hs2]
      exact ⟨List.mem_cons_self _ _, le_refl _⟩
    simp only [firstTimerFiredState, step, if_pos hfire, timerCallback, JsMap.get_delete, if_true]
  have hlive : ¬ (generateChallenge R (.str "alice") n2 (T + 600000)).expiresAt < T + 900000 := by
    simp only [generateChallenge]; omega
  refine ⟨hget2, by simp only [generateChallenge]; omega, hget3, ?_, ?_⟩
  · rw [postVerify_live _ _ _ _ _ hu hget2 hlive, verifyOwnership_quoting]
  · exact (postVerify_missing _ _ _ _ hget3).2.2.2 hu

end MoltbookRoutes

/-! ## Reputation routes: validation and overwrite -/

namespace ReputationRoutes

/-- The record that `POST /:did` stores for an accepted request. -/
theorem postDid_of_valid (R : JsRuntime) (store : Store) (did : String) (body : UpdateBody)
    (now : ℕ)
    (hv : (JsNum.lt (body.score.toNumber R) (.fin 0) ||
      JsNum.gt (body.score.toNumber R) (.fin 1000)) = false) :
    postDid R store did body now =
      (JsMap.set store did
        { did := did
          score := body.score
          maxScore := 1000
          tier := calculateTier R body.score
          metrics :=
            { reliability := body.reliability.orElse (.num (.fin 0))
              taskCompletion := body.taskCompletion.orElse (.num (.fin 0))
              security := body.security.orElse (.num (.fin 0))
              timeliness := body.timeliness.orElse (.num (.fin 0))
              peerEndorsements := body.peerEndorsements.orElse (.num (.fin 0)) }
          interactions :=
            { total := body.totalInteractions.orElse (.num (.fin 0))
              successful := body.successfulInteractions.orElse (.num (.fin 0))
              disputed := .fin 0
              failed := numSub R ((body.totalInteractions.orElse (.num (.fin 0))).toNumber R)
                ((body.successfulInteractions.orElse (.num (.fin 0))).toNumber R) }
          updatedAt := some now },
       { status := 200
         did := some did
         score := some body.score
         tier := some (calculateTier R body.score)
         updatedAt := some now
         message := some "Reputation updated successfully" }) := by
  simp [postDid, hv]

theorem postDid_of_invalid (R : JsRuntime) (store : Store) (did : String) (body : UpdateBody)
    (now : ℕ)
    (hv : (JsNum.lt (body.score.toNumber R) (.fin 0) ||
      JsNum.gt (body.score.toNumber R) (.fin 1000)) = true) :
    postDid R store did body now =
      (store, { status := 400, error := some "Score must be between 0 and 1000" }) := by
  simp only [postDid, hv, if_true]

theorem valid_of_status_200 (R : JsRuntime) (store : Store) (did : String) (body : UpdateBody)
    (now : ℕ) (h : (postDid R store did body now).2.status = 200) :
    (JsNum.lt (body.score.toNumber R) (.fin 0) ||
      JsNum.gt (body.score.toNumber R) (.fin 1000)) = false := by
  cases hv : (JsNum.lt (body.score.toNumber R) (.fin 0) ||
      JsNum.gt (body.score.toNumber R) (.fin 1000)) with
  | false => rfl
  | true =>
    rw [postDid_of_invalid R store did body now hv] at h
    simp at h

theorem orElse_undefined (w : JsVal) : JsVal.undefined.orElse w = w := rfl

theorem orElse_fin (q : ℚ) : (JsVal.num (.fin q)).orElse (.num (.fin 0)) = .num (.fin q) := by
  by_cases h : q = 0
  · subst h; simp [JsVal.orElse, JsVal.truthy, JsNum.truthy]
  · simp [JsVal.orElse, JsVal.truthy, JsNum.truthy, h]

theorem orElse_of_truthy {v : JsVal} (w : JsVal) (h : v.truthy = true) : v.orElse w = v := by
  simp [JsVal.orElse, h]

theorem numSub_int (R : JsRuntime) (a b : ℤ) (ha : |a| ≤ 2 ^ 53) (hb : |b| ≤ 2 ^ 53)
    (hab : |a - b| ≤ 2 ^ 53) :
    numSub R (.fin (a : ℚ)) (.fin (b : ℚ)) = .fin ((a - b : ℤ) : ℚ) := by
  have h1 : |(a : ℚ)| ≤ 2 ^ 53 := by exact_mod_cast ha
  have h2 : |(b : ℚ)| ≤ 2 ^ 53 := by exact_mod_cast hb
  have h3 : |(a : ℚ) - (b : ℚ)| ≤ 2 ^ 53 := by exact_mod_cast hab
  have i1 : (a : ℚ).isInt = true := by simp [Rat.isInt]
  have i2 : (b : ℚ).isInt = true := by simp [Rat.isInt]
  simp [numSub, h1, h2, h3, i1, i2]

/-- C11: for every store, DID and request, an update whose score compares below 0 or above 1000
is answered 400 "Score must be between 0 and 1000"; an update answered 400 leaves the store
exactly as it was; an update whose score compares within [0,1000] is answered 200 and stored.
For a numeric score q this reads: rejected when q < 0 or q > 1000, accepted when
0 <= q <= 1000. -/
theorem postDid_validation (R : JsRuntime) (store : Store) (did : String) (body : UpdateBody)
    (now : ℕ) :
    ((JsNum.lt (body.score.toNumber R) (.fin 0) = true ∨
        JsNum.gt (body.score.toNumber R) (.fin 1000) = true) →
      postDid R store did body now =
        (store, { status := 400, error := some "Score must be between 0 and 1000" })) ∧
    ((postDid R store did body now).2.status = 400 →
      (postDid R store did body now).1 = store) ∧
    ((JsNum.ge (body.score.toNumber R) (.fin 0) = true ∧
        JsNum.le (body.score.toNumber R) (.fin 1000) = true) →
      (postDid R store did body now).2.status = 200 ∧
      ∃ rec, JsMap.get (postDid R store did body now).1 did = some rec ∧
        rec.score = body.score) ∧
    (∀ q : ℚ, body.score = .num (.fin q) →
      ((q < 0 ∨ 1000 < q) →
        (postDid R store did body now).2.status = 400 ∧
        (postDid R store did body now).2.error = some "Score must be between 0 and 1000" ∧
        (postDid R store did body now).1 = store) ∧
      ((0 ≤ q ∧ q ≤ 1000) → (postDid R store did body now).2.status = 200)) := by
  have hrej : (JsNum.lt (body.score.toNumber R) (.fin 0) = true ∨
        JsNum.gt (body.score.toNumber R) (.fin 1000) = true) →
      postDid R store did body now =
        (store, { status := 400, error := some "Score must be between 0 and 1000" }) := by
    intro h
    exact postDid_of_invalid R store did body now (by simpa using h)
  have hacc : (JsNum.ge (body.score.toNumber R) (.fin 0) = true ∧
        JsNum.le (body.score.toNumber R) (.fin 1000) = true) →
      (JsNum.lt (body.score.toNumber R) (.fin 0) ||
        JsNum.gt (body.score.toNumber R) (.fin 1000)) = false := by
    rintro ⟨h0, h1⟩
    cases hs : body.score.toNumber R with
    | nan => rfl
    | negInf => rw [hs] at h0; simp [JsNum.ge, JsNum.le] at h0
    | posInf => rw [hs] at h1; simp [JsNum.le] at h1
    | fin q =>
      rw [hs] at h0 h1
      simp only [JsNum.ge, JsNum.le, decide_eq_true_eq] at h0 h1
      simp only [JsNum.lt, JsNum.gt, Bool.or_eq_false_iff, decide_eq_false_iff_not, not_lt]
      exact ⟨h0, h1⟩
  refine ⟨hrej, ?_, ?_, ?_⟩
  · intro h
    cases hv : (JsNum.lt (body.score.toNumber R) (.fin 0) ||
        JsNum.gt (body.score.toNumber R) (.fin 1000)) with
    | true => rw [postDid_of_invalid R store did body now hv]
    | false =>
      rw [postDid_of_valid R store did body now hv] at h
      simp at h
  · intro h
    rw [postDid_of_valid R store did body now (hacc h)]
    exact ⟨rfl, _, by rw [JsMap.get_set, if_pos rfl], rfl⟩
  · intro q hq
    have hn : body.score.toNumber R = .fin q := by rw [hq]; rfl
    constructor
    · intro h
      have hv : JsNum.lt (body.score.toNumber R) (.fin 0) = true ∨
          JsNum.gt (body.score.toNumber R) (.fin 1000) = true := by
        rw [hn]
        simpa [JsNum.lt, JsNum.gt] using h
      rw [hrej hv]
      exact ⟨rfl, rfl, rfl⟩
    · intro h
      have hv := hacc (by rw [hn]; simpa [JsNum.ge, JsNum.le] using h)
      rw [postDid_of_valid R store did body now hv]

/-- Witness for C11: the score 1001 is rejected and the score 1000 accepted on the empty
store. -/
theorem postDid_validation_witness :
    ((postDid witnessRuntime [] "did:a" (scoreOnly 1001) 5).2.status = 400 ∧
      (postDid witnessRuntime [] "did:a" (scoreOnly 1001) 5).2.error
        = some "Score must be between 0 and 1000" ∧
      (postDid witnessRuntime [] "did:a" (scoreOnly 1001) 5).1 = []) ∧
    (postDid witnessRuntime [] "did:a" (scoreOnly 1000) 5).2.status = 200 :=
  ⟨((postDid_validation witnessRuntime [] "did:a" (scoreOnly 1001) 5).2.2.2 1001
      (by simp [scoreOnly, JsVal.ofInt])).1 (Or.inr (by norm_num)),
   ((postDid_validation witnessRuntime [] "did:a" (scoreOnly 1000) 5).2.2.2 1000
      (by simp [scoreOnly, JsVal.ofInt])).2 ⟨by norm_num, by norm_num⟩⟩

theorem calculateTier_1000 (R : JsRuntime) : calculateTier R (JsVal.ofInt 1000) = "platinum" := by
  rw [calculateTier_ofInt]; simp

/-- C12: for every accepted update of a DID, the record stored under that DID is determined by
the request and the clock, whatever the store held before: its score is the supplied score and
its tier calculateTier(score); interactions.total and interactions.successful are the supplied
values (0 when the field is omitted; a supplied number is stored as it is); interactions.failed
is the difference total - successful (the exact difference for integers within 2^53);
interactions.disputed is 0; every omitted metric is 0; the records of other DIDs are unchanged.
For the request with score 1000, totalInteractions 10 and successfulInteractions 7 the stored
record has failed = 3, disputed = 0 and tier platinum. -/
theorem postDid_overwrites (R : JsRuntime) (store other : Store) (did : String)
    (body : UpdateBody) (now : ℕ) (hacc : (postDid R store did body now).2.status = 200) :
    (∃ rec, JsMap.get (postDid R store did body now).1 did = some rec ∧
      JsMap.get (postDid R other did body now).1 did = some rec ∧
      rec.did = did ∧ rec.score = body.score ∧ rec.tier = calculateTier R body.score ∧
      rec.updatedAt = some now ∧
      rec.interactions.total = body.totalInteractions.orElse (.num (.fin 0)) ∧
      rec.interactions.successful = body.successfulInteractions.orElse (.num (.fin 0)) ∧
      (body.totalInteractions = .undefined → rec.interactions.total = .num (.fin 0)) ∧
      (body.successfulInteractions = .undefined →
        rec.interactions.successful = .num (.fin 0)) ∧
      (∀ q : ℚ, body.totalInteractions = .num (.fin q) →
        rec.interactions.total = .num (.fin q)) ∧
      (∀ q : ℚ, body.successfulInteractions = .num (.fin q) →
        rec.interactions.successful = .num (.fin q)) ∧
      rec.interactions.failed = numSub R (rec.interactions.total.toNumber R)
        (rec.interactions.successful.toNumber R) ∧
      (∀ a b : ℤ, rec.interactions.total = JsVal.ofInt a →
        rec.interactions.successful = JsVal.ofInt b →
        |a| ≤ 2 ^ 53 → |b| ≤ 2 ^ 53 → |a - b| ≤ 2 ^ 53 →
        rec.interactions.failed = .fin ((a - b : ℤ) : ℚ)) ∧
      rec.interactions.disputed = .fin 0 ∧
      (body.reliability = .undefined → rec.metrics.reliability = .num (.fin 0)) ∧
      (body.taskCompletion = .undefined → rec.metrics.taskCompletion = .num (.fin 0)) ∧
      (body.security = .undefined → rec.metrics.security = .num (.fin 0)) ∧
      (body.timeliness = .undefined → rec.metrics.timeliness = .num (.fin 0)) ∧
      (body.peerEndorsements = .undefined → rec.metrics.peerEndorsements = .num (.fin 0))) ∧
    (∀ k, k ≠ did → JsMap.get (postDid R store did body now).1 k = JsMap.get store k) ∧
    ((postDid R store did exampleBody now).2.status = 200 ∧
      ∃ rec, JsMap.get (postDid R store did exampleBody now).1 did = some rec ∧
        rec.interactions.failed = .fin 3 ∧ rec.interactions.disputed = .fin 0 ∧
        rec.tier = "platinum") := by
  have hv := valid_of_status_200 R store did body now hacc
  refine ⟨?_, ?_, ?_⟩
  · rw [postDid_of_valid R store did body now hv, postDid_of_valid R other did body now hv]
    refine ⟨_, by rw [JsMap.get_set, if_pos rfl], by rw [JsMap.get_set, if_pos rfl],
      rfl, rfl, rfl, rfl, rfl, rfl, ?_, ?_, ?_, ?_, rfl, ?_, rfl, ?_, ?_, ?_, ?_, ?_⟩
    · intro h; simp only [h, orElse_undefined]
    · intro h; simp only [h, orElse_undefined]
    · intro q h; simp only [h, orElse_fin]
    · intro q h; simp only [h, orElse_fin]
    · intro a b ha hb h1 h2 h3
      simp only at ha hb
      simp only [ha, hb, JsVal.ofInt, JsVal.toNumber]
      exact numSub_int R a b h1 h2 h3
    · intro h; simp only [h, orElse_undefined]
    · intro h; simp only [h, orElse_undefined]
    · intro h; simp only [h, orElse_undefined]
    · intro h; simp only [h, orElse_undefined]
    · intro h; simp only [h, orElse_undefined]
  · intro k hk
    rw [postDid_of_valid R store did body now hv, JsMap.get_set, if_neg hk]
  · have hve : (JsNum.lt (exampleBody.score.toNumber R) (.fin 0) ||
        JsNum.gt (exampleBody.score.toNumber R) (.fin 1000)) = false := by
      simp [exampleBody, JsVal.ofInt, JsVal.toNumber, JsNum.lt, JsNum.gt]
    rw [postDid_of_valid R store did exampleBody now hve]
    refine ⟨rfl, _, by rw [JsMap.get_set, if_pos rfl], ?_, rfl, ?_⟩
    · have h10 : (JsVal.ofInt 10).orElse (.num (.fin 0)) = JsVal.ofInt 10 := by
        simp [JsVal.ofInt, orElse_fin]
      have h7 : (JsVal.ofInt 7).orElse (.num (.fin 0)) = JsVal.ofInt 7 := by
        simp [JsVal.ofInt, orElse_fin]
      show numSub R (((JsVal.ofInt 10).orElse (.num (.fin 0))).toNumber R)
        (((JsVal.ofInt 7).orElse (.num (.fin 0))).toNumber R) = .fin 3
      rw [h10, h7]
      have := numSub_int R 10 7 (by norm_num) (by norm_num) (by norm_num)
      simpa [JsVal.ofInt, JsVal.toNumber] using this
    · exact calculateTier_1000 R

/-- Witness for C12: the example request on a store that already holds a record for the DID. -/
theorem postDid_overwrites_witness :
    (postDid witnessRuntime goldStore "did:a" exampleBody 9).2.status = 200 ∧
    ∃ rec, JsMap.get (postDid witnessRuntime goldStore "did:a" exampleBody 9).1 "did:a"
        = some rec ∧
      rec.interactions.failed = .fin 3 ∧ rec.interactions.disputed = .fin 0 ∧
      rec.tier = "platinum" :=
  (postDid_overwrites witnessRuntime goldStore [] "did:a" exampleBody 9
    (by
      have hve : (JsNum.lt (exampleBody.score.toNumber witnessRuntime) (.fin 0) ||
          JsNum.gt (exampleBody.score.toNumber witnessRuntime) (.fin 1000)) = false := by
        simp [exampleBody, JsVal.ofInt, JsVal.toNumber, JsNum.lt, JsNum.gt]
      rw [postDid_of_valid witnessRuntime goldStore "did:a" exampleBody 9 hve])).2.2

end ReputationRoutes

/-! ## Reputation routes: leaderboard -/

namespace ReputationRoutes

theorem slice_zero (α : Type) (xs : List α) (limit : ℤ) (hl : 0 ≤ limit) :
    JsArray.slice xs 0 limit = xs.take limit.toNat := by
  have h0 : JsArray.relativeIndex xs.length 0 = 0 := by simp [JsArray.relativeIndex]
  have h1 : JsArray.relativeIndex xs.length limit = min limit.toNat xs.length := by
    simp [JsArray.relativeIndex, not_lt.mpr hl]
  rw [JsArray.slice, h0, h1, List.drop_zero, Nat.sub_zero]
  rcases Nat.le_total limit.toNat xs.length with h | h
  · rw [Nat.min_eq_left h]
  · rw [Nat.min_eq_right h, List.take_of_length_le (le_refl _), List.take_of_length_le h]

theorem orDefault_pos (limit d : ℤ) (hl : 1 ≤ limit) : JsArray.orDefault (some limit) d = limit := by
  have : limit ≠ 0 := by omega
  simp [JsArray.orDefault, this]

theorem compareScores_int (R : JsRuntime) (a b : Reputation) (sa sb : ℤ)
    (ha : a.score = JsVal.ofInt sa) (hb : b.score = JsVal.ofInt sb)
    (ha0 : 0 ≤ sa) (ha1 : sa ≤ 1000) (hb0 : 0 ≤ sb) (hb1 : sb ≤ 1000) :
    compareScores R a b = .fin ((sb - sa : ℤ) : ℚ) := by
  rw [compareScores, ha, hb]
  exact numSub_int R sb sa (by rw [abs_le]; constructor <;> omega)
    (by rw [abs_le]; constructor <;> omega) (by rw [abs_le]; constructor <;> omega)

theorem scoreKey_int {a : Reputation} {sa : ℤ} (ha : a.score = JsVal.ofInt sa) :
    scoreKey a = (sa : ℚ) := by
  simp [scoreKey, ha, JsVal.ofInt]

/-- On records with integer scores in [0,1000] the sort relation of the leaderboard is the
order of the scores, larger first. -/
theorem sortRel_iff (R : JsRuntime) (a b : Reputation)
    (ha : ∃ s : ℤ, a.score = JsVal.ofInt s ∧ 0 ≤ s ∧ s ≤ 1000)
    (hb : ∃ s : ℤ, b.score = JsVal.ofInt s ∧ 0 ≤ s ∧ s ≤ 1000) :
    JsNum.gt (compareScores R a b) (.fin 0) = false ↔ scoreKey a ≥ scoreKey b := by
  obtain ⟨sa, ha, ha0, ha1⟩ := ha
  obtain ⟨sb, hb, hb0, hb1⟩ := hb
  rw [compareScores_int R a b sa sb ha hb ha0 ha1 hb0 hb1, scoreKey_int ha, scoreKey_int hb]
  simp only [JsNum.gt, JsNum.lt, decide_eq_false_iff_not, not_lt, ge_iff_le]
  constructor
  · intro h
    have : ((sb - sa : ℤ) : ℚ) ≤ ((0 : ℤ) : ℚ) := by simpa using h
    have h' : sb - sa ≤ 0 := by exact_mod_cast this
    exact_mod_cast (by omega : sb ≤ sa)
  · intro h
    have h' : sb ≤ sa := by exact_mod_cast h
    have : sb - sa ≤ 0 := by omega
    exact_mod_cast this

theorem ge_of_scoreKey (R : JsRuntime) (a b : Reputation)
    (ha : ∃ s : ℤ, a.score = JsVal.ofInt s ∧ 0 ≤ s ∧ s ≤ 1000)
    (hb : ∃ s : ℤ, b.score = JsVal.ofInt s ∧ 0 ≤ s ∧ s ≤ 1000)
    (h : scoreKey a ≥ scoreKey b) :
    JsNum.ge (a.score.toNumber R) (b.score.toNumber R) = true := by
  obtain ⟨sa, ha, -⟩ := ha
  obtain ⟨sb, hb, -⟩ := hb
  rw [scoreKey_int ha, scoreKey_int hb] at h
  simp only [ha, hb, JsVal.ofInt, JsVal.toNumber, JsNum.ge, JsNum.le, decide_eq_true_eq]
  exact h

/-- The sorted array is sorted by score, larger first, when the scores are integers in
[0,1000]. -/
theorem sort_pairwise (R : JsRuntime) (l : List Reputation)
    (hl : ∀ rec ∈ l, ∃ s : ℤ, rec.score = JsVal.ofInt s ∧ 0 ≤ s ∧ s ≤ 1000) :
    (JsArray.sort (compareScores R) l).Pairwise (fun a b => scoreKey a ≥ scoreKey b) := by
  have hmap := List.map_insertionSort
    (fun a b : Reputation => JsNum.gt (compareScores R a b) (.fin 0) = false)
    (fun x y : ℚ => x ≥ y) scoreKey l
    (fun a ha b hb => sortRel_iff R a b (hl a ha) (hl b hb))
  have hsorted := List.sorted_insertionSort (fun x y : ℚ => x ≥ y) (l.map scoreKey)
  rw [← hmap] at hsorted
  exact List.pairwise_map.mp hsorted

/-- Stability: among the records of one score the sorted array keeps the original order. -/
theorem sort_filter_eq (R : JsRuntime) (l : List Reputation)
    (hl : ∀ rec ∈ l, ∃ s : ℤ, rec.score = JsVal.ofInt s ∧ 0 ≤ s ∧ s ≤ 1000) (v : JsVal) :
    (JsArray.sort (compareScores R) l).filter (fun a => decide (a.score = v))
      = l.filter (fun a => decide (a.score = v)) := by
  have hpair : (l.filter (fun a => decide (a.score = v))).Pairwise
      (fun a b => JsNum.gt (compareScores R a b) (.fin 0) = false) := by
    apply List.pairwise_of_forall_mem_list
    intro a ha b hb
    rw [List.mem_filter] at ha hb
    rw [sortRel_iff R a b (hl a ha.1) (hl b hb.1)]
    have h1 : a.score = v := by simpa using ha.2
    have h2 : b.score = v := by simpa using hb.2
    have : scoreKey a = scoreKey b := by simp [scoreKey, h1, h2]
    exact this.ge
  have hsub : List.Sublist (l.filter (fun a => decide (a.score = v)))
      (JsArray.sort (compareScores R) l) :=
    List.sublist_insertionSort hpair (List.filter_sublist _)
  have hsub2 := hsub.filter (fun a => decide (a.score = v))
  rw [List.filter_filter] at hsub2
  simp only [Bool.and_self] at hsub2
  have hlen : ((JsArray.sort (compareScores R) l).filter (fun a => decide (a.score = v))).length
      = (l.filter (fun a => decide (a.score = v))).length :=
    ((List.perm_insertionSort _ l).filter _).length_eq
  exact (hsub2.eq_of_length hlen.symm).symm

theorem getLeaderboard_agents (R : JsRuntime) (store : Store) (limit : ℤ) (hl : 1 ≤ limit)
    (tier : JsVal) :
    (getLeaderboard R store (some limit) tier).agents =
      (JsArray.sort (compareScores R)
        ((JsMap.values store).filter (passesFilter tier))).take limit.toNat := by
  have hf : (if tier.truthy then
        (JsMap.values store).filter (fun a => decide (JsVal.str a.tier = tier))
      else JsMap.values store) = (JsMap.values store).filter (passesFilter tier) := by
    cases ht : tier.truthy with
    | true =>
      have : passesFilter tier = fun a => decide (JsVal.str a.tier = tier) := by
        funext a; simp [passesFilter, ht]
      rw [this]; rfl
    | false =>
      have : passesFilter tier = fun _ => true := by
        funext a; simp [passesFilter, ht]
      rw [this]; simp
  simp only [getLeaderboard, orDefault_pos limit 10 hl, hf]
  exact slice_zero _ _ limit (by omega)

/-- C13 (amended): for every reputation store whose scores are integers in [0,1000], every
limit >= 1 and every tier query value, the leaderboard (a) has at most limit records and
reports their number as count, (b) contains only stored records, each with tier equal to the
query value when that value is given and not empty (an empty value filters nothing), (c) is
sorted by score in non-increasing order, the records of any one score appearing in their store
insertion order, and (d) is the top of the ranking: a stored record that passes the filter and
is not returned has a score less than or equal to that of every returned record; the number of
returned records is the smaller of limit and the number of stored records that pass the filter,
and no record is returned more often than it is stored. -/
theorem getLeaderboard_ranked (R : JsRuntime) (store : Store) (hs : IntegerScores store)
    (limit : ℤ) (hl : 1 ≤ limit) (tier : JsVal) :
    (getLeaderboard R store (some limit) tier).agents.length ≤ limit.toNat ∧
    (getLeaderboard R store (some limit) tier).count
      = (getLeaderboard R store (some limit) tier).agents.length ∧
    (∀ r ∈ (getLeaderboard R store (some limit) tier).agents,
      r ∈ JsMap.values store ∧ (tier.truthy = true → JsVal.str r.tier = tier)) ∧
    (getLeaderboard R store (some limit) tier).agents.Pairwise
      (fun a b => JsNum.ge (a.score.toNumber R) (b.score.toNumber R) = true) ∧
    (∀ v : JsVal, List.IsPrefix
      ((getLeaderboard R store (some limit) tier).agents.filter (fun a => decide (a.score = v)))
      (((JsMap.values store).filter (passesFilter tier)).filter
        (fun a => decide (a.score = v)))) ∧
    (∀ rec ∈ JsMap.values store, (tier.truthy = true → JsVal.str rec.tier = tier) →
      rec ∉ (getLeaderboard R store (some limit) tier).agents →
      ∀ r ∈ (getLeaderboard R store (some limit) tier).agents,
        JsNum.le (rec.score.toNumber R) (r.score.toNumber R) = true) ∧
    (getLeaderboard R store (some limit) tier).agents.length =
      min limit.toNat ((JsMap.values store).filter (passesFilter tier)).length ∧
    List.Subperm (getLeaderboard R store (some limit) tier).agents
      ((JsMap.values store).filter (passesFilter tier)) := by
  have hcount : (getLeaderboard R store (some limit) tier).count
      = (getLeaderboard R store (some limit) tier).agents.length := rfl
  rw [hcount, getLeaderboard_agents R store limit hl tier]
  have hcand : ∀ rec ∈ (JsMap.values store).filter (passesFilter tier),
      ∃ s : ℤ, rec.score = JsVal.ofInt s ∧ 0 ≤ s ∧ s ≤ 1000 :=
    fun rec h => hs rec (List.mem_filter.mp h).1
  have hmem : ∀ rec, rec ∈ JsArray.sort (compareScores R)
        ((JsMap.values store).filter (passesFilter tier)) ↔
      rec ∈ (JsMap.values store).filter (passesFilter tier) :=
    fun rec => List.mem_insertionSort _
  have hsorted := sort_pairwise R _ hcand
  have hpass : ∀ rec : Reputation, passesFilter tier rec = true ↔
      (tier.truthy = true → JsVal.str rec.tier = tier) := by
    intro rec
    cases ht : tier.truthy <;> simp [passesFilter, ht]
  refine ⟨List.length_take_le _ _, rfl, ?_, ?_, ?_, ?_, ?_, ?_⟩
  rotate_left 4
  · rw [List.length_take]
    congr 1
    exact (List.perm_insertionSort _ _).length_eq
  · exact (List.take_sublist _ _).subperm.trans (List.perm_insertionSort _ _).subperm
  · intro r hr
    have h1 := (hmem r).1 (List.mem_of_mem_take hr)
    rw [List.mem_filter] at h1
    exact ⟨h1.1, (hpass r).1 h1.2⟩
  · have hp := hsorted.sublist (List.take_sublist limit.toNat _)
    refine hp.imp_of_mem ?_
    intro a b ha hb hab
    exact ge_of_scoreKey R a b (hcand a ((hmem a).1 (List.mem_of_mem_take ha)))
      (hcand b ((hmem b).1 (List.mem_of_mem_take hb))) hab
  · intro v
    have hpre := (List.take_prefix limit.toNat (JsArray.sort (compareScores R)
      ((JsMap.values store).filter (passesFilter tier)))).filter (fun a => decide (a.score = v))
    rw [sort_filter_eq R _ hcand v] at hpre
    exact hpre
  · intro rec hrec hfilter hnot r hr
    have hin : rec ∈ JsArray.sort (compareScores R)
        ((JsMap.values store).filter (passesFilter tier)) :=
      (hmem rec).2 (List.mem_filter.mpr ⟨hrec, (hpass rec).2 hfilter⟩)
    have hdrop : rec ∈ (JsArray.sort (compareScores R)
        ((JsMap.values store).filter (passesFilter tier))).drop limit.toNat := by
      rw [← List.take_append_drop limit.toNat (JsArray.sort (compareScores R)
        ((JsMap.values store).filter (passesFilter tier))), List.mem_append] at hin
      exact hin.resolve_left hnot
    have hrel : scoreKey r ≥ scoreKey rec :=
      List.Sorted.rel_of_mem_take_of_mem_drop hsorted hr hdrop
    exact ge_of_scoreKey R r rec (hcand r ((hmem r).1 (List.mem_of_mem_take hr)))
      (hs rec hrec) hrel

theorem goldStore_eq : goldStore = [("did:a", goldRecord)] := by
  have hv : (JsNum.lt ((scoreOnly 700).score.toNumber witnessRuntime) (.fin 0) ||
      JsNum.gt ((scoreOnly 700).score.toNumber witnessRuntime) (.fin 1000)) = false := by
    simp [scoreOnly, JsVal.ofInt, JsVal.toNumber, JsNum.lt, JsNum.gt]
    norm_num
  have ht : calculateTier witnessRuntime (JsVal.ofInt 700) = "gold" := by
    rw [calculateTier_ofInt]; simp
  have h0 := numSub_int witnessRuntime 0 0 (by norm_num) (by norm_num) (by norm_num)
  simp only [Int.cast_zero, sub_self] at h0
  rw [goldStore, postDid_of_valid witnessRuntime [] "did:a" (scoreOnly 700) 0 hv]
  simp only [scoreOnly, emptyBody, orElse_undefined, ht, JsVal.toNumber, h0, JsMap.set,
    JsMap.has, List.any_nil, Bool.false_eq_true, if_false, List.nil_append, goldRecord]

theorem goldStore_integerScores : IntegerScores goldStore := by
  intro rec hrec
  rw [goldStore_eq] at hrec
  simp only [JsMap.values, List.map_cons, List.map_nil, List.mem_singleton] at hrec
  exact ⟨700, by rw [hrec]; rfl, by norm_num, by norm_num⟩

theorem rankedStore_integerScores : IntegerScores rankedStore := by
  intro rec hrec
  have hv : JsMap.values rankedStore = [tenRecord, goldRecord] := rfl
  rw [hv] at hrec
  simp only [List.mem_cons, List.mem_singleton, List.not_mem_nil, or_false] at hrec
  rcases hrec with rfl | rfl
  · exact ⟨10, rfl, by norm_num, by norm_num⟩
  · exact ⟨700, rfl, by norm_num, by norm_num⟩

/-- Witness for C13 (amended): on a store holding a record of score 10, stored first, and a
record of score 700, the leaderboard with limit 1 and no filter is the record of score 700. -/
theorem getLeaderboard_ranked_witness :
    (getLeaderboard witnessRuntime rankedStore (some 1) .undefined).agents = [goldRecord] := by
  obtain ⟨-, -, hmem, -, -, htop, hlen, -⟩ :=
    getLeaderboard_ranked witnessRuntime rankedStore rankedStore_integerScores 1 (le_refl 1)
      .undefined
  have hv : JsMap.values rankedStore = [tenRecord, goldRecord] := rfl
  have hl : ((JsMap.values rankedStore).filter (passesFilter .undefined)).length = 2 := rfl
  rw [hl] at hlen
  have hlen1 : (getLeaderboard witnessRuntime rankedStore (some 1) .undefined).agents.length
      = 1 := hlen
  obtain ⟨x, hx⟩ := List.length_eq_one.mp hlen1
  rw [hx] at hmem htop ⊢
  have hxm := (hmem x (List.mem_singleton_self x)).1
  rw [hv] at hxm htop
  simp only [List.mem_cons, List.mem_singleton, List.not_mem_nil, or_false] at hxm
  rcases hxm with rfl | rfl
  · exfalso
    have hne : goldRecord ∉ [tenRecord] := by simp [goldRecord, tenRecord]
    have h := htop goldRecord (by simp) (fun h => absurd h (by simp [JsVal.truthy])) hne
      tenRecord (List.mem_singleton_self _)
    simp [goldRecord, tenRecord, JsVal.ofInt, JsVal.toNumber, JsNum.le] at h
    norm_num at h
  · rfl

theorem scorelessFirstStore_eq :
    scorelessFirstStore = [("did:a", scorelessRecord), ("did:b", tenRecord)] := by
  have hv0 : (JsNum.lt (emptyBody.score.toNumber witnessRuntime) (.fin 0) ||
      JsNum.gt (emptyBody.score.toNumber witnessRuntime) (.fin 1000)) = false := by
    simp [emptyBody, JsVal.toNumber, JsNum.lt, JsNum.gt]
  have hv1 : (JsNum.lt ((scoreOnly 10).score.toNumber witnessRuntime) (.fin 0) ||
      JsNum.gt ((scoreOnly 10).score.toNumber witnessRuntime) (.fin 1000)) = false := by
    simp [scoreOnly, JsVal.ofInt, JsVal.toNumber, JsNum.lt, JsNum.gt]
    norm_num
  have ht : calculateTier witnessRuntime (JsVal.ofInt 10) = "unrated" := by
    rw [calculateTier_ofInt]; simp
  have h0 := numSub_int witnessRuntime 0 0 (by norm_num) (by norm_num) (by norm_num)
  simp only [Int.cast_zero, sub_self] at h0
  simp only [scorelessFirstStore, runUpdates,
    postDid_of_valid witnessRuntime _ _ emptyBody _ hv0,
    postDid_of_valid witnessRuntime _ _ (scoreOnly 10) _ hv1]
  simp only [scoreOnly, emptyBody, orElse_undefined, ht, calculateTier_undefined,
    JsVal.toNumber, h0, scorelessRecord, tenRecord]
  decide

/-- C13 as stated fails at two inputs.  With the query value tier given as the empty string the
leaderboard of a store holding one gold record returns that record, whose tier is not the given
value.  On a store holding a record without score (stored by an update that omits score)
followed by a record of score 10, the leaderboard with limit 1 returns the record without score;
the record of score 10 is not returned although its score is not less than or equal to the
score of the returned record. -/
theorem getLeaderboard_not_ranked :
    ((getLeaderboard witnessRuntime goldStore (some 10) (.str "")).agents = [goldRecord] ∧
      goldRecord.tier ≠ "") ∧
    (JsMap.values scorelessFirstStore = [scorelessRecord, tenRecord] ∧
      (getLeaderboard witnessRuntime scorelessFirstStore (some 1) .undefined).agents
        = [scorelessRecord] ∧
      tenRecord ∉ (getLeaderboard witnessRuntime scorelessFirstStore (some 1) .undefined).agents ∧
      JsNum.le (tenRecord.score.toNumber witnessRuntime)
        (scorelessRecord.score.toNumber witnessRuntime) = false) := by
  have h1 : (getLeaderboard witnessRuntime goldStore (some 10) (.str "")).agents
      = [goldRecord] := by
    rw [getLeaderboard_agents witnessRuntime goldStore 10 (by norm_num) (.str ""), goldStore_eq]
    have hp : passesFilter (.str "") goldRecord = true := by decide
    simp only [JsMap.values, List.map_cons, List.map_nil, List.filter_cons_of_pos hp,
      List.filter_nil, JsArray.sort, List.insertionSort, List.orderedInsert]
    rfl
  have hcmp : JsNum.gt (compareScores witnessRuntime scorelessRecord tenRecord) (.fin 0)
      = false := rfl
  have h2 : (getLeaderboard witnessRuntime scorelessFirstStore (some 1) .undefined).agents
      = [scorelessRecord] := by
    rw [getLeaderboard_agents witnessRuntime scorelessFirstStore 1 (le_refl 1) .undefined,
      scorelessFirstStore_eq]
    have hp1 : passesFilter .undefined scorelessRecord = true := by decide
    have hp2 : passesFilter .undefined tenRecord = true := by decide
    simp only [JsMap.values, List.map_cons, List.map_nil, List.filter_cons_of_pos hp1,
      List.filter_cons_of_pos hp2, List.filter_nil, JsArray.sort, List.insertionSort,
      List.orderedInsert, hcmp, if_true]
    rfl
  refine ⟨⟨h1, by decide⟩, ?_, h2, ?_, rfl⟩
  · rw [scorelessFirstStore_eq]; rfl
  · rw [h2]
    simp only [List.mem_singleton]
    decide

end ReputationRoutes

/-! ## Keyed stores: membership -/

namespace JsMap

variable {κ α : Type} [DecidableEq κ]

theorem mem_set {m : JsMap κ α} {k : κ} {v : α} {e : κ × α} (h : e ∈ set m k v) :
    e = (k, v) ∨ (e ∈ m ∧ e.1 ≠ k) := by
  unfold set at h
  by_cases hk : has m k = true
  · rw [if_pos hk, List.mem_map] at h
    obtain ⟨x, hx, hxe⟩ := h
    by_cases hxk : x.1 = k
    · left; rw [← hxe, if_pos hxk]
    · right; rw [if_neg hxk] at hxe; subst hxe; exact ⟨hx, hxk⟩
  · rw [if_neg hk, List.mem_append, List.mem_singleton] at h
    rcases h with h | h
    · right
      refine ⟨h, fun hek => hk ?_⟩
      simp only [has, List.any_eq_true, decide_eq_true_eq]
      exact ⟨e, h, hek⟩
    · left; exact h

end JsMap

theorem JsMap.exists_key_of_mem_values {κ α : Type} {m : JsMap κ α} {v : α}
    (h : v ∈ JsMap.values m) : ∃ k, (k, v) ∈ m := by
  simp only [JsMap.values, List.mem_map] at h
  obtain ⟨e, he, rfl⟩ := h
  exact ⟨e.1, he⟩

/-! ## Credential routes: revocation, lifecycle, listing -/

namespace CredentialRoutes

theorem postRevoke_found (store : Store) (credentialHash reason : JsVal) (now : ℕ)
    (anchor : Anchor) (ht : credentialHash.truthy = true)
    (hget : JsMap.get store credentialHash = some anchor) :
    postRevoke store { credentialHash := credentialHash, reason := reason } now =
      (JsMap.set store credentialHash
        { anchor with
          revoked := true
          revokedAt := some now
          revocationReason := some (reason.orElse (.str "No reason provided")) },
       { status := 200
         credentialHash := some credentialHash
         revokeStatus := some "revoked"
         revokedAt := some now
         reason := some (reason.orElse (.str "No reason provided")) }) := by
  simp [postRevoke, ht, hget]

/-- C14: for every anchored credential hash, two revoke requests in succession are both answered
200; after the second the anchor has revoked = true, revokedAt = the time of the second request
and revocationReason = the reason of the second request, or "No reason provided" when the
second request gives none; every other field of the anchor is as it was before the two
requests, and every other anchor of the store is unchanged by either request. -/
theorem postRevoke_twice (R : JsRuntime) (store : Store) (hr : Reachable R store)
    (credentialHash : JsVal) (anchor : Anchor)
    (hget : JsMap.get store credentialHash = some anchor)
    (reason1 reason2 : JsVal) (now1 now2 : ℕ) :
    (postRevoke store { credentialHash := credentialHash, reason := reason1 } now1).2.status
      = 200 ∧
    (postRevoke (postRevoke store { credentialHash := credentialHash, reason := reason1 } now1).1
      { credentialHash := credentialHash, reason := reason2 } now2).2.status = 200 ∧
    JsMap.get (postRevoke store { credentialHash := credentialHash, reason := reason1 } now1).1
        credentialHash =
      some { anchor with
        revoked := true
        revokedAt := some now1
        revocationReason := some (reason1.orElse (.str "No reason provided")) } ∧
    JsMap.get (postRevoke
        (postRevoke store { credentialHash := credentialHash, reason := reason1 } now1).1
        { credentialHash := credentialHash, reason := reason2 } now2).1 credentialHash =
      some { anchor with
        revoked := true
        revokedAt := some now2
        revocationReason := some (reason2.orElse (.str "No reason provided")) } ∧
    (reason2.truthy = true → reason2.orElse (.str "No reason provided") = reason2) ∧
    (reason2 = .undefined →
      reason2.orElse (.str "No reason provided") = .str "No reason provided") ∧
    (∀ k, k ≠ credentialHash →
      JsMap.get (postRevoke store { credentialHash := credentialHash, reason := reason1 }
        now1).1 k = JsMap.get store k ∧
      JsMap.get (postRevoke
        (postRevoke store { credentialHash := credentialHash, reason := reason1 } now1).1
        { credentialHash := credentialHash, reason := reason2 } now2).1 k
        = JsMap.get store k) := by
  have ht := hr.anchor_keys_truthy credentialHash anchor hget
  have h1 := postRevoke_found store credentialHash reason1 now1 anchor ht hget
  have hget1 : JsMap.get (postRevoke store
      { credentialHash := credentialHash, reason := reason1 } now1).1 credentialHash =
      some { anchor with
        revoked := true
        revokedAt := some now1
        revocationReason := some (reason1.orElse (.str "No reason provided")) } := by
    rw [h1, JsMap.get_set, if_pos rfl]
  have h2 := postRevoke_found _ credentialHash reason2 now2 _ ht hget1
  refine ⟨by rw [h1], by rw [h2], hget1, by rw [h2, JsMap.get_set, if_pos rfl], ?_, ?_, ?_⟩
  · intro h; simp [JsVal.orElse, h]
  · intro h; rw [h]; rfl
  · intro k hk
    have e1 : JsMap.get (postRevoke store
        { credentialHash := credentialHash, reason := reason1 } now1).1 k = JsMap.get store k := by
      rw [h1, JsMap.get_set, if_neg hk]
    refine ⟨e1, ?_⟩
    rw [h2, JsMap.get_set, if_neg hk, ← e1]

/-- Witness for C14: the sample anchor `h1` revoked at time 2 without reason and again at
time 3 with the reason `lost`. -/
theorem postRevoke_twice_witness :
    (postRevoke (postRevoke sampleStore { credentialHash := .str "h1", reason := .undefined }
      2).1 { credentialHash := .str "h1", reason := .str "lost" } 3).2.status = 200 ∧
    JsMap.get (postRevoke
        (postRevoke sampleStore { credentialHash := .str "h1", reason := .undefined } 2).1
        { credentialHash := .str "h1", reason := .str "lost" } 3).1 (.str "h1") =
      some { credentialHash := .str "h1", didHash := .str "d1", credentialType := .str "kyc",
             issuedAt := 1, expiresAt := some (.time 5), revoked := true, revokedAt := some 3,
             revocationReason := some (.str "lost") } :=
  have h := postRevoke_twice witnessRuntime sampleStore (Reachable.step _ _ Reachable.empty)
    (.str "h1")
    { credentialHash := .str "h1", didHash := .str "d1", credentialType := .str "kyc",
      issuedAt := 1, expiresAt := some (.time 5), revoked := false }
    (by decide) .undefined (.str "lost") 2 3
  ⟨h.2.1, h.2.2.2.1⟩

theorem stepAny_preserves (R : JsRuntime) (store : Store) (req : AnyRequest) (now : ℕ)
    (credentialHash : JsVal) (a : Anchor) (hget : JsMap.get store credentialHash = some a) :
    ∃ a', JsMap.get (stepAny R store req now) credentialHash = some a' ∧
      a'.credentialHash = a.credentialHash ∧ a'.didHash = a.didHash ∧
      a'.credentialType = a.credentialType ∧ a'.issuedAt = a.issuedAt ∧
      a'.expiresAt = a.expiresAt ∧ (a.revoked = true → a'.revoked = true) := by
  have hsame : ∃ a', JsMap.get store credentialHash = some a' ∧
      a'.credentialHash = a.credentialHash ∧ a'.didHash = a.didHash ∧
      a'.credentialType = a.credentialType ∧ a'.issuedAt = a.issuedAt ∧
      a'.expiresAt = a.expiresAt ∧ (a.revoked = true → a'.revoked = true) :=
    ⟨a, hget, rfl, rfl, rfl, rfl, rfl, id⟩
  cases req with
  | verify _ => exact hsame
  | list _ => exact hsame
  | anchor body =>
    simp only [stepAny]
    by_cases hf : body.credentialHash.truthy = true ∧ body.didHash.truthy = true ∧
        body.credentialType.truthy = true
    · cases hhas : JsMap.has store body.credentialHash with
      | true => rw [postAnchor_conflict R store body now hf.1 hf.2.1 hf.2.2 hhas]; exact hsame
      | false =>
        rw [postAnchor_fresh R store body now hf.1 hf.2.1 hf.2.2 hhas]
        have hne : credentialHash ≠ body.credentialHash := by
          intro h
          rw [← h, JsMap.has_eq_isSome, hget] at hhas
          cases hhas
        simp only [JsMap.get_set, if_neg hne]
        exact hsame
    · rw [postAnchor_missing R store body now hf]; exact hsame
  | revoke body =>
    simp only [stepAny]
    by_cases ht : body.credentialHash.truthy = true
    · cases hg : JsMap.get store body.credentialHash with
      | none =>
        have : (postRevoke store body now).1 = store := by simp [postRevoke, ht, hg]
        rw [this]; exact hsame
      | some anchor =>
        have h := postRevoke_found store body.credentialHash body.reason now anchor ht hg
        have hb : ({ credentialHash := body.credentialHash, reason := body.reason } : RevokeBody)
            = body := rfl
        rw [hb] at h
        rw [h]
        by_cases hk : credentialHash = body.credentialHash
        · have ha : anchor = a := by
            rw [← hk, hget] at hg
            exact (Option.some.inj hg).symm
          subst ha
          exact ⟨{ anchor with
              revoked := true
              revokedAt := some now
              revocationReason := some (body.reason.orElse (.str "No reason provided")) },
            by rw [JsMap.get_set, if_pos hk], rfl, rfl, rfl, rfl, rfl, fun _ => rfl⟩
        · simp only [JsMap.get_set, if_neg hk]
          exact hsame
    · have : (postRevoke store body now).1 = store := by simp [postRevoke, ht]
      rw [this]; exact hsame

/-- C15: under every sequence of anchor, verify, revoke and list requests, a credential hash
that is a key of the store is still a key afterwards, the credentialHash, didHash,
credentialType, issuedAt and expiresAt of its anchor are what they were, and a revoked flag
that was true is still true. -/
theorem anchor_lifecycle (R : JsRuntime) (store : Store) (requests : List (AnyRequest × ℕ))
    (credentialHash : JsVal) (a : Anchor) (hget : JsMap.get store credentialHash = some a) :
    ∃ a', JsMap.get (runRequests R store requests) credentialHash = some a' ∧
      a'.credentialHash = a.credentialHash ∧ a'.didHash = a.didHash ∧
      a'.credentialType = a.credentialType ∧ a'.issuedAt = a.issuedAt ∧
      a'.expiresAt = a.expiresAt ∧ (a.revoked = true → a'.revoked = true) := by
  induction requests generalizing store a with
  | nil => exact ⟨a, hget, rfl, rfl, rfl, rfl, rfl, id⟩
  | cons head rest ih =>
    obtain ⟨req, now⟩ := head
    obtain ⟨a1, hg1, e1, e2, e3, e4, e5, e6⟩ :=
      stepAny_preserves R store req now credentialHash a hget
    obtain ⟨a2, hg2, f1, f2, f3, f4, f5, f6⟩ := ih (stepAny R store req now) a1 hg1
    exact ⟨a2, hg2, f1.trans e1, f2.trans e2, f3.trans e3, f4.trans e4, f5.trans e5,
      fun h => f6 (e6 h)⟩

/-- Witness for C15: the revoked sample anchor after a second anchor request for the same hash,
a verify request, a list request and another revoke request. -/
theorem anchor_lifecycle_witness :
    ∃ a', JsMap.get (runRequests witnessRuntime sampleRevokedStore
        [(.anchor sampleSecondBody, 3), (.verify (.str "h1"), 4), (.list "d1", 5),
         (.revoke { credentialHash := .str "h1", reason := .str "again" }, 6)])
        (.str "h1") = some a' ∧
      a'.didHash = .str "d1" ∧ a'.issuedAt = 1 ∧ a'.revoked = true :=
  have h := anchor_lifecycle witnessRuntime sampleRevokedStore
    [(.anchor sampleSecondBody, 3), (.verify (.str "h1"), 4), (.list "d1", 5),
     (.revoke { credentialHash := .str "h1", reason := .str "again" }, 6)]
    (.str "h1")
    { credentialHash := .str "h1", didHash := .str "d1", credentialType := .str "kyc",
      issuedAt := 1, expiresAt := some (.time 5), revoked := true, revokedAt := some 2,
      revocationReason := some (.str "No reason provided") }
    (by decide)
  h.elim fun a' ha => ⟨a', ha.1, ha.2.2.1, ha.2.2.2.2.1, ha.2.2.2.2.2.2 rfl⟩

theorem mem_of_get {m : Store} {k : JsVal} {a : Anchor} (h : JsMap.get m k = some a) :
    (k, a) ∈ m := by
  induction m with
  | nil => simp [JsMap.get_nil] at h
  | cons e m ih =>
    rw [JsMap.get_cons] at h
    by_cases he : e.1 = k
    · rw [if_pos he] at h
      have : e = (k, a) := by
        cases e with
        | mk e1 e2 =>
          simp only at he h
          rw [he, Option.some.inj h]
      rw [this]; exact List.mem_cons_self _ _
    · rw [if_neg he] at h
      exact List.mem_cons_of_mem _ (ih h)

theorem set_entries (m : Store) (k : JsVal) (v : Anchor) (hv : v.credentialHash = k)
    (inv : ∀ e ∈ m, JsMap.get m e.1 = some e.2 ∧ e.2.credentialHash = e.1) :
    ∀ e ∈ JsMap.set m k v,
      JsMap.get (JsMap.set m k v) e.1 = some e.2 ∧ e.2.credentialHash = e.1 := by
  intro e he
  rcases JsMap.mem_set he with h | ⟨hmem, hne⟩
  · rw [h]
    exact ⟨by rw [JsMap.get_set, if_pos rfl], hv⟩
  · rw [JsMap.get_set, if_neg hne]
    exact inv e hmem

/-- In a reachable store every entry is the one found under its key, and the key is the
credentialHash of the anchor. -/
theorem Reachable.entries {R : JsRuntime} {store : Store} (hr : Reachable R store) :
    ∀ e ∈ store, JsMap.get store e.1 = some e.2 ∧ e.2.credentialHash = e.1 := by
  induction hr with
  | empty => intro e he; cases he
  | @step store req now _ ih =>
    cases req with
    | anchor body =>
      show ∀ e ∈ (postAnchor R store body now).1,
        JsMap.get (postAnchor R store body now).1 e.1 = some e.2 ∧ e.2.credentialHash = e.1
      by_cases hf : body.credentialHash.truthy = true ∧ body.didHash.truthy = true ∧
          body.credentialType.truthy = true
      · cases hhas : JsMap.has store body.credentialHash with
        | true => rw [postAnchor_conflict R store body now hf.1 hf.2.1 hf.2.2 hhas]; exact ih
        | false =>
          rw [postAnchor_fresh R store body now hf.1 hf.2.1 hf.2.2 hhas]
          exact set_entries store _ _ rfl ih
      · rw [postAnchor_missing R store body now hf]; exact ih
    | revoke body =>
      show ∀ e ∈ (postRevoke store body now).1,
        JsMap.get (postRevoke store body now).1 e.1 = some e.2 ∧ e.2.credentialHash = e.1
      by_cases ht : body.credentialHash.truthy = true
      · cases hg : JsMap.get store body.credentialHash with
        | none =>
          have : (postRevoke store body now).1 = store := by simp [postRevoke, ht, hg]
          rw [this]; exact ih
        | some anchor =>
          have h := postRevoke_found store body.credentialHash body.reason now anchor ht hg
          have hb : ({ credentialHash := body.credentialHash, reason := body.reason }
              : RevokeBody) = body := rfl
          rw [hb] at h
          rw [h]
          exact set_entries store _ _ (ih _ (mem_of_get hg)).2 ih
      · have : (postRevoke store body now).1 = store := by simp [postRevoke, ht]
        rw [this]; exact ih

theorem postVerify_of_get (store : Store) (c : Anchor) (now : ℕ)
    (ht : c.credentialHash.truthy = true)
    (hget : JsMap.get store c.credentialHash = some c) :
    postVerify store c.credentialHash now =
      if c.revoked then
        { status := 200, valid := some false, reason := some "Credential revoked",
          anchoredAt := some c.issuedAt }
      else if isExpired c now then
        { status := 200, valid := some false, reason := some "Credential expired",
          anchoredAt := some c.issuedAt, expiredAt := c.expiresAt }
      else
        { status := 200, valid := some true, reason := some "Valid",
          anchoredAt := some c.issuedAt, expiresAt := some c.expiresAt,
          didHash := some c.didHash, type := some c.credentialType } := by
  simp [postVerify, ht, hget]

/-- C16: in every reachable credential store, for every didHash d and every clock reading,
list-by-DID returns the summaries of exactly the stored anchors whose didHash is d, in
insertion order, with count equal to their number; and for each stored anchor the status of its
summary agrees with the answer of verify for its credentialHash at the same clock reading:
revoked iff verify's reason is "Credential revoked", expired iff it is "Credential expired",
active iff verify reports valid = true. -/
theorem getAgentCredentials_agrees (R : JsRuntime) (store : Store) (hr : Reachable R store)
    (d : String) (now : ℕ) :
    (getAgentCredentials store d now).credentials =
      ((JsMap.values store).filter (fun c => decide (c.didHash = .str d))).map
        (summarize now) ∧
    (getAgentCredentials store d now).count =
      ((JsMap.values store).filter (fun c => decide (c.didHash = .str d))).length ∧
    (∀ s, s ∈ (getAgentCredentials store d now).credentials ↔
      ∃ c ∈ JsMap.values store, c.didHash = .str d ∧ s = summarize now c) ∧
    (∀ c ∈ JsMap.values store,
      (summarize now c).credentialHash = c.credentialHash ∧
      ((summarize now c).status = "revoked" ↔
        (postVerify store c.credentialHash now).reason = some "Credential revoked") ∧
      ((summarize now c).status = "expired" ↔
        (postVerify store c.credentialHash now).reason = some "Credential expired") ∧
      ((summarize now c).status = "active" ↔
        (postVerify store c.credentialHash now).valid = some true)) := by
  refine ⟨rfl, by simp [getAgentCredentials], ?_, ?_⟩
  · intro s
    simp only [getAgentCredentials, List.mem_map, List.mem_filter, decide_eq_true_eq]
    constructor
    · rintro ⟨c, ⟨hc, hd⟩, rfl⟩
      exact ⟨c, hc, hd, rfl⟩
    · rintro ⟨c, hc, hd, rfl⟩
      exact ⟨c, ⟨hc, hd⟩, rfl⟩
  · intro c hc
    obtain ⟨k, hk⟩ := JsMap.exists_key_of_mem_values hc
    have hent := hr.entries (k, c) hk
    have hkey : c.credentialHash = k := hent.2
    have hget : JsMap.get store c.credentialHash = some c := by rw [hkey]; exact hent.1
    have ht := hr.anchor_keys_truthy c.credentialHash c hget
    rw [postVerify_of_get store c now ht hget]
    refine ⟨rfl, ?_, ?_, ?_⟩
    · cases hrev : c.revoked <;> cases hexp : isExpired c now <;>
        simp [summarize, hrev, hexp]
    · cases hrev : c.revoked <;> cases hexp : isExpired c now <;>
        simp [summarize, hrev, hexp]
    · cases hrev : c.revoked <;> cases hexp : isExpired c now <;>
        simp [summarize, hrev, hexp]

/-- Witness for C16: the revoked sample anchor listed for `d1` at time 10. -/
theorem getAgentCredentials_agrees_witness :
    (getAgentCredentials sampleRevokedStore "d1" 10).count = 1 ∧
    (getAgentCredentials sampleRevokedStore "d1" 10).credentials.map (fun s => s.status)
      = ["revoked"] ∧
    (postVerify sampleRevokedStore (.str "h1") 10).reason = some "Credential revoked" :=
  have h := getAgentCredentials_agrees witnessRuntime sampleRevokedStore
    (Reachable.step _ _ (Reachable.step _ _ Reachable.empty)) "d1" 10
  ⟨h.2.1.trans (by decide), by rw [h.1]; decide,
    ((h.2.2.2
        { credentialHash := .str "h1"
          didHash := .str "d1"
          credentialType := .str "kyc"
          issuedAt := 1
          expiresAt := some (.time 5)
          revoked := true
          revokedAt := some 2
          revocationReason := some (.str "No reason provided") } (by decide)).2.1).1
      (by decide)⟩

end CredentialRoutes

/-! ## DID routes -/

namespace DidRoutes

theorem postRegister_missing (R : JsRuntime) (B : DidBuiltins) (store : Store)
    (body : RegisterBody) (now : ℕ) (randomText : String)
    (h : ¬ (body.platform.truthy = true ∧ body.agentName.truthy = true ∧
      body.publicKey.truthy = true)) :
    postRegister R B store body now randomText =
      (store,
        { status := 400
          error := some "Missing required fields: platform, agentName, publicKey" }) := by
  unfold postRegister
  rw [if_pos]
  simp only [Bool.or_eq_true, Bool.not_eq_true']
  by_contra hc
  apply h
  simp only [not_or, Bool.not_eq_false] at hc
  exact ⟨hc.1.1, hc.1.2, hc.2⟩

theorem postRegister_ok (R : JsRuntime) (B : DidBuiltins) (store : Store)
    (body : RegisterBody) (now : ℕ) (randomText : String) (name : String)
    (h1 : body.platform.truthy = true) (hn : body.agentName = .str name)
    (h2 : body.agentName.truthy = true) (h3 : body.publicKey.truthy = true) :
    postRegister R B store body now randomText =
      (JsMap.set store (makeDid R B body.platform name now randomText)
          (makeRecord R B body name now randomText),
        { status := 201
          did := some (makeDid R B body.platform name now randomText)
          didHash := some (B.keccak256 (makeDid R B body.platform name now randomText))
          document := some (makeRecord R B body name now randomText).document
          message := some "DID registered successfully" }) := by
  unfold postRegister
  rw [if_neg (by simp [h1, h2, h3])]
  simp only [hn]
  rfl

theorem postRegister_not_string (R : JsRuntime) (B : DidBuiltins) (store : Store)
    (body : RegisterBody) (now : ℕ) (randomText : String)
    (h1 : body.platform.truthy = true) (h2 : body.agentName.truthy = true)
    (h3 : body.publicKey.truthy = true) (hn : ∀ name, body.agentName ≠ .str name) :
    postRegister R B store body now randomText =
      (store, { status := 500, error := some "Failed to register DID" }) := by
  unfold postRegister
  rw [if_neg (by simp [h1, h2, h3])]
  cases hb : body.agentName with
  | str name => exact absurd hb (hn name)
  | undefined => rfl
  | null => rfl
  | bool b => rfl
  | num n => rfl

theorem isSlugChar_base36Digit : ∀ d : ℕ, d < 36 → isSlugChar (base36Digit d) = true := by
  decide

theorem base36Value_base36Digit : ∀ d : ℕ, d < 36 → base36Value (base36Digit d) = d := by
  decide

theorem isSlugChar_ne_hyphen {c : Char} (h : isSlugChar c = true) : c ≠ '-' := by
  rintro rfl
  exact absurd h (by decide)

theorem toBase36_chars (n : ℕ) : ∀ c ∈ (toBase36 n).data, isSlugChar c = true := by
  intro c hc
  unfold toBase36 at hc
  by_cases h0 : n = 0
  · rw [if_pos h0] at hc
    have : c = '0' := by simpa using hc
    rw [this]; decide
  · rw [if_neg h0] at hc
    simp only [List.mem_map, List.mem_reverse] at hc
    obtain ⟨d, hd, rfl⟩ := hc
    exact isSlugChar_base36Digit d (Nat.digits_lt_base (by norm_num) hd)

theorem toBase36_value (n : ℕ) :
    Nat.ofDigits 36 ((toBase36 n).data.reverse.map base36Value) = n := by
  unfold toBase36
  by_cases h0 : n = 0
  · rw [if_pos h0, h0]; decide
  · rw [if_neg h0]
    simp only [List.map_reverse, List.reverse_reverse, List.map_map]
    have : (Nat.digits 36 n).map (base36Value ∘ base36Digit) = Nat.digits 36 n := by
      conv_rhs => rw [← List.map_id (Nat.digits 36 n)]
      apply List.map_congr_left
      intro d hd
      exact base36Value_base36Digit d (Nat.digits_lt_base (by norm_num) hd)
    rw [this, Nat.ofDigits_digits]

theorem sanitize_chars (text : String) :
    ∀ c ∈ (sanitize text).data, isSlugChar c = true ∨ c = '-' := by
  intro c hc
  simp only [sanitize, List.mem_flatMap] at hc
  obtain ⟨x, -, hx⟩ := hc
  by_cases h1 : isSlugChar x = true
  · rw [if_pos h1] at hx
    left; rw [List.mem_singleton.mp hx]; exact h1
  · rw [if_neg h1] at hx
    right
    split_ifs at hx <;> simp at hx <;> exact hx

theorem randomSuffix_length (randomText : String) :
    (randomSuffix randomText).length ≤ 8 := by
  simp only [randomSuffix, String.length]
  exact List.length_take_le _ _

/-- C18 as stated fails: when `Math.random()` returns 0.5, whose base-36 text is `0.i`, the
registration succeeds and the random part of the did is the single character `i`, not eight
characters. -/
theorem postRegister_short_random :
    (postRegister witnessRuntime witnessBuiltins [] sampleBody 0 "0.i").2.status = 201 ∧
    (postRegister witnessRuntime witnessBuiltins [] sampleBody 0 "0.i").2.did
      = some "did:agent:moltbook:my-bot-0-i" ∧
    randomSuffix "0.i" = "i" ∧
    (randomSuffix "0.i").length ≠ 8 := by
  decide

/-- C18 (amended): a registration whose platform, agentName (a string) and publicKey are present
is answered 201 with the did "did:agent:" + platform + ":" + slug + "-" + timestamp36 + "-" +
random, and every registration answered 201 is of that kind; slug is the lower-cased agentName
with every code unit outside [a-z0-9] replaced by "-", so it holds only characters of
[a-z0-9-]; timestamp36 is the base-36 rendering of the clock (its digits, all in [a-z0-9],
evaluate to the clock value); random is the text of Math.random().toString(36) from its third
to its tenth character, at most 8 characters long and exactly 8 when that text has at least 10
characters.  A request in which platform, agentName or publicKey is absent is answered 400
"Missing required fields" and leaves the store unchanged. -/
theorem postRegister_did_format (R : JsRuntime) (B : DidBuiltins) (store : Store)
    (body : RegisterBody) (now : ℕ) (randomText : String) :
    (∀ name, body.agentName = .str name → body.platform.truthy = true →
      body.agentName.truthy = true → body.publicKey.truthy = true →
      (postRegister R B store body now randomText).2.status = 201 ∧
      (postRegister R B store body now randomText).2.did =
        some ("did:agent:" ++ body.platform.toStr R ++ ":" ++ sanitize (B.toLowerCase name)
          ++ "-" ++ toBase36 now ++ "-" ++ randomSuffix randomText)) ∧
    ((postRegister R B store body now randomText).2.status = 201 →
      ∃ name, body.agentName = .str name ∧ body.platform.truthy = true ∧
        body.publicKey.truthy = true ∧
        (postRegister R B store body now randomText).2.did =
          some ("did:agent:" ++ body.platform.toStr R ++ ":" ++ sanitize (B.toLowerCase name)
            ++ "-" ++ toBase36 now ++ "-" ++ randomSuffix randomText)) ∧
    (∀ text : String, ∀ c ∈ (sanitize text).data, isSlugChar c = true ∨ c = '-') ∧
    (∀ text : String, (∀ c ∈ text.data, isSlugChar c = true) → sanitize text = text) ∧
    Nat.ofDigits 36 ((toBase36 now).data.reverse.map base36Value) = now ∧
    (∀ c ∈ (toBase36 now).data, isSlugChar c = true) ∧
    (randomSuffix randomText).data = (randomText.data.drop 2).take 8 ∧
    (randomSuffix randomText).length ≤ 8 ∧
    (10 ≤ randomText.length → (randomSuffix randomText).length = 8) ∧
    ((body.platform = .undefined ∨ body.agentName = .undefined ∨ body.publicKey = .undefined ∨
        ¬ (body.platform.truthy = true ∧ body.agentName.truthy = true ∧
          body.publicKey.truthy = true)) →
      postRegister R B store body now randomText =
        (store,
          { status := 400
            error := some "Missing required fields: platform, agentName, publicKey" })) := by
  refine ⟨?_, ?_, sanitize_chars, ?_, toBase36_value now, toBase36_chars now, rfl,
    randomSuffix_length randomText, ?_, ?_⟩
  · intro name hn h1 h2 h3
    rw [postRegister_ok R B store body now randomText name h1 hn h2 h3]
    exact ⟨rfl, rfl⟩
  · intro hs
    by_cases hf : body.platform.truthy = true ∧ body.agentName.truthy = true ∧
        body.publicKey.truthy = true
    · cases hb : body.agentName with
      | str name =>
        rw [postRegister_ok R B store body now randomText name hf.1 hb hf.2.1 hf.2.2]
        exact ⟨name, rfl, hf.1, hf.2.2, rfl⟩
      | undefined =>
        rw [postRegister_not_string R B store body now randomText hf.1 hf.2.1 hf.2.2
          (by rw [hb]; intro name h; cases h)] at hs
        simp at hs
      | null =>
        rw [postRegister_not_string R B store body now randomText hf.1 hf.2.1 hf.2.2
          (by rw [hb]; intro name h; cases h)] at hs
        simp at hs
      | bool b =>
        rw [postRegister_not_string R B store body now randomText hf.1 hf.2.1 hf.2.2
          (by rw [hb]; intro name h; cases h)] at hs
        simp at hs
      | num n =>
        rw [postRegister_not_string R B store body now randomText hf.1 hf.2.1 hf.2.2
          (by rw [hb]; intro name h; cases h)] at hs
        simp at hs
    · rw [postRegister_missing R B store body now randomText hf] at hs
      simp at hs
  · intro text htext
    have key : ∀ l : List Char, (∀ c ∈ l, isSlugChar c = true) →
        (l.flatMap fun c =>
          if isSlugChar c then [c] else if c.val < 0x10000 then ['-'] else ['-', '-']) = l := by
      intro l
      induction l with
      | nil => intro _; rfl
      | cons a l ih =>
        intro hl
        rw [List.flatMap_cons, if_pos (hl a (List.mem_cons_self _ _)),
          ih (fun c hc => hl c (List.mem_cons_of_mem _ hc))]
        rfl
    simp only [sanitize, key text.data htext]
  · intro h10
    simp only [randomSuffix, String.length, List.length_take, List.length_drop] at h10 ⊢
    omega
  · intro h
    apply postRegister_missing
    rcases h with h | h | h | h
    · rw [h]; simp [JsVal.truthy]
    · rw [h]; simp [JsVal.truthy]
    · rw [h]; simp [JsVal.truthy]
    · exact h

/-- Witness for C18 (amended): the sample request registered at time 0. -/
theorem postRegister_did_format_witness :
    (postRegister witnessRuntime witnessBuiltins [] sampleBody 0 "0.4fzyo82mvyr").2.status
      = 201 ∧
    (postRegister witnessRuntime witnessBuiltins [] sampleBody 0 "0.4fzyo82mvyr").2.did =
      some ("did:agent:" ++ sampleBody.platform.toStr witnessRuntime ++ ":"
        ++ sanitize (witnessBuiltins.toLowerCase "My Bot") ++ "-" ++ toBase36 0 ++ "-"
        ++ randomSuffix "0.4fzyo82mvyr") :=
  (postRegister_did_format witnessRuntime witnessBuiltins [] sampleBody 0 "0.4fzyo82mvyr").1
    "My Bot" rfl (by decide) (by decide) (by decide)

theorem append_sep_inj (x : Char) :
    ∀ (l1 l2 r1 r2 : List Char), x ∉ l1 → x ∉ l2 → l1 ++ x :: r1 = l2 ++ x :: r2 →
      l1 = l2 ∧ r1 = r2 := by
  intro l1
  induction l1 with
  | nil =>
    intro l2 r1 r2 _ h2 h
    cases l2 with
    | nil => exact ⟨rfl, List.tail_eq_of_cons_eq h⟩
    | cons y l2 =>
      have : x = y := List.head_eq_of_cons_eq h
      exact absurd (this ▸ List.mem_cons_self _ _) h2
  | cons a l1 ih =>
    intro l2 r1 r2 h1 h2 h
    cases l2 with
    | nil =>
      have : a = x := List.head_eq_of_cons_eq h
      exact absurd (this ▸ List.mem_cons_self _ _) h1
    | cons y l2 =>
      have hy : a = y := List.head_eq_of_cons_eq h
      have ht : l1 ++ x :: r1 = l2 ++ x :: r2 := List.tail_eq_of_cons_eq h
      obtain ⟨e1, e2⟩ := ih l2 r1 r2 (fun hm => h1 (List.mem_cons_of_mem _ hm))
        (fun hm => h2 (List.mem_cons_of_mem _ hm)) ht
      exact ⟨by rw [hy, e1], e2⟩

theorem hyphen_not_mem_toBase36 (n : ℕ) : '-' ∉ (toBase36 n).data :=
  fun h => isSlugChar_ne_hyphen (toBase36_chars n '-' h) rfl

theorem makeDid_data (R : JsRuntime) (B : DidBuiltins) (platform : JsVal) (name : String)
    (now : ℕ) (randomText : String) :
    (makeDid R B platform name now randomText).data =
      ("did:agent:" ++ platform.toStr R ++ ":" ++ sanitize (B.toLowerCase name) ++ "-").data
        ++ ((toBase36 now).data ++ '-' :: (randomSuffix randomText).data) := by
  simp [makeDid, String.data_append, List.append_assoc]

/-- Two dids built for the same platform and name are equal only if their base-36 timestamps
and their random parts are equal. -/
theorem makeDid_inj (R : JsRuntime) (B : DidBuiltins) (platform : JsVal) (name : String)
    (now1 now2 : ℕ) (rand1 rand2 : String)
    (h : makeDid R B platform name now1 rand1 = makeDid R B platform name now2 rand2) :
    toBase36 now1 = toBase36 now2 ∧ randomSuffix rand1 = randomSuffix rand2 := by
  have hd := congrArg String.data h
  rw [makeDid_data, makeDid_data] at hd
  have hd2 := List.append_cancel_left hd
  obtain ⟨e1, e2⟩ := append_sep_inj '-' _ _ _ _ (hyphen_not_mem_toBase36 now1)
    (hyphen_not_mem_toBase36 now2) hd2
  exact ⟨String.ext e1, String.ext e2⟩

theorem postDeactivate_found (store : Store) (did : String) (record : DidRecord)
    (hget : JsMap.get store did = some record) :
    postDeactivate store did =
      (JsMap.set store did
          { record with
            active := false
            document := { record.document with active := some false } },
        { status := 200
          did := some did
          didStatus := some "deactivated"
          message := some "DID deactivated successfully" }) := by
  simp [postDeactivate, hget]

theorem postDeactivate_missing (store : Store) (did : String)
    (hget : JsMap.get store did = none) :
    postDeactivate store did = (store, { status := 404, error := some "DID not found" }) := by
  simp [postDeactivate, hget]

/-- The store after a registration: unchanged, or extended by the new record under its did. -/
theorem postRegister_store (R : JsRuntime) (B : DidBuiltins) (store : Store)
    (body : RegisterBody) (now : ℕ) (randomText : String) :
    (postRegister R B store body now randomText).1 = store ∨
    ∃ name, body.agentName = .str name ∧
      (postRegister R B store body now randomText).2.status = 201 ∧
      (postRegister R B store body now randomText).1 =
        JsMap.set store (makeDid R B body.platform name now randomText)
          (makeRecord R B body name now randomText) := by
  by_cases hf : body.platform.truthy = true ∧ body.agentName.truthy = true ∧
      body.publicKey.truthy = true
  · cases hb : body.agentName with
    | str name =>
      right
      rw [postRegister_ok R B store body now randomText name hf.1 hb hf.2.1 hf.2.2]
      exact ⟨name, rfl, rfl, rfl⟩
    | undefined =>
      left
      rw [postRegister_not_string R B store body now randomText hf.1 hf.2.1 hf.2.2
        (by rw [hb]; intro name h; cases h)]
    | null =>
      left
      rw [postRegister_not_string R B store body now randomText hf.1 hf.2.1 hf.2.2
        (by rw [hb]; intro name h; cases h)]
    | bool b =>
      left
      rw [postRegister_not_string R B store body now randomText hf.1 hf.2.1 hf.2.2
        (by rw [hb]; intro name h; cases h)]
    | num n =>
      left
      rw [postRegister_not_string R B store body now randomText hf.1 hf.2.1 hf.2.2
        (by rw [hb]; intro name h; cases h)]
  · left
    rw [postRegister_missing R B store body now randomText hf]

/-- In a reachable store every record is stored under its own did and its didHash is the
digest of that did. -/
theorem Reachable.records {R : JsRuntime} {B : DidBuiltins} {store : Store}
    (hr : Reachable R B store) :
    ∀ did rec, JsMap.get store did = some rec →
      rec.did = did ∧ rec.didHash = B.keccak256 did := by
  induction hr with
  | empty => intro did rec h; simp [JsMap.get_nil] at h
  | @step store req now _ ih =>
    intro did rec
    cases req with
    | resolve _ => exact ih did rec
    | status _ => exact ih did rec
    | list _ _ => exact ih did rec
    | register body randomText =>
      show JsMap.get (postRegister R B store body now randomText).1 did = some rec → _
      rcases postRegister_store R B store body now randomText with h | ⟨name, -, -, h⟩
      · rw [h]; exact ih did rec
      · rw [h, JsMap.get_set]
        by_cases hk : did = makeDid R B body.platform name now randomText
        · rw [if_pos hk]
          intro hrec
          rw [← Option.some.inj hrec, hk]
          exact ⟨rfl, rfl⟩
        · rw [if_neg hk]; exact ih did rec
    | deactivate d =>
      show JsMap.get (postDeactivate store d).1 did = some rec → _
      cases hg : JsMap.get store d with
      | none => rw [postDeactivate_missing store d hg]; exact ih did rec
      | some record =>
        rw [postDeactivate_found store d record hg, JsMap.get_set]
        by_cases hk : did = d
        · rw [if_pos hk]
          intro hrec
          rw [← Option.some.inj hrec, hk]
          exact ih d record hg
        · rw [if_neg hk]; exact ih did rec

/-- C17: two successive registrations with the same platform and agentName (a string), both
with publicKey present, whose pairs (base-36 timestamp, random part) differ, are both answered
201 and produce two distinct dids; after the second registration both records are in the store,
each under its own did, and in the resulting store every record's didHash is the keccak-256
digest of the did it is stored under. -/
theorem postRegister_twice (R : JsRuntime) (B : DidBuiltins) (store : Store)
    (hr : Reachable R B store) (body1 body2 : RegisterBody) (name : String)
    (hp1 : body1.platform.truthy = true) (hn1 : body1.agentName = .str name)
    (ht1 : body1.agentName.truthy = true) (hk1 : body1.publicKey.truthy = true)
    (hp2 : body2.platform = body1.platform) (hn2 : body2.agentName = body1.agentName)
    (hk2 : body2.publicKey.truthy = true)
    (now1 now2 : ℕ) (rand1 rand2 : String)
    (hdiff : (toBase36 now1, randomSuffix rand1) ≠ (toBase36 now2, randomSuffix rand2)) :
    makeDid R B body1.platform name now1 rand1 ≠ makeDid R B body1.platform name now2 rand2 ∧
    (postRegister R B store body1 now1 rand1).2.status = 201 ∧
    (postRegister R B store body1 now1 rand1).2.did
      = some (makeDid R B body1.platform name now1 rand1) ∧
    (postRegister R B (postRegister R B store body1 now1 rand1).1 body2 now2 rand2).2.status
      = 201 ∧
    (postRegister R B (postRegister R B store body1 now1 rand1).1 body2 now2 rand2).2.did
      = some (makeDid R B body1.platform name now2 rand2) ∧
    JsMap.get (postRegister R B (postRegister R B store body1 now1 rand1).1 body2 now2 rand2).1
        (makeDid R B body1.platform name now1 rand1)
      = some (makeRecord R B body1 name now1 rand1) ∧
    JsMap.get (postRegister R B (postRegister R B store body1 now1 rand1).1 body2 now2 rand2).1
        (makeDid R B body1.platform name now2 rand2)
      = some (makeRecord R B body2 name now2 rand2) ∧
    (makeRecord R B body1 name now1 rand1).didHash
      = B.keccak256 (makeDid R B body1.platform name now1 rand1) ∧
    (makeRecord R B body2 name now2 rand2).didHash
      = B.keccak256 (makeDid R B body1.platform name now2 rand2) ∧
    (∀ did rec,
      JsMap.get (postRegister R B (postRegister R B store body1 now1 rand1).1 body2 now2
        rand2).1 did = some rec → rec.did = did ∧ rec.didHash = B.keccak256 did) := by
  have hne : makeDid R B body1.platform name now1 rand1
      ≠ makeDid R B body1.platform name now2 rand2 := by
    intro h
    obtain ⟨e1, e2⟩ := makeDid_inj R B body1.platform name now1 now2 rand1 rand2 h
    exact hdiff (by rw [e1, e2])
  have hn2' : body2.agentName = .str name := hn2.trans hn1
  have ht2 : body2.agentName.truthy = true := by rw [hn2]; exact ht1
  have hp2' : body2.platform.truthy = true := by rw [hp2]; exact hp1
  have h1 := postRegister_ok R B store body1 now1 rand1 name hp1 hn1 ht1 hk1
  have h2 := postRegister_ok R B (postRegister R B store body1 now1 rand1).1 body2 now2 rand2
    name hp2' hn2' ht2 hk2
  rw [hp2] at h2
  have hreach : Reachable R B
      (postRegister R B (postRegister R B store body1 now1 rand1).1 body2 now2 rand2).1 :=
    Reachable.step (.register body2 rand2) now2 (Reachable.step (.register body1 rand1) now1 hr)
  refine ⟨hne, by rw [h1], by rw [h1], by rw [h2], by rw [h2], ?_, ?_, rfl, ?_, hreach.records⟩
  · rw [h2, JsMap.get_set, if_neg hne, h1, JsMap.get_set, if_pos rfl]
  · rw [h2, JsMap.get_set, if_pos rfl]
  · show B.keccak256 (makeDid R B body2.platform name now2 rand2) = _
    rw [hp2]

/-- Witness for C17: the sample request registered at times 1 and 2 with the same random
text. -/
theorem postRegister_twice_witness :
    makeDid witnessRuntime witnessBuiltins sampleBody.platform "My Bot" 1 "0.4fzyo82mvyr"
      ≠ makeDid witnessRuntime witnessBuiltins sampleBody.platform "My Bot" 2 "0.4fzyo82mvyr" ∧
    (postRegister witnessRuntime witnessBuiltins
      (postRegister witnessRuntime witnessBuiltins [] sampleBody 1 "0.4fzyo82mvyr").1
      sampleBody 2 "0.4fzyo82mvyr").2.status = 201 :=
  have h := postRegister_twice witnessRuntime witnessBuiltins [] Reachable.empty sampleBody
    sampleBody "My Bot" (by decide) rfl (by decide) (by decide) rfl rfl (by decide) 1 2
    "0.4fzyo82mvyr" "0.4fzyo82mvyr"
    (by
      intro h
      have h1 : toBase36 1 = toBase36 2 := congrArg Prod.fst h
      have h2 := congrArg (fun s => Nat.ofDigits 36 (s.data.reverse.map base36Value)) h1
      simp only [toBase36_value] at h2
      exact absurd h2 (by decide))
  ⟨h.1, h.2.2.2.1⟩

theorem step_keeps_records (R : JsRuntime) (B : DidBuiltins) (store : Store) (req : Request)
    (now : ℕ) (k : String) (rec : DidRecord) (hget : JsMap.get store k = some rec) :
    ∃ rec', JsMap.get (step R B store req now) k = some rec' ∧
      (rec.active = false → rec'.active = true →
        ∃ body randomText name, req = .register body randomText ∧
          body.agentName = .str name ∧
          (postRegister R B store body now randomText).2.status = 201 ∧
          makeDid R B body.platform name now randomText = k) := by
  have hsame : ∃ rec', JsMap.get store k = some rec' ∧
      (rec.active = false → rec'.active = true →
        ∃ body randomText name, req = .register body randomText ∧
          body.agentName = .str name ∧
          (postRegister R B store body now randomText).2.status = 201 ∧
          makeDid R B body.platform name now randomText = k) :=
    ⟨rec, hget, fun h1 h2 => absurd (h1.symm.trans h2) (by decide)⟩
  cases req with
  | resolve _ => exact hsame
  | status _ => exact hsame
  | list _ _ => exact hsame
  | register body randomText =>
    show ∃ rec', JsMap.get (postRegister R B store body now randomText).1 k = some rec' ∧ _
    rcases postRegister_store R B store body now randomText with h | ⟨name, hn, hs, h⟩
    · rw [h]; exact hsame
    · rw [h, JsMap.get_set]
      by_cases hk : k = makeDid R B body.platform name now randomText
      · rw [if_pos hk]
        exact ⟨_, rfl, fun _ _ => ⟨body, randomText, name, rfl, hn, hs, hk.symm⟩⟩
      · rw [if_neg hk]
        exact ⟨rec, hget, fun h1 h2 => absurd (h1.symm.trans h2) (by decide)⟩
  | deactivate d =>
    show ∃ rec', JsMap.get (postDeactivate store d).1 k = some rec' ∧ _
    cases hg : JsMap.get store d with
    | none => rw [postDeactivate_missing store d hg]; exact hsame
    | some record =>
      rw [postDeactivate_found store d record hg, JsMap.get_set]
      by_cases hk : k = d
      · rw [if_pos hk]
        exact ⟨_, rfl, fun _ h2 => absurd h2 (by simp)⟩
      · rw [if_neg hk]
        exact ⟨rec, hget, fun h1 h2 => absurd (h1.symm.trans h2) (by decide)⟩

/-- C19 as stated fails in its last sentence: after the sample did has been registered and
deactivated, a registration that generates the same did (same platform, name, clock reading and
random text) overwrites the record, and its active flag is true again. -/
theorem register_reactivates :
    (∃ rec, JsMap.get deactivatedStore sampleDid = some rec ∧ rec.active = false) ∧
    (∃ rec, JsMap.get reregisteredStore sampleDid = some rec ∧ rec.active = true) := by
  have hreg : registeredStore = JsMap.set [] sampleDid
      (makeRecord witnessRuntime witnessBuiltins sampleBody "My Bot" 0 "0.4fzyo82mvyr") := by
    show (postRegister witnessRuntime witnessBuiltins [] sampleBody 0 "0.4fzyo82mvyr").1 = _
    rw [postRegister_ok witnessRuntime witnessBuiltins [] sampleBody 0 "0.4fzyo82mvyr" "My Bot"
      (by decide) rfl (by decide) (by decide)]
    rfl
  have hgetreg : JsMap.get registeredStore sampleDid = some
      (makeRecord witnessRuntime witnessBuiltins sampleBody "My Bot" 0 "0.4fzyo82mvyr") := by
    rw [hreg, JsMap.get_set, if_pos rfl]
  have hdeact : deactivatedStore = (postDeactivate registeredStore sampleDid).1 := rfl
  constructor
  · rw [hdeact, postDeactivate_found registeredStore sampleDid _ hgetreg]
    exact ⟨_, by rw [JsMap.get_set, if_pos rfl], rfl⟩
  · show ∃ rec, JsMap.get (postRegister witnessRuntime witnessBuiltins deactivatedStore
        sampleBody 0 "0.4fzyo82mvyr").1 sampleDid = some rec ∧ rec.active = true
    rw [postRegister_ok witnessRuntime witnessBuiltins deactivatedStore sampleBody 0
      "0.4fzyo82mvyr" "My Bot" (by decide) rfl (by decide) (by decide)]
    exact ⟨_, by
      show JsMap.get (JsMap.set deactivatedStore sampleDid _) sampleDid = _
      rw [JsMap.get_set, if_pos rfl], rfl⟩

/-- C19 (amended): for every DID store and every did: if did is a key of the store, deactivate
is answered 200 and afterwards the record's active flag and its document's active flag are
false, every other field of the record and of its document and every other record being
unchanged, so that status(did) reports active = false with the same didHash, stake and
createdAt; if did is not a key, deactivate is answered 404 "DID not found" and the store is
unchanged.  No operation removes a record, and the only operation after which the active flag
of a record is true when it was false before is a successful registration that generates the
did of that record and overwrites it. -/
theorem postDeactivate_effect (R : JsRuntime) (B : DidBuiltins) (store : Store) (did : String) :
    (∀ record, JsMap.get store did = some record →
      (postDeactivate store did).2 =
        { status := 200
          did := some did
          didStatus := some "deactivated"
          message := some "DID deactivated successfully" } ∧
      JsMap.get (postDeactivate store did).1 did =
        some { record with
          active := false
          document := { record.document with active := some false } } ∧
      (∀ k, k ≠ did → JsMap.get (postDeactivate store did).1 k = JsMap.get store k) ∧
      getStatus (postDeactivate store did).1 did =
        { status := 200
          did := some did
          didHash := some record.didHash
          active := some false
          stake := some record.stake
          createdAt := some record.createdAt }) ∧
    (JsMap.get store did = none →
      postDeactivate store did = (store, { status := 404, error := some "DID not found" })) ∧
    (∀ (req : Request) (now : ℕ) (k : String) (rec : DidRecord),
      JsMap.get store k = some rec →
      ∃ rec', JsMap.get (step R B store req now) k = some rec' ∧
        (rec.active = false → rec'.active = true →
          ∃ body randomText name, req = .register body randomText ∧
            body.agentName = .str name ∧
            (postRegister R B store body now randomText).2.status = 201 ∧
            makeDid R B body.platform name now randomText = k)) := by
  refine ⟨?_, postDeactivate_missing store did, ?_⟩
  · intro record hget
    rw [postDeactivate_found store did record hget]
    refine ⟨rfl, by rw [JsMap.get_set, if_pos rfl], ?_, ?_⟩
    · intro k hk
      rw [JsMap.get_set, if_neg hk]
    · simp only [getStatus, JsMap.get_set, if_true]
  · intro req now k rec hget
    exact step_keeps_records R B store req now k rec hget

/-- Witness for C19 (amended): the sample did deactivated after its registration. -/
theorem postDeactivate_effect_witness :
    (postDeactivate registeredStore sampleDid).2.status = 200 ∧
    (getStatus (postDeactivate registeredStore sampleDid).1 sampleDid).active = some false :=
  have hget : JsMap.get registeredStore sampleDid = some
      (makeRecord witnessRuntime witnessBuiltins sampleBody "My Bot" 0 "0.4fzyo82mvyr") := by
    show JsMap.get (postRegister witnessRuntime witnessBuiltins [] sampleBody 0
      "0.4fzyo82mvyr").1 sampleDid = _
    rw [postRegister_ok witnessRuntime witnessBuiltins [] sampleBody 0 "0.4fzyo82mvyr" "My Bot"
      (by decide) rfl (by decide) (by decide)]
    show JsMap.get (JsMap.set [] sampleDid _) sampleDid = _
    rw [JsMap.get_set, if_pos rfl]
  have h := (postDeactivate_effect witnessRuntime witnessBuiltins registeredStore sampleDid).1
    _ hget
  ⟨by rw [h.1], by rw [h.2.2.2]⟩

theorem take_min_length (α : Type) (xs : List α) (n : ℕ) :
    xs.take (min n xs.length) = xs.take n := by
  rcases Nat.le_total n xs.length with h | h
  · rw [Nat.min_eq_left h]
  · rw [Nat.min_eq_right h, List.take_of_length_le (le_refl _), List.take_of_length_le h]

/-- A slice from a non-negative offset of a positive number of elements. -/
theorem slice_window (α : Type) (xs : List α) (offset limit : ℤ) (ho : 0 ≤ offset)
    (hl : 0 ≤ limit) :
    JsArray.slice xs offset (offset + limit) = (xs.drop offset.toNat).take limit.toNat := by
  have hk : JsArray.relativeIndex xs.length offset = min offset.toNat xs.length := by
    simp [JsArray.relativeIndex, not_lt.mpr ho]
  have hf : JsArray.relativeIndex xs.length (offset + limit)
      = min (offset.toNat + limit.toNat) xs.length := by
    have : ¬ offset + limit < 0 := by omega
    simp only [JsArray.relativeIndex, this, if_false]
    congr 1
    omega
  rw [JsArray.slice, hk, hf]
  rcases Nat.lt_or_ge offset.toNat xs.length with h | h
  · rw [Nat.min_eq_left (Nat.le_of_lt h)]
    have hlen : (xs.drop offset.toNat).length = xs.length - offset.toNat := List.length_drop _ _
    have : min (offset.toNat + limit.toNat) xs.length - offset.toNat
        = min limit.toNat (xs.drop offset.toNat).length := by
      rw [hlen]; omega
    rw [this, take_min_length]
  · rw [Nat.min_eq_right h]
    have h1 : min (offset.toNat + limit.toNat) xs.length = xs.length := by omega
    rw [h1, Nat.sub_self, List.take_zero, List.drop_of_length_le h, List.take_nil]

theorem getList_dids (store : Store) (page limit : ℤ) (hp : 1 ≤ page) (hl : 1 ≤ limit) :
    (getList store (some page) (some limit)).dids =
      (((JsMap.values store).drop ((page - 1) * limit).toNat).take limit.toNat).map
        summarize := by
  have h1 : JsArray.orDefault (some page) 1 = page := by
    have : page ≠ 0 := by omega
    simp [JsArray.orDefault, this]
  have h2 : JsArray.orDefault (some limit) 20 = limit := by
    have : limit ≠ 0 := by omega
    simp [JsArray.orDefault, this]
  simp only [getList, h1, h2]
  rw [slice_window _ _ _ _ (mul_nonneg (by omega) (by omega)) (by omega)]

theorem getList_pages (store : Store) (page limit : ℤ) (hl : 1 ≤ limit) :
    (getList store (some page) (some limit)).pages
      = ⌈(((JsMap.values store).length : ℤ) : ℚ) / (limit : ℚ)⌉ := by
  have h2 : JsArray.orDefault (some limit) 20 = limit := by
    have : limit ≠ 0 := by omega
    simp [JsArray.orDefault, this]
  simp only [getList, h2]

/-- The pages of sizes `l` numbered `0` to `n - 1`, one after the other, are the first `n * l`
elements. -/
theorem chunks_append (α β : Type) (f : α → β) (xs : List α) (l : ℕ) (n : ℕ) :
    (List.range n).flatMap (fun i => ((xs.drop (i * l)).take l).map f)
      = (xs.take (n * l)).map f := by
  induction n with
  | zero => simp
  | succ n ih =>
    rw [List.range_succ, List.flatMap_append, ih, List.flatMap_singleton, Nat.succ_mul,
      List.take_add, List.map_append]

/-- C20: for every DID store and every page >= 1 and limit >= 1, the list holds the summaries
of the records at insertion-order positions (page-1)*limit, (page-1)*limit + 1, ... up to but
not including min(page*limit, total); it reports page, limit, total and
pages = ceil(total/limit), the least number of pages of that size that hold all records; a page
holds at most limit records; a page beyond pages is empty; and the pages 1, 2, ..., pages one
after the other are the summaries of all records, each once, in insertion order. -/
theorem getList_pagination (store : Store) (page limit : ℤ) (hp : 1 ≤ page) (hl : 1 ≤ limit) :
    (getList store (some page) (some limit)).dids =
      (((JsMap.values store).drop ((page - 1) * limit).toNat).take limit.toNat).map
        summarize ∧
    (∀ i : ℕ, (getList store (some page) (some limit)).dids[i]? =
      if (i : ℤ) < limit then
        ((JsMap.values store)[((page - 1) * limit).toNat + i]?).map summarize
      else none) ∧
    ((getList store (some page) (some limit)).dids.length : ℤ) =
      min (page * limit) (JsMap.values store).length
        - min ((page - 1) * limit) (JsMap.values store).length ∧
    (getList store (some page) (some limit)).page = page ∧
    (getList store (some page) (some limit)).limit = limit ∧
    (getList store (some page) (some limit)).total = (JsMap.values store).length ∧
    (getList store (some page) (some limit)).pages
      = ⌈(((JsMap.values store).length : ℤ) : ℚ) / (limit : ℚ)⌉ ∧
    (((JsMap.values store).length : ℤ) ≤ (getList store (some page) (some limit)).pages * limit ∧
      ((getList store (some page) (some limit)).pages - 1) * limit
        < (JsMap.values store).length) ∧
    (getList store (some page) (some limit)).dids.length ≤ limit.toNat ∧
    ((getList store (some page) (some limit)).pages < page →
      (getList store (some page) (some limit)).dids = []) ∧
    (List.range (getList store (some page) (some limit)).pages.toNat).flatMap
        (fun i => (getList store (some ((i : ℤ) + 1)) (some limit)).dids)
      = (JsMap.values store).map summarize := by
  have hd := getList_dids store page limit hp hl
  have hpg := getList_pages store page limit hl
  have hoff : 0 ≤ (page - 1) * limit := mul_nonneg (by omega) (by omega)
  have hlq : (0 : ℚ) < (limit : ℚ) := by exact_mod_cast (by omega : (0 : ℤ) < limit)
  have hceil1 : (((JsMap.values store).length : ℤ) : ℚ)
      ≤ ((⌈(((JsMap.values store).length : ℤ) : ℚ) / (limit : ℚ)⌉ : ℤ) : ℚ) * (limit : ℚ) :=
    (div_le_iff₀ hlq).mp (Int.le_ceil _)
  have hceil2 : ((⌈(((JsMap.values store).length : ℤ) : ℚ) / (limit : ℚ)⌉ : ℤ) : ℚ) - 1
      < (((JsMap.values store).length : ℤ) : ℚ) / (limit : ℚ) := by
    have := Int.ceil_lt_add_one ((((JsMap.values store).length : ℤ) : ℚ) / (limit : ℚ))
    linarith
  have hc1 : ((JsMap.values store).length : ℤ)
      ≤ ⌈(((JsMap.values store).length : ℤ) : ℚ) / (limit : ℚ)⌉ * limit := by
    exact_mod_cast hceil1
  have hc2 : (⌈(((JsMap.values store).length : ℤ) : ℚ) / (limit : ℚ)⌉ - 1) * limit
      < (JsMap.values store).length := by
    have := (lt_div_iff₀ hlq).mp hceil2
    exact_mod_cast this
  have hlen : ((getList store (some page) (some limit)).dids.length : ℤ) =
      min (page * limit) (JsMap.values store).length
        - min ((page - 1) * limit) (JsMap.values store).length := by
    rw [hd, List.length_map, List.length_take, List.length_drop]
    have e : page * limit = (page - 1) * limit + limit := by ring
    rw [e]
    omega
  refine ⟨hd, ?_, hlen, ?_, ?_, rfl, hpg, ⟨by rw [hpg]; exact hc1, by rw [hpg]; exact hc2⟩,
    ?_, ?_, ?_⟩
  · intro i
    rw [hd, List.getElem?_map, List.getElem?_take]
    by_cases hi : (i : ℤ) < limit
    · have : i < limit.toNat := by omega
      rw [if_pos hi, if_pos this, List.getElem?_drop]
    · have : ¬ i < limit.toNat := by omega
      rw [if_neg hi, if_neg this]
      rfl
  · have : page ≠ 0 := by omega
    simp [getList, JsArray.orDefault, this]
  · have : limit ≠ 0 := by omega
    simp [getList, JsArray.orDefault, this]
  · rw [hd, List.length_map]
    exact List.length_take_le _ _
  · intro hlt
    rw [hpg] at hlt
    have h1 : ⌈(((JsMap.values store).length : ℤ) : ℚ) / (limit : ℚ)⌉ ≤ page - 1 := by omega
    have h2 : ((JsMap.values store).length : ℤ) ≤ (page - 1) * limit :=
      hc1.trans (mul_le_mul_of_nonneg_right h1 (by omega))
    have h3 : (JsMap.values store).length ≤ ((page - 1) * limit).toNat := by omega
    rw [hd, List.drop_of_length_le h3]
    simp
  · rw [hpg]
    have hpage : ∀ i : ℕ, (getList store (some ((i : ℤ) + 1)) (some limit)).dids =
        (((JsMap.values store).drop (i * limit.toNat)).take limit.toNat).map summarize := by
      intro i
      rw [getList_dids store ((i : ℤ) + 1) limit (by omega) hl]
      have : (((i : ℤ) + 1 - 1) * limit).toNat = i * limit.toNat := by
        have e : ((i : ℤ) + 1 - 1) * limit = ((i * limit.toNat : ℕ) : ℤ) := by
          push_cast
          rw [Int.toNat_of_nonneg (by omega : 0 ≤ limit)]
          ring
        rw [e, Int.toNat_natCast]
      rw [this]
    simp only [hpage]
    rw [chunks_append]
    have hcover : (JsMap.values store).length
        ≤ ⌈(((JsMap.values store).length : ℤ) : ℚ) / (limit : ℚ)⌉.toNat * limit.toNat := by
      have hnn : 0 ≤ ⌈(((JsMap.values store).length : ℤ) : ℚ) / (limit : ℚ)⌉ :=
        Int.ceil_nonneg (div_nonneg (by exact_mod_cast Nat.zero_le _) hlq.le)
      have : (((JsMap.values store).length : ℕ) : ℤ)
          ≤ ((⌈(((JsMap.values store).length : ℤ) : ℚ) / (limit : ℚ)⌉.toNat * limit.toNat
            : ℕ) : ℤ) := by
        rw [Nat.cast_mul, Int.toNat_of_nonneg hnn, Int.toNat_of_nonneg (by omega : 0 ≤ limit)]
        exact hc1
      exact_mod_cast this
    rw [List.take_of_length_le hcover]

/-- Witness for C20: page 2 with limit 1 of the store after the sample registration. -/
theorem getList_pagination_witness :
    ((1 : ℤ) ≤ 2 ∧ (1 : ℤ) ≤ 1) ∧
    (getList registeredStore (some 2) (some 1)).dids.length ≤ (1 : ℤ).toNat ∧
    (getList registeredStore (some 2) (some 1)).page = 2 ∧
    (getList registeredStore (some 2) (some 1)).total = (JsMap.values registeredStore).length :=
  have h := getList_pagination registeredStore 2 1 (by decide) (by decide)
  ⟨⟨by decide, by decide⟩, h.2.2.2.2.2.2.2.2.1, h.2.2.2.1, h.2.2.2.2.2.1⟩

end DidRoutes

/-! ## The two tier tables -/

namespace MoltbookBridge

theorem determineTier_ofInt (s : ℤ) :
    determineTier (.fin (s : ℚ)) =
      if 800 ≤ s then "platinum"
      else if 600 ≤ s then "gold"
      else if 400 ≤ s then "silver"
      else "bronze" := by
  have h8 : ((800 : ℚ) ≤ (s : ℚ)) ↔ 800 ≤ s := by exact_mod_cast Iff.rfl
  have h6 : ((600 : ℚ) ≤ (s : ℚ)) ↔ 600 ≤ s := by exact_mod_cast Iff.rfl
  have h4 : ((400 : ℚ) ≤ (s : ℚ)) ↔ 400 ≤ s := by exact_mod_cast Iff.rfl
  simp only [determineTier, JsNum.ge, JsNum.le, decide_eq_true_eq, h8, h6, h4]

theorem getReputationMetrics_tier (R : JsRuntime) (fetch : ProfileFetch) (now : ℕ)
    (r : ReputationReport) (h : getReputationMetrics R fetch now = .report r) :
    r.tier = determineTier r.score := by
  unfold getReputationMetrics at h
  cases hg : getAgent fetch with
  | notFound error => simp [hg] at h
  | found agent =>
    simp only [hg, MetricsResult.report.injEq] at h
    rw [← h]
    exact (determineTier_min_1000 _).symm

end MoltbookBridge

namespace ReputationRoutes

theorem tierRank_calculateTier_ofInt (R : JsRuntime) (s : ℤ) (h0 : 0 ≤ s) (h1 : s ≤ 1000) :
    tierRank (calculateTier R (JsVal.ofInt s)) =
      if s ≤ 199 then 0 else if s ≤ 399 then 1 else if s ≤ 699 then 2
      else if s ≤ 899 then 3 else 4 := by
  rw [calculateTier_ofInt]
  split_ifs <;> first | rfl | omega

theorem tierRank_determineTier_ofInt (s : ℤ) :
    tierRank (MoltbookBridge.determineTier (.fin (s : ℚ))) =
      if 800 ≤ s then 4 else if 600 ≤ s then 3 else if 400 ≤ s then 2 else 1 := by
  rw [MoltbookBridge.determineTier_ofInt]
  split_ifs <;> rfl

end ReputationRoutes

namespace ReputationRoutes

/-- C23: the oracle-path tier table (`calculateTier`) and the platform-derived tier table (the
tier block of `getReputationMetrics`, which labels every reported score) are two different
mappings.  For integer scores `s ≤ t` in [0,1000]: the two tables give `s` the same name if and
only if `s` lies in [200,599], [700,799] or [900,1000]; on [0,199] they give unrated and bronze,
on [600,699] silver and gold, on [800,899] gold and platinum; and both are monotone in the order
unrated < bronze < silver < gold < platinum. -/
theorem tier_tables_compared (R : JsRuntime) (s t : ℤ) (h0 : 0 ≤ s) (hst : s ≤ t)
    (h1 : t ≤ 1000) :
    (∀ fetch now r, MoltbookBridge.getReputationMetrics R fetch now = .report r →
      r.tier = MoltbookBridge.determineTier r.score) ∧
    (calculateTier R (JsVal.ofInt s) = MoltbookBridge.determineTier (.fin (s : ℚ)) ↔
      (200 ≤ s ∧ s ≤ 599) ∨ (700 ≤ s ∧ s ≤ 799) ∨ (900 ≤ s ∧ s ≤ 1000)) ∧
    (s ≤ 199 → calculateTier R (JsVal.ofInt s) = "unrated" ∧
      MoltbookBridge.determineTier (.fin (s : ℚ)) = "bronze") ∧
    (600 ≤ s → s ≤ 699 → calculateTier R (JsVal.ofInt s) = "silver" ∧
      MoltbookBridge.determineTier (.fin (s : ℚ)) = "gold") ∧
    (800 ≤ s → s ≤ 899 → calculateTier R (JsVal.ofInt s) = "gold" ∧
      MoltbookBridge.determineTier (.fin (s : ℚ)) = "platinum") ∧
    tierRank (calculateTier R (JsVal.ofInt s)) ≤ tierRank (calculateTier R (JsVal.ofInt t)) ∧
    tierRank (MoltbookBridge.determineTier (.fin (s : ℚ))) ≤
      tierRank (MoltbookBridge.determineTier (.fin (t : ℚ))) := by
  have hs1 : s ≤ 1000 := le_trans hst h1
  have ht0 : 0 ≤ t := le_trans h0 hst
  refine ⟨fun fetch now r h => MoltbookBridge.getReputationMetrics_tier R fetch now r h,
    ?_, ?_, ?_, ?_, ?_, ?_⟩
  · rw [calculateTier_ofInt, MoltbookBridge.determineTier_ofInt]
    constructor
    · intro h
      by_contra hc
      split_ifs at h <;> first | omega | exact absurd h (by decide)
    · intro h
      split_ifs <;> first | rfl | omega
  · intro h
    rw [calculateTier_ofInt, MoltbookBridge.determineTier_ofInt]
    constructor <;> split_ifs <;> first | rfl | omega
  · intro ha hb
    rw [calculateTier_ofInt, MoltbookBridge.determineTier_ofInt]
    constructor <;> split_ifs <;> first | rfl | omega
  · intro ha hb
    rw [calculateTier_ofInt, MoltbookBridge.determineTier_ofInt]
    constructor <;> split_ifs <;> first | rfl | omega
  · rw [tierRank_calculateTier_ofInt R s h0 hs1, tierRank_calculateTier_ofInt R t ht0 h1]
    split_ifs <;> omega
  · rw [tierRank_determineTier_ofInt, tierRank_determineTier_ofInt]
    split_ifs <;> omega

/-- Witness for C23: the scores 650 and 850, where the two tables disagree. -/
theorem tier_tables_compared_witness :
    (calculateTier witnessRuntime (JsVal.ofInt 650) = "silver" ∧
      MoltbookBridge.determineTier (.fin ((650 : ℤ) : ℚ)) = "gold") ∧
    tierRank (calculateTier witnessRuntime (JsVal.ofInt 650)) ≤
      tierRank (calculateTier witnessRuntime (JsVal.ofInt 850)) :=
  have h := tier_tables_compared witnessRuntime 650 850 (by decide) (by decide) (by decide)
  ⟨h.2.2.2.1 (by decide) (by decide), h.2.2.2.2.2.1⟩

end ReputationRoutes

/-! ## The reputation router -/

namespace ReputationRoutes

theorem matchPath_param_single (name segment : String) (h : segment ≠ "") :
    (PathPattern.param name).matchPath [segment] = some [(name, segment)] := by
  simp [PathPattern.matchPath, h]

theorem dispatch_single (method : Method) (segment : String) (h : segment ≠ "") :
    dispatch method [segment] =
      some (match method with
        | .get => (Handler.getDid, [("did", segment)])
        | .post => (Handler.postDid, [("did", segment)])) := by
  cases method <;>
    simp [dispatch, routes, List.findSome?, matchPath_param_single _ _ h]

theorem dispatch_handler (method : Method) (path : List String) (handler : Handler)
    (params : List (String × String)) (h : dispatch method path = some (handler, params)) :
    handler = .getDid ∨ handler = .postDid := by
  match path, h with
  | [], h => simp [dispatch, routes, List.findSome?, PathPattern.matchPath] at h
  | _ :: _ :: _, h => simp [dispatch, routes, List.findSome?, PathPattern.matchPath] at h
  | [segment], h =>
    by_cases hs : segment = ""
    · subst hs
      have e1 : lowerSegment "" ≠ lowerSegment "leaderboard" := by decide
      have e2 : lowerSegment "" ≠ lowerSegment "tiers" := by decide
      cases method <;>
        simp [dispatch, routes, List.findSome?, PathPattern.matchPath, e1, e2] at h
    · rw [dispatch_single method segment hs] at h
      cases method with
      | get => simp only [Option.some.injEq, Prod.mk.injEq] at h; exact Or.inl h.1.symm
      | post => simp only [Option.some.injEq, Prod.mk.injEq] at h; exact Or.inr h.1.symm

/-- C22: on the reputation router, whose routes are tried in registration order, a GET request
for `/leaderboard` and a GET request for `/tiers` are both handled by the `GET /:did` lookup,
which is registered first and binds `did` to the segment; on a store without such records it
answers with the zero-valued default record for that name.  No request reaches the leaderboard
handler or the tier-definitions handler. -/
theorem dispatch_leaderboard_tiers :
    dispatch .get ["leaderboard"] = some (.getDid, [("did", "leaderboard")]) ∧
    dispatch .get ["tiers"] = some (.getDid, [("did", "tiers")]) ∧
    getDid [] "leaderboard" = defaultReputation "leaderboard" ∧
    getDid [] "tiers" = defaultReputation "tiers" ∧
    (defaultReputation "leaderboard").score = .num (.fin 0) ∧
    (defaultReputation "tiers").tier = "unrated" ∧
    ∀ method path params,
      dispatch method path ≠ some (.getLeaderboard, params) ∧
      dispatch method path ≠ some (.getTiers, params) := by
  refine ⟨dispatch_single .get "leaderboard" (by decide), dispatch_single .get "tiers" (by decide),
    rfl, rfl, rfl, rfl, fun method path params => ⟨fun h => ?_, fun h => ?_⟩⟩
  · rcases dispatch_handler method path _ params h with h' | h' <;> exact absurd h' (by decide)
  · rcases dispatch_handler method path _ params h with h' | h' <;> exact absurd h' (by decide)

end ReputationRoutes

/-! ## Failure of the posts request -/

namespace MoltbookRoutes

open MoltbookBridge

theorem postVerify_unverified (st : State) (username : JsVal) (fetch : PostsFetch) (now : ℕ)
    (c : Challenge) (hu : username.truthy = true)
    (hget : JsMap.get st.challenges username = some c) (hlive : ¬ c.expiresAt < now)
    (hv : (verifyOwnership username c.challenge fetch now).verified = false) :
    postVerify st username fetch now =
      { state := st
        reply :=
          { status := 200
            error := (verifyOwnership username c.challenge fetch now).error
            username := some username
            verified := some false
            checkedAt := (verifyOwnership username c.challenge fetch now).checkedAt
            postsChecked := (verifyOwnership username c.challenge fetch now).postsChecked
            challenge := some c.challenge }
        fetched := [username] } := by
  rw [postVerify_live st username fetch now c hu hget hlive, hv]
  simp

/-- Counterexample for C21: with the challenge of `alice` stored and live, a 503 answer to the
posts request makes `verifyOwnership` return a result with `verified` false, and the verify
route answers with status 200 and `verified` false. -/
theorem verifyOwnership_notOk_verified_false :
    verifyOwnership (.str "alice") sampleChallenge.challenge (.notOk 503) 1000 =
      { verified := false, error := some "Could not fetch posts" } ∧
    (postVerify sampleState (.str "alice") (.notOk 503) 1000).reply.status = 200 ∧
    (postVerify sampleState (.str "alice") (.notOk 503) 1000).reply.verified = some false := by
  rw [postVerify_unverified sampleState (.str "alice") (.notOk 503) 1000 sampleChallenge
    (by decide) sampleState_get (by decide) rfl]
  exact ⟨rfl, rfl, rfl⟩

/-- C21 (amended): when the posts request fails (a response that is not 2xx, or an exception),
`verifyOwnership` returns a result with `verified` false that carries an error message (the
fixed text for a response that is not 2xx, the message of the exception otherwise) and neither
`checkedAt` nor `postsChecked`; a check that ran on a fetched list of posts carries `checkedAt`
and `postsChecked` and no error, so the two kinds differ in these fields.  For a stored, live
challenge the verify route answers a failed request with status 200, `verified` false and the
error message, and keeps the challenge. -/
theorem postVerify_fetch_failure (st : State) (username : JsVal) (c : Challenge) (now : ℕ)
    (hu : username.truthy = true) (hget : JsMap.get st.challenges username = some c)
    (hlive : ¬ c.expiresAt < now) :
    (∀ status, verifyOwnership username c.challenge (.notOk status) now =
      { verified := false, error := some "Could not fetch posts" }) ∧
    (∀ message, verifyOwnership username c.challenge (.threw message) now =
      { verified := false, error := some message }) ∧
    (∀ posts data, data = .withPosts posts ∨ data = .array posts →
      (verifyOwnership username c.challenge (.ok data) now).error = none ∧
      (verifyOwnership username c.challenge (.ok data) now).checkedAt = some now ∧
      (verifyOwnership username c.challenge (.ok data) now).postsChecked = some posts.length) ∧
    (∀ status, postVerify st username (.notOk status) now =
      { state := st
        reply :=
          { status := 200
            error := some "Could not fetch posts"
            username := some username
            verified := some false
            challenge := some c.challenge }
        fetched := [username] }) ∧
    (∀ message, postVerify st username (.threw message) now =
      { state := st
        reply :=
          { status := 200
            error := some message
            username := some username
            verified := some false
            challenge := some c.challenge }
        fetched := [username] }) := by
  refine ⟨fun _ => rfl, fun _ => rfl, ?_, fun status => ?_, fun message => ?_⟩
  · rintro posts data (rfl | rfl) <;> exact ⟨rfl, rfl, rfl⟩
  · rw [postVerify_unverified st username (.notOk status) now c hu hget hlive rfl]
    rfl
  · rw [postVerify_unverified st username (.threw message) now c hu hget hlive rfl]
    rfl

/-- Witness for C21 (amended): the challenge of `alice`, live at time 1000, and a posts request
that raises a network error. -/
theorem postVerify_fetch_failure_witness :
    postVerify sampleState (.str "alice") (.threw "fetch failed") 1000 =
      { state := sampleState
        reply :=
          { status := 200
            error := some "fetch failed"
            username := some (.str "alice")
            verified := some false
            challenge := some sampleChallenge.challenge }
        fetched := [.str "alice"] } :=
  (postVerify_fetch_failure sampleState (.str "alice") sampleChallenge 1000 (by decide)
    sampleState_get (by decide)).2.2.2.2 "fetch failed"

end MoltbookRoutes

/-! ## Binary64 rounding -/

namespace Binary64

theorem roundHalfEven_cases (x : ℚ) :
    roundHalfEven x = ⌊x⌋ ∧ x - ⌊x⌋ ≤ 1 / 2 ∧ (x - ⌊x⌋ = 1 / 2 → ⌊x⌋ % 2 = 0) ∨
    roundHalfEven x = ⌊x⌋ + 1 ∧ 1 / 2 ≤ x - ⌊x⌋ ∧ (x - ⌊x⌋ = 1 / 2 → ⌊x⌋ % 2 ≠ 0) := by
  unfold roundHalfEven
  split_ifs with h1 h2 h3
  · exact Or.inl ⟨rfl, h1.le, fun h => absurd h (ne_of_lt h1)⟩
  · exact Or.inr ⟨rfl, h2.le, fun h => absurd h.symm (ne_of_lt h2)⟩
  · exact Or.inl ⟨rfl, not_lt.mp h2, fun _ => h3⟩
  · exact Or.inr ⟨rfl, not_lt.mp h1, fun _ => h3⟩

theorem roundHalfEven_nearest (x : ℚ) (z : ℤ) :
    |(roundHalfEven x : ℚ) - x| ≤ |(z : ℚ) - x| := by
  have hf := Int.floor_le x
  have hl := Int.lt_floor_add_one x
  have hz : z ≤ ⌊x⌋ ∨ ⌊x⌋ + 1 ≤ z := by omega
  have hzq : (z : ℚ) ≤ ⌊x⌋ ∨ ((⌊x⌋ : ℚ) + 1 ≤ z) := by
    rcases hz with h | h
    · exact Or.inl (by exact_mod_cast h)
    · exact Or.inr (by exact_mod_cast h)
  rcases roundHalfEven_cases x with ⟨h, h1, -⟩ | ⟨h, h1, -⟩
  · rw [h, abs_sub_comm, abs_of_nonneg (by linarith)]
    rcases hzq with h2 | h2
    · rw [abs_sub_comm, abs_of_nonneg (by linarith)]; linarith
    · rw [abs_of_nonneg (by linarith)]; linarith
  · rw [h, Int.cast_add, Int.cast_one, abs_of_nonneg (by linarith)]
    rcases hzq with h2 | h2
    · rw [abs_sub_comm, abs_of_nonneg (by linarith)]; linarith
    · rw [abs_of_nonneg (by linarith)]; linarith

theorem roundHalfEven_eq_of_close (x : ℚ) (z : ℤ) (h : |x - z| < 1 / 2) :
    roundHalfEven x = z := by
  have h0 := roundHalfEven_nearest x z
  have h1 : |(roundHalfEven x : ℚ) - z| < 1 := by
    have : (roundHalfEven x : ℚ) - z = ((roundHalfEven x : ℚ) - x) + (x - z) := by ring
    rw [this]
    have h2 : |(z : ℚ) - x| < 1 / 2 := by rw [abs_sub_comm]; exact h
    calc |((roundHalfEven x : ℚ) - x) + (x - z)| ≤ |(roundHalfEven x : ℚ) - x| + |x - z| :=
          abs_add _ _
      _ < 1 := by linarith
  have h3 : |roundHalfEven x - z| < 1 := by exact_mod_cast h1
  have := Int.abs_lt_one_iff.mp h3
  omega

theorem roundHalfEven_tie (x : ℚ) (z : ℤ) (hz : z % 2 = 0) (h : |x - z| ≤ 1 / 2) :
    roundHalfEven x = z := by
  rcases lt_or_eq_of_le h with h | h
  · exact roundHalfEven_eq_of_close x z h
  · rcases abs_eq (by norm_num : (0 : ℚ) ≤ 1 / 2) |>.mp h with h | h
    · have hfl : ⌊x⌋ = z := by
        rw [Int.floor_eq_iff]; constructor <;> linarith
      rcases roundHalfEven_cases x with ⟨h1, -, -⟩ | ⟨-, -, h3⟩
      · rw [h1, hfl]
      · exact absurd hz (hfl ▸ h3 (by rw [hfl]; linarith))
    · have hfl : ⌊x⌋ = z - 1 := by
        rw [Int.floor_eq_iff]; push_cast; constructor <;> linarith
      rcases roundHalfEven_cases x with ⟨-, -, h3⟩ | ⟨h1, -, -⟩
      · have := h3 (by rw [hfl]; push_cast; linarith)
        rw [hfl] at this; omega
      · rw [h1, hfl]; ring


theorem ulp_pos (q : ℚ) : 0 < ulp q := zpow_pos (by norm_num) _

theorem exponent_ge (q : ℚ) : -1022 ≤ exponent q := le_max_right _ _

theorem two_zpow_exponent_le (q : ℚ) (hq : q ≠ 0) (h : -1022 < exponent q) :
    (2 : ℚ) ^ exponent q ≤ |q| := by
  have hlog : exponent q = Int.log 2 |q| := by
    unfold exponent at h ⊢
    rcases max_cases (Int.log 2 |q|) (-1022) with ⟨h1, -⟩ | ⟨h1, -⟩
    · exact h1
    · rw [h1] at h; exact absurd h (lt_irrefl _)
  rw [hlog]
  have := Int.zpow_log_le_self (R := ℚ) (b := 2) (by norm_num) (abs_pos.mpr hq)
  simpa using this

theorem exponent_eq (q : ℚ) (e : ℤ) (he : -1022 ≤ e) (h1 : (2 : ℚ) ^ e ≤ |q|)
    (h2 : |q| < (2 : ℚ) ^ (e + 1)) : exponent q = e := by
  have hpos : 0 < |q| := lt_of_lt_of_le (zpow_pos (by norm_num) _) h1
  have hlog : Int.log 2 |q| = e := by
    apply le_antisymm
    · have := (Int.lt_zpow_iff_log_lt (R := ℚ) (b := 2) (by norm_num) (x := e + 1) hpos).1
        (by simpa using h2)
      omega
    · exact (Int.zpow_le_iff_le_log (R := ℚ) (b := 2) (by norm_num) hpos).1 (by simpa using h1)
  unfold exponent
  rw [hlog]
  exact max_eq_left he

theorem two_zpow_nonneg_eq (d : ℤ) (hd : 0 ≤ d) : ∃ z : ℤ, (2 : ℚ) ^ d = (z : ℚ) := by
  refine ⟨2 ^ d.toNat, ?_⟩
  obtain ⟨n, rfl⟩ := Int.eq_ofNat_of_zero_le hd
  rw [zpow_natCast]
  simp

theorem mul_ulp_sub (q : ℚ) (z : ℚ) : |z * ulp q - q| = |z - q / ulp q| * ulp q := by
  have hu := ulp_pos q
  rw [← abs_of_pos hu, ← abs_mul, abs_of_pos hu]
  congr 1
  field_simp

theorem round_grid (q : ℚ) (z : ℤ) :
    |(roundHalfEven (q / ulp q) : ℚ) * ulp q - q| ≤ |(z : ℚ) * ulp q - q| := by
  rw [mul_ulp_sub, mul_ulp_sub]
  exact mul_le_mul_of_nonneg_right (roundHalfEven_nearest _ z) (ulp_pos q).le

theorem round_fin (q : ℚ) (hq : |q| < 2 ^ 1000) :
    round q = .fin ((roundHalfEven (q / ulp q) : ℚ) * ulp q) := by
  have h0 := round_grid q 0
  simp only [Int.cast_zero, zero_mul, zero_sub, abs_neg] at h0
  have hw : |(roundHalfEven (q / ulp q) : ℚ) * ulp q| < 2 ^ 1024 := by
    have h1 : |(roundHalfEven (q / ulp q) : ℚ) * ulp q| ≤
        |(roundHalfEven (q / ulp q) : ℚ) * ulp q - q| + |q| := by
      have := abs_add ((roundHalfEven (q / ulp q) : ℚ) * ulp q - q) q
      simpa using this
    have h2 : (2 : ℚ) ^ 1000 + 2 ^ 1000 < 2 ^ 1024 := by norm_num
    linarith
  rw [abs_lt] at hw
  unfold round
  rw [if_neg (not_le.mpr hw.2), if_neg (not_le.mpr hw.1)]

theorem round_nearest (q : ℚ) (hq : |q| < 2 ^ 1000) (v : ℚ) (hv : Representable v) :
    |(roundHalfEven (q / ulp q) : ℚ) * ulp q - q| ≤ |v - q| := by
  obtain ⟨m, j, hm, hj, rfl⟩ := hv
  by_cases hq0 : q = 0
  · subst hq0
    have h0 := round_grid 0 0
    simp only [Int.cast_zero, zero_mul, sub_zero, abs_zero] at h0
    rw [sub_zero]
    exact le_trans h0 (abs_nonneg _)
  by_cases hje : exponent q - 52 ≤ j
  · obtain ⟨z, hz⟩ := two_zpow_nonneg_eq (j - (exponent q - 52)) (by omega)
    have hv : (m : ℚ) * 2 ^ j = ((m * z : ℤ) : ℚ) * ulp q := by
      have : j = (j - (exponent q - 52)) + (exponent q - 52) := by ring
      rw [ulp, Int.cast_mul, ← hz, mul_assoc, ← zpow_add₀ (by norm_num : (2 : ℚ) ≠ 0), ← this]
    rw [hv]
    exact round_grid q _
  · have hj1 : j + 53 ≤ exponent q := by omega
    have he : -1022 < exponent q := by omega
    have h2e := two_zpow_exponent_le q hq0 he
    have hmq : |(m : ℚ)| < 2 ^ (53 : ℤ) := by
      have : ((|m| : ℤ) : ℚ) < ((2 ^ 53 : ℤ) : ℚ) := by exact_mod_cast hm
      rw [Int.cast_abs] at this
      rw [show (2 : ℚ) ^ (53 : ℤ) = ((2 ^ 53 : ℤ) : ℚ) by norm_num]
      exact this
    have hvlt : |(m : ℚ) * 2 ^ j| < (2 : ℚ) ^ exponent q := by
      rw [abs_mul, abs_of_pos (zpow_pos (by norm_num : (0 : ℚ) < 2) j)]
      calc |(m : ℚ)| * 2 ^ j < 2 ^ (53 : ℤ) * 2 ^ j :=
            mul_lt_mul_of_pos_right hmq (zpow_pos (by norm_num) j)
        _ = 2 ^ (53 + j) := (zpow_add₀ (by norm_num) _ _).symm
        _ ≤ 2 ^ exponent q := zpow_le_zpow_right₀ (by norm_num) (by omega)
    have hpow : (2 : ℚ) ^ (52 : ℤ) * ulp q = 2 ^ exponent q := by
      rw [ulp, ← zpow_add₀ (by norm_num : (2 : ℚ) ≠ 0)]
      congr 1; ring
    have hv2 := abs_lt.mp hvlt
    rcases lt_or_gt_of_ne hq0 with hneg | hpos
    · have hg := round_grid q (-(2 ^ 52))
      have : ((-(2 ^ 52) : ℤ) : ℚ) * ulp q = -(2 : ℚ) ^ exponent q := by
        rw [← hpow]; push_cast; ring
      rw [this] at hg
      rw [abs_of_neg hneg] at h2e
      refine le_trans hg ?_
      rw [abs_of_nonneg (by linarith), abs_of_nonneg (by linarith)]
      linarith
    · have hg := round_grid q (2 ^ 52)
      have : ((2 ^ 52 : ℤ) : ℚ) * ulp q = (2 : ℚ) ^ exponent q := by
        rw [← hpow]; push_cast; ring
      rw [this] at hg
      rw [abs_of_pos hpos] at h2e
      refine le_trans hg ?_
      rw [abs_sub_comm, abs_of_nonneg (by linarith), abs_sub_comm, abs_of_nonneg (by linarith)]
      linarith


theorem roundHalfEven_half (x : ℚ) : |(roundHalfEven x : ℚ) - x| ≤ 1 / 2 := by
  have hf := Int.floor_le x
  have hl := Int.lt_floor_add_one x
  rcases roundHalfEven_cases x with ⟨h, h1, -⟩ | ⟨h, h1, -⟩
  · rw [h, abs_sub_comm, abs_of_nonneg (by linarith)]; exact h1
  · rw [h, Int.cast_add, Int.cast_one, abs_of_nonneg (by linarith)]; linarith

theorem round_spec (q : ℚ) (hq : |q| < 2 ^ 1000) :
    ∃ w : ℚ, round q = .fin w ∧ ∀ v, Representable v → |w - q| ≤ |v - q| :=
  ⟨_, round_fin q hq, fun v hv => round_nearest q hq v hv⟩

theorem representable_int (z : ℤ) (hz : |z| < 2 ^ 53) : Representable (z : ℚ) :=
  ⟨z, 0, hz, by norm_num, by simp⟩

theorem round_exact (v : ℚ) (hv : Representable v) (hlt : |v| < 2 ^ 1000) :
    round v = .fin v := by
  obtain ⟨w, hw, hn⟩ := round_spec v hlt
  have := hn v hv
  rw [sub_self, abs_zero] at this
  have h0 : w - v = 0 := abs_eq_zero.mp (le_antisymm this (abs_nonneg _))
  rw [hw, sub_eq_zero.mp h0]

theorem round_int (z : ℤ) (hz : |z| < 2 ^ 53) : round (z : ℚ) = .fin (z : ℚ) := by
  refine round_exact _ (representable_int z hz) ?_
  have h1 : ((|z| : ℤ) : ℚ) < ((2 ^ 53 : ℤ) : ℚ) := by exact_mod_cast hz
  rw [Int.cast_abs] at h1
  have h2 : (((2 : ℤ) ^ 53 : ℤ) : ℚ) < 2 ^ 1000 := by norm_num
  linarith

theorem round_of_exponent (q : ℚ) (e : ℤ) (he : -1022 ≤ e) (h1 : (2 : ℚ) ^ e ≤ |q|)
    (h2 : |q| < (2 : ℚ) ^ (e + 1)) (hq : |q| < 2 ^ 1000) :
    round q = .fin ((roundHalfEven (q / 2 ^ (e - 52)) : ℚ) * 2 ^ (e - 52)) := by
  rw [round_fin q hq, ulp, exponent_eq q e he h1 h2]

theorem round_close (q : ℚ) (h0 : 0 ≤ q) (t : ℕ) (ht : t ≤ 1074) (hq : q * 2 ^ t < 2 ^ 53) :
    ∃ w : ℚ, round q = .fin w ∧ 0 ≤ w ∧ |w - q| < 1 / 2 ^ t ∧
      ∀ v, Representable v → |w - q| ≤ |v - q| := by
  have hpos : (0 : ℚ) < 2 ^ t := by positivity
  have hone : (1 : ℚ) ≤ 2 ^ t := one_le_pow₀ (by norm_num)
  have hlt : |q| < 2 ^ 1000 := by
    rw [abs_of_nonneg h0]
    have h53 : (2 : ℚ) ^ 53 < 2 ^ 1000 := by norm_num
    nlinarith
  obtain ⟨w, hw, hn⟩ := round_spec q hlt
  refine ⟨w, hw, ?_, ?_, hn⟩
  · have := hn 0 (representable_int 0 (by norm_num))
    simp only [Int.cast_zero, zero_sub, abs_neg, abs_of_nonneg h0] at this
    have := (abs_le.mp this).1
    linarith
  · have hfl := Int.floor_le (q * 2 ^ t)
    have hfl2 := Int.lt_floor_add_one (q * 2 ^ t)
    have hm0 : 0 ≤ ⌊q * 2 ^ t⌋ := Int.floor_nonneg.mpr (mul_nonneg h0 hpos.le)
    have hm1 : ⌊q * 2 ^ t⌋ < 2 ^ 53 := by
      have : ((⌊q * 2 ^ t⌋ : ℤ) : ℚ) < ((2 ^ 53 : ℤ) : ℚ) := by
        push_cast; linarith
      exact_mod_cast this
    have hrep : Representable ((⌊q * 2 ^ t⌋ : ℚ) * 2 ^ (-(t : ℤ))) :=
      ⟨⌊q * 2 ^ t⌋, -(t : ℤ), by rw [abs_of_nonneg hm0]; exact hm1, by omega, rfl⟩
    have hinv : (2 : ℚ) ^ (-(t : ℤ)) = 1 / 2 ^ t := by
      rw [zpow_neg, zpow_natCast, one_div]
    have h := hn _ hrep
    rw [hinv] at h
    refine lt_of_le_of_lt h ?_
    rw [abs_sub_comm, abs_of_nonneg]
    · rw [mul_one_div, sub_lt_iff_lt_add, ← add_div, lt_div_iff₀ hpos]
      linarith
    · rw [mul_one_div, sub_nonneg, div_le_iff₀ hpos]
      exact hfl

theorem floor_stable (A D : ℤ) (hD : 0 < D) (hnd : ¬ D ∣ A) (w : ℚ)
    (hw : |w - (A : ℚ) / D| < 1 / D) : ⌊w⌋ = ⌊(A : ℚ) / D⌋ := by
  have hDq : (0 : ℚ) < D := by exact_mod_cast hD
  have hr0 : 0 < A % D := by
    have := Int.emod_nonneg A hD.ne.symm
    rcases this.lt_or_eq with h | h
    · exact h
    · exact absurd (Int.dvd_of_emod_eq_zero h.symm) hnd
  have hr1 : A % D < D := Int.emod_lt_of_pos A hD
  have hA : A = D * (A / D) + A % D := (Int.ediv_add_emod A D).symm
  have hAq : (A : ℚ) / D = (A / D : ℤ) + ((A % D : ℤ) : ℚ) / D := by
    have : ((A : ℤ) : ℚ) = ((D * (A / D) + A % D : ℤ) : ℚ) := by rw [← hA]
    rw [Int.cast_add, Int.cast_mul] at this
    rw [div_eq_iff hDq.ne.symm, add_mul, div_mul_cancel₀ _ hDq.ne.symm]
    linarith
  have hq0 : (1 : ℚ) ≤ (A % D : ℤ) := by exact_mod_cast hr0
  have hq1 : ((A % D : ℤ) : ℚ) ≤ D - 1 := by
    have : A % D ≤ D - 1 := by omega
    exact_mod_cast this
  have hfx : ⌊(A : ℚ) / D⌋ = A / D := by
    rw [Int.floor_eq_iff, hAq]
    constructor
    · have : (0 : ℚ) ≤ ((A % D : ℤ) : ℚ) / D := by positivity
      linarith
    · have : ((A % D : ℤ) : ℚ) / D < 1 := by
        rw [div_lt_one hDq]; linarith
      linarith
  rw [hfx, Int.floor_eq_iff]
  rw [hAq, abs_lt] at hw
  have e1 : ((A % D : ℤ) : ℚ) / D - 1 / D = (((A % D : ℤ) : ℚ) - 1) / D := by ring
  have e2 : ((A % D : ℤ) : ℚ) / D + 1 / D = (((A % D : ℤ) : ℚ) + 1) / D := by ring
  have h3 : (0 : ℚ) ≤ (((A % D : ℤ) : ℚ) - 1) / D := div_nonneg (by linarith) hDq.le
  have h4 : (((A % D : ℤ) : ℚ) + 1) / D ≤ 1 := by
    rw [div_le_one hDq]; linarith
  constructor <;> linarith [hw.1, hw.2]


theorem round_div_mul_core (k e P : ℤ) (he : -1000 ≤ e) (he2 : e ≤ 900) (hP : 20 ≤ P)
    (hP32 : 32 ∣ P)
    (hu : (2 : ℚ) ^ (e - 52) = 1 / P) (hu4 : (2 : ℚ) ^ (e + 4 - 52) = 16 / P)
    (hu5 : (2 : ℚ) ^ (e + 5 - 52) = 32 / P)
    (hq1 : (2 : ℚ) ^ e ≤ (k : ℚ) / 20) (hq2 : (k : ℚ) / 20 < 2 ^ (e + 1))
    (hk4 : (2 : ℚ) ^ (e + 4) + 1 ≤ k)
    (hk6 : (k : ℚ) + 1 ≤ 2 ^ (e + 5 + 1)) (hsmall : (k : ℚ) < 2 ^ 900) :
    ∃ w : ℚ, round ((k : ℚ) / 20) = .fin w ∧ round (w * 20) = .fin (k : ℚ) := by
  have hPq : (0 : ℚ) < P := by
    have : (0 : ℤ) < P := by omega
    exact_mod_cast this
  have hP20 : (20 : ℚ) ≤ P := by exact_mod_cast hP
  have hkpos : (0 : ℚ) < (k : ℚ) / 20 := lt_of_lt_of_le (zpow_pos (by norm_num) _) hq1
  have hk0 : (0 : ℚ) < k := by linarith
  have hr1 := round_of_exponent ((k : ℚ) / 20) e (by omega)
    (by rw [abs_of_pos hkpos]; exact hq1) (by rw [abs_of_pos hkpos]; exact hq2)
    (by rw [abs_of_pos hkpos]
        have : (2 : ℚ) ^ 900 < 2 ^ 1000 := by norm_num
        linarith)
  rw [hu] at hr1
  refine ⟨_, hr1, ?_⟩
  set n1 := roundHalfEven ((k : ℚ) / 20 / (1 / P)) with hn1
  have hhalf := roundHalfEven_half ((k : ℚ) / 20 / (1 / P))
  rw [← hn1] at hhalf
  have hx : (k : ℚ) / 20 / (1 / P) = (k : ℚ) * P / 20 := by field_simp
  rw [hx] at hhalf
  obtain ⟨P', hP'⟩ := hP32
  have hd : |20 * n1 - k * P| ≤ 10 := by
    have h1 : |((20 * n1 - k * P : ℤ) : ℚ)| ≤ 10 := by
      have : ((20 * n1 - k * P : ℤ) : ℚ) = 20 * ((n1 : ℚ) - k * P / 20) := by
        push_cast; ring
      rw [this, abs_mul, abs_of_pos (by norm_num : (0 : ℚ) < 20)]
      linarith
    rw [← Int.cast_abs] at h1
    exact_mod_cast h1
  obtain ⟨j, hj⟩ : ∃ j : ℤ, 20 * n1 - k * P = 4 * j := ⟨5 * n1 - 8 * k * P', by rw [hP']; ring⟩
  have hj2 : |j| ≤ 2 := by
    rw [hj] at hd
    rw [abs_le] at hd ⊢
    constructor <;> omega
  have hjq : |(j : ℚ)| ≤ 2 := by
    rw [← Int.cast_abs]; exact_mod_cast hj2
  have hy : (n1 : ℚ) * (1 / P) * 20 = k + 4 * j / P := by
    have : (20 * (n1 : ℚ) - k * P) = 4 * j := by exact_mod_cast congrArg (Int.cast (R := ℚ)) hj
    field_simp
    linarith
  rw [hy]
  have hjP : |4 * (j : ℚ) / P| ≤ 1 / 2 := by
    rw [abs_div, abs_mul, abs_of_pos hPq, abs_of_pos (by norm_num : (0 : ℚ) < 4),
      div_le_iff₀ hPq]
    linarith
  have hjP' := abs_le.mp hjP
  have hypos : (0 : ℚ) < k + 4 * j / P := by
    have : (1 : ℚ) ≤ k := by
      have := zpow_pos (by norm_num : (0 : ℚ) < 2) (e + 4)
      linarith
    linarith
  have hlt : |(k : ℚ) + 4 * j / P| < 2 ^ 1000 := by
    rw [abs_of_pos hypos]
    have : (2 : ℚ) ^ 900 + 1 < 2 ^ 1000 := by norm_num
    linarith
  have hPP : (P : ℚ) = 32 * P' := by exact_mod_cast congrArg (Int.cast (R := ℚ)) hP'
  have h45 : (2 : ℚ) ^ (e + 4 + 1) = 2 ^ (e + 5) := by congr 1; ring
  by_cases hcase : (2 : ℚ) ^ (e + 5) ≤ k + 4 * j / P
  · rw [round_of_exponent _ (e + 5) (by omega) (by rw [abs_of_pos hypos]; exact hcase)
      (by rw [abs_of_pos hypos]; linarith) hlt, hu5]
    have hz : roundHalfEven ((k + 4 * j / P) / (32 / P)) = k * P' := by
      apply roundHalfEven_eq_of_close
      have : ((k : ℚ) + 4 * j / P) / (32 / P) - ((k * P' : ℤ) : ℚ) = j / 8 := by
        push_cast
        rw [hPP]
        have hP'0 : (P' : ℚ) ≠ 0 := by
          intro h; rw [h, mul_zero] at hPP; linarith
        field_simp
        ring
      rw [this, abs_div, abs_of_pos (by norm_num : (0 : ℚ) < 8)]
      rw [div_lt_iff₀ (by norm_num)]
      linarith
    rw [hz]
    congr 1
    push_cast
    rw [hPP]
    have hP'0 : (P' : ℚ) ≠ 0 := by
      intro h; rw [h, mul_zero] at hPP; linarith
    field_simp
    ring
  · rw [not_le] at hcase
    rw [round_of_exponent _ (e + 4) (by omega) (by rw [abs_of_pos hypos]; linarith)
      (by rw [abs_of_pos hypos]; linarith) hlt, hu4]
    have hz : roundHalfEven ((k + 4 * j / P) / (16 / P)) = 2 * (k * P') := by
      apply roundHalfEven_tie _ _ (by omega)
      have : ((k : ℚ) + 4 * j / P) / (16 / P) - ((2 * (k * P') : ℤ) : ℚ) = j / 4 := by
        push_cast
        rw [hPP]
        have hP'0 : (P' : ℚ) ≠ 0 := by
          intro h; rw [h, mul_zero] at hPP; linarith
        field_simp
        ring
      rw [this, abs_div, abs_of_pos (by norm_num : (0 : ℚ) < 4)]
      rw [div_le_iff₀ (by norm_num)]
      linarith
    rw [hz]
    congr 1
    push_cast
    rw [hPP]
    have hP'0 : (P' : ℚ) ≠ 0 := by
      intro h; rw [h, mul_zero] at hPP; linarith
    field_simp
    ring

theorem round_div_mul_twenty (k : ℤ) (h1 : 21 ≤ k) (h2 : k ≤ 99) :
    ∃ w : ℚ, round ((k : ℚ) / 20) = .fin w ∧ round (w * 20) = .fin (k : ℚ) := by
  have hkq1 : (21 : ℚ) ≤ k := by exact_mod_cast h1
  have hkq2 : (k : ℚ) ≤ 99 := by exact_mod_cast h2
  have hc : (21 ≤ k ∧ k ≤ 39) ∨ (40 ≤ k ∧ k ≤ 79) ∨ (80 ≤ k ∧ k ≤ 99) := by omega
  rcases hc with ⟨a, b⟩ | ⟨a, b⟩ | ⟨a, b⟩
  · have a' : (21 : ℚ) ≤ k := by exact_mod_cast a
    have b' : (k : ℚ) ≤ 39 := by exact_mod_cast b
    refine round_div_mul_core k 0 (2 ^ 52) (by norm_num) (by norm_num) (by norm_num)
      (by norm_num) (by norm_num) (by norm_num) (by norm_num) ?_ ?_ ?_ ?_ ?_ <;>
      norm_num <;> linarith
  · have a' : (40 : ℚ) ≤ k := by exact_mod_cast a
    have b' : (k : ℚ) ≤ 79 := by exact_mod_cast b
    refine round_div_mul_core k 1 (2 ^ 51) (by norm_num) (by norm_num) (by norm_num)
      (by norm_num) (by norm_num) (by norm_num) (by norm_num) ?_ ?_ ?_ ?_ ?_ <;>
      norm_num <;> linarith
  · have a' : (80 : ℚ) ≤ k := by exact_mod_cast a
    have b' : (k : ℚ) ≤ 99 := by exact_mod_cast b
    refine round_div_mul_core k 2 (2 ^ 50) (by norm_num) (by norm_num) (by norm_num)
      (by norm_num) (by norm_num) (by norm_num) (by norm_num) ?_ ?_ ?_ ?_ ?_ <;>
      norm_num <;> linarith

end Binary64

/-! ## The platform score under binary64 arithmetic -/

namespace MoltbookBridge

open Binary64

theorem min_fin_int (a b : ℤ) :
    JsNum.min (.fin (a : ℚ)) (.fin (b : ℚ)) = .fin ((min a b : ℤ) : ℚ) := by
  rcases le_total a b with h | h
  · have hq : (a : ℚ) ≤ b := by exact_mod_cast h
    simp [JsNum.min, JsNum.le, hq, min_eq_left h]
  · have hq : (b : ℚ) ≤ a := by exact_mod_cast h
    rcases eq_or_lt_of_le h with h' | h'
    · subst h'; simp [JsNum.min, JsNum.le]
    · have hn : ¬ (a : ℚ) ≤ b := by
        rw [not_le]; exact_mod_cast h'
      simp [JsNum.min, JsNum.le, hn, min_eq_right h]

theorem max_fin_int (a b : ℤ) :
    JsNum.max (.fin (a : ℚ)) (.fin (b : ℚ)) = .fin ((max a b : ℤ) : ℚ) := by
  rcases le_total a b with h | h
  · have hq : (a : ℚ) ≤ b := by exact_mod_cast h
    simp [JsNum.max, JsNum.le, hq, max_eq_right h]
  · have hq : (b : ℚ) ≤ a := by exact_mod_cast h
    rcases eq_or_lt_of_le h with h' | h'
    · subst h'; simp [JsNum.max, JsNum.le]
    · have hn : ¬ (a : ℚ) ≤ b := by
        rw [not_le]; exact_mod_cast h'
      simp [JsNum.max, JsNum.le, hn, max_eq_left h]

theorem add_int (a b : ℤ) (h : |a + b| < 2 ^ 53) :
    Binary64.add (.fin (a : ℚ)) (.fin (b : ℚ)) = .fin ((a + b : ℤ) : ℚ) := by
  show Binary64.round ((a : ℚ) + b) = _
  rw [← Int.cast_add]
  exact round_int _ h

theorem followers_term (f : ℤ) (h0 : 0 ≤ f) (h1 : f < 2 ^ 53) :
    JsNum.floor (Binary64.mul (.fin (f : ℚ)) (.fin (1 / 2))) =
      .fin ((⌊(f : ℚ) / 2⌋ : ℤ) : ℚ) := by
  show JsNum.floor (Binary64.round ((f : ℚ) * (1 / 2))) = _
  have hrep : Representable ((f : ℚ) * (1 / 2)) :=
    ⟨f, -1, by rw [abs_of_nonneg h0]; exact h1, by norm_num, by norm_num⟩
  have hfq : (f : ℚ) < 2 ^ 53 := by exact_mod_cast h1
  have hf0 : (0 : ℚ) ≤ f := by exact_mod_cast h0
  have hlt : |(f : ℚ) * (1 / 2)| < 2 ^ 1000 := by
    rw [abs_of_nonneg (by positivity)]
    have : (2 : ℚ) ^ 53 < 2 ^ 1000 := by norm_num
    linarith
  rw [round_exact _ hrep hlt, mul_one_div]
  rfl

theorem posts_term (p : ℤ) (h0 : 0 ≤ p) (h1 : p ≤ 2 ^ 40) :
    JsNum.floor (Binary64.mul (.fin (p : ℚ)) (.fin literal_0_2)) =
      .fin ((⌊(p : ℚ) / 5⌋ : ℤ) : ℚ) := by
  show JsNum.floor (Binary64.round ((p : ℚ) * literal_0_2)) = _
  have hp0 : (0 : ℚ) ≤ p := by exact_mod_cast h0
  have hp1 : (p : ℚ) ≤ 2 ^ 40 := by exact_mod_cast h1
  have hx : (p : ℚ) * literal_0_2 = p / 5 + p / (5 * 2 ^ 54) := by
    unfold literal_0_2; ring
  have hk1 : 5 * (p / 5) ≤ p := by omega
  have hk2 : p ≤ 5 * (p / 5) + 4 := by omega
  have hkq1 : ((p / 5 : ℤ) : ℚ) ≤ p / 5 := by
    rw [le_div_iff₀ (by norm_num)]
    have : ((5 * (p / 5) : ℤ) : ℚ) ≤ p := by exact_mod_cast hk1
    push_cast at this; linarith
  have hkq2 : (p : ℚ) / 5 ≤ ((p / 5 : ℤ) : ℚ) + 4 / 5 := by
    rw [div_le_iff₀ (by norm_num)]
    have : (p : ℚ) ≤ ((5 * (p / 5) + 4 : ℤ) : ℚ) := by exact_mod_cast hk2
    push_cast at this; linarith
  have hk0 : 0 ≤ p / 5 := by omega
  have hk53 : p / 5 < 2 ^ 53 := by omega
  have hfloor : ⌊(p : ℚ) / 5⌋ = p / 5 := by
    rw [Int.floor_eq_iff]; constructor <;> linarith
  have hxlo : (p : ℚ) / 5 ≤ p * literal_0_2 := by
    rw [hx]
    have : (0 : ℚ) ≤ p / (5 * 2 ^ 54) := by positivity
    linarith
  have hxhi : (p : ℚ) * literal_0_2 ≤ p / 5 + 1 / 2 ^ 14 := by
    rw [hx, add_le_add_iff_left, div_le_div_iff₀ (by norm_num) (by norm_num)]
    norm_num at hp1 ⊢
    linarith
  obtain ⟨w, hw, -, hclose, hn⟩ := round_close ((p : ℚ) * literal_0_2) (by linarith) 14
    (by norm_num) (by
      have : (p : ℚ) / 5 ≤ 2 ^ 40 / 5 := by
        exact div_le_div_of_nonneg_right hp1 (by norm_num)
      norm_num at this hxhi ⊢
      linarith)
  have hlow := hn _ (representable_int (p / 5) (by rw [abs_of_nonneg hk0]; exact hk53))
  rw [abs_sub_comm ((p / 5 : ℤ) : ℚ), abs_of_nonneg (a := (p : ℚ) * literal_0_2 - _)
    (by linarith)] at hlow
  have hlow' := (abs_le.mp hlow).1
  have hup := (abs_lt.mp hclose).2
  rw [hw, hfloor]
  show JsNum.fin ((⌊w⌋ : ℤ) : ℚ) = _
  congr 2
  rw [Int.floor_eq_iff]
  constructor
  · linarith
  · norm_num at hup hxhi ⊢
    linarith

end MoltbookBridge

namespace MoltbookBridge

open Binary64

theorem age_term (a : ℤ) (h0 : 0 ≤ a) (h1 : a ≤ 2 ^ 45) :
    JsNum.floor (Binary64.mul (Binary64.div (.fin (a : ℚ)) (.fin (1000 * 60 * 60 * 24)))
        (.fin 2)) =
      .fin ((⌊(a : ℚ) / 86400000 * 2⌋ : ℤ) : ℚ) := by
  have hdiv : Binary64.div (.fin (a : ℚ)) (.fin (1000 * 60 * 60 * 24)) =
      Binary64.round ((a : ℚ) / 86400000) := by
    show (if (1000 * 60 * 60 * 24 : ℚ) = 0 then _ else _) = _
    rw [if_neg (by norm_num)]
    norm_num
  rw [hdiv]
  have ha0 : (0 : ℚ) ≤ a := by exact_mod_cast h0
  have ha1 : (a : ℚ) ≤ 2 ^ 45 := by exact_mod_cast h1
  have hx : (a : ℚ) / 86400000 * 2 = (a : ℚ) / ((43200000 : ℤ) : ℚ) := by
    push_cast; ring
  by_cases hd : (43200000 : ℤ) ∣ a
  · obtain ⟨K, rfl⟩ := hd
    have hK0 : 0 ≤ K := by omega
    have hK1 : K < 2 ^ 53 := by omega
    have hKq : (K : ℚ) < 2 ^ 53 := by exact_mod_cast hK1
    have hKq0 : (0 : ℚ) ≤ K := by exact_mod_cast hK0
    have hq : ((43200000 * K : ℤ) : ℚ) / 86400000 = (K : ℚ) * 2 ^ (-1 : ℤ) := by
      push_cast; norm_num; ring
    have hrep : Representable ((K : ℚ) * 2 ^ (-1 : ℤ)) :=
      ⟨K, -1, by rw [abs_of_nonneg hK0]; exact hK1, by norm_num, rfl⟩
    have hlt : |(K : ℚ) * 2 ^ (-1 : ℤ)| < 2 ^ 1000 := by
      rw [abs_of_nonneg (by positivity)]
      have : (2 : ℚ) ^ 53 < 2 ^ 1000 := by norm_num
      norm_num
      linarith
    have h2 : (K : ℚ) * 2 ^ (-1 : ℤ) * 2 = K := by
      rw [zpow_neg_one]; ring
    have hr : ⌊((43200000 * K : ℤ) : ℚ) / 86400000 * 2⌋ = K := by
      rw [hq, h2]; exact Int.floor_intCast K
    rw [hr, hq, round_exact _ hrep hlt]
    show JsNum.floor (Binary64.round ((K : ℚ) * 2 ^ (-1 : ℤ) * 2)) = _
    rw [h2, round_int K (by rw [abs_of_nonneg hK0]; exact hK1)]
    show JsNum.fin ((⌊(K : ℚ)⌋ : ℤ) : ℚ) = _
    rw [Int.floor_intCast]
  · have hq19 : (a : ℚ) / 86400000 ≤ 2 ^ 45 / 86400000 :=
      div_le_div_of_nonneg_right ha1 (by norm_num)
    obtain ⟨w1, hw1, hw1pos, hc1, -⟩ := round_close ((a : ℚ) / 86400000) (by positivity) 34
      (by norm_num) (by norm_num at hq19 ⊢; linarith)
    have hc1' := abs_lt.mp hc1
    obtain ⟨w2, hw2, -, hc2, -⟩ := round_close (w1 * 2) (by positivity) 33
      (by norm_num) (by norm_num at hq19 hc1' ⊢; linarith)
    rw [hw1]
    show JsNum.floor (Binary64.round (w1 * 2)) = _
    rw [hw2, hx]
    show JsNum.fin ((⌊w2⌋ : ℤ) : ℚ) = _
    congr 2
    apply floor_stable a 43200000 (by norm_num) hd
    have hc2' := abs_lt.mp hc2
    rw [abs_lt]
    norm_num at hc1' hc2' ⊢
    constructor <;> linarith

end MoltbookBridge

namespace MoltbookBridge

open Binary64

theorem ratio_term (f g : ℤ) (hg1 : 1 ≤ g) (hg2 : g ≤ 2 ^ 40) (hfg : g < f)
    (hf : f ≤ 2 ^ 40) :
    JsNum.min (.fin 100)
        (JsNum.floor (Binary64.mul (Binary64.div (.fin (f : ℚ)) (.fin (g : ℚ))) (.fin 20))) =
      .fin ((min 100 ⌊20 * (f : ℚ) / g⌋ : ℤ) : ℚ) := by
  have hgq1 : (1 : ℚ) ≤ g := by exact_mod_cast hg1
  have hgq2 : (g : ℚ) ≤ 2 ^ 40 := by exact_mod_cast hg2
  have hfq : (f : ℚ) ≤ 2 ^ 40 := by exact_mod_cast hf
  have hfgq : (g : ℚ) < f := by exact_mod_cast hfg
  have hgpos : (0 : ℚ) < g := by linarith
  have hdiv : Binary64.div (.fin (f : ℚ)) (.fin (g : ℚ)) = Binary64.round ((f : ℚ) / g) := by
    show (if (g : ℚ) = 0 then _ else _) = _
    rw [if_neg hgpos.ne.symm]
  have h100 : (100 : ℚ) = ((100 : ℤ) : ℚ) := by norm_num
  have hq1 : (1 : ℚ) < (f : ℚ) / g := by rw [lt_div_iff₀ hgpos]; linarith
  have hqf : (f : ℚ) / g ≤ f := div_le_self (by linarith) hgq1
  rw [hdiv, h100]
  by_cases hA : 5 * g ≤ f
  · have hAq : (5 : ℚ) * g ≤ f := by exact_mod_cast hA
    have hq5 : (5 : ℚ) ≤ (f : ℚ) / g := by rw [le_div_iff₀ hgpos]; exact hAq
    have hlt : |(f : ℚ) / g| < 2 ^ 1000 := by
      rw [abs_of_pos (by linarith)]
      have : (2 : ℚ) ^ 40 < 2 ^ 1000 := by norm_num
      linarith
    obtain ⟨w1, hw1, hn1⟩ := round_spec _ hlt
    have h5 := hn1 _ (representable_int 5 (by norm_num))
    rw [Int.cast_ofNat, abs_sub_comm (5 : ℚ), abs_of_nonneg (a := (f : ℚ) / g - 5)
      (by linarith)] at h5
    have h5' := abs_le.mp h5
    have hlt2 : |w1 * 20| < 2 ^ 1000 := by
      rw [abs_of_nonneg (by linarith)]
      have : (2 : ℚ) ^ 40 * 40 < 2 ^ 1000 := by norm_num
      linarith
    obtain ⟨w2, hw2, hn2⟩ := round_spec _ hlt2
    have h6 := hn2 _ (representable_int 100 (by norm_num))
    rw [Int.cast_ofNat, abs_sub_comm (100 : ℚ), abs_of_nonneg (a := w1 * 20 - 100)
      (by linarith)] at h6
    have h6' := abs_le.mp h6
    rw [hw1]
    show JsNum.min _ (JsNum.floor (Binary64.round (w1 * 20))) = _
    rw [hw2]
    show JsNum.min _ (.fin ((⌊w2⌋ : ℤ) : ℚ)) = _
    rw [min_fin_int]
    have e1 : (100 : ℤ) ≤ ⌊w2⌋ := Int.le_floor.mpr (by push_cast; linarith)
    have e2 : (100 : ℤ) ≤ ⌊20 * (f : ℚ) / g⌋ :=
      Int.le_floor.mpr (by
        push_cast
        rw [le_div_iff₀ hgpos]
        linarith)
    rw [min_eq_left e1, min_eq_left e2]
  · rw [not_le] at hA
    have hAq : (f : ℚ) < 5 * g := by exact_mod_cast hA
    have hq5 : (f : ℚ) / g < 5 := by rw [div_lt_iff₀ hgpos]; exact hAq
    by_cases hd : g ∣ 20 * f
    · obtain ⟨k, hk⟩ := hd
      have hk1 : 21 ≤ k := by
        by_contra hc
        have : k ≤ 20 := by omega
        nlinarith
      have hk2 : k ≤ 99 := by
        by_contra hc
        have : 100 ≤ k := by omega
        nlinarith
      have hkq : (20 : ℚ) * f = g * k := by exact_mod_cast congrArg (Int.cast (R := ℚ)) hk
      have hq : (f : ℚ) / g = (k : ℚ) / 20 := by
        rw [div_eq_div_iff hgpos.ne.symm (by norm_num)]
        linarith
      have hx : 20 * (f : ℚ) / g = k := by
        rw [hkq, mul_div_cancel_left₀ _ hgpos.ne.symm]
      obtain ⟨w, hw1, hw2⟩ := round_div_mul_twenty k hk1 hk2
      rw [hq, hw1]
      show JsNum.min _ (JsNum.floor (Binary64.round (w * 20))) = _
      rw [hw2, hx]
      show JsNum.min _ (.fin ((⌊(k : ℚ)⌋ : ℤ) : ℚ)) = _
      rw [min_fin_int]
    · obtain ⟨w1, hw1, hw1pos, hc1, -⟩ := round_close ((f : ℚ) / g) (by linarith) 50
        (by norm_num) (by norm_num; linarith)
      have hc1' := abs_lt.mp hc1
      obtain ⟨w2, hw2, -, hc2, -⟩ := round_close (w1 * 20) (by positivity) 46
        (by norm_num) (by norm_num at hc1' ⊢; linarith)
      have hc2' := abs_lt.mp hc2
      rw [hw1]
      show JsNum.min _ (JsNum.floor (Binary64.round (w1 * 20))) = _
      rw [hw2]
      show JsNum.min _ (.fin ((⌊w2⌋ : ℤ) : ℚ)) = _
      rw [min_fin_int]
      have hx : 20 * (f : ℚ) / g = ((20 * f : ℤ) : ℚ) / g := by push_cast; ring
      have hfl : ⌊w2⌋ = ⌊((20 * f : ℤ) : ℚ) / g⌋ := by
        apply floor_stable (20 * f) g (by omega) hd
        have hg40 : (1 : ℚ) / 2 ^ 40 ≤ 1 / g := one_div_le_one_div_of_le hgpos hgq2
        have hxe : ((20 * f : ℤ) : ℚ) / g = 20 * ((f : ℚ) / g) := by push_cast; ring
        rw [hxe, abs_lt]
        norm_num at hc1' hc2' hg40 ⊢
        constructor <;> linarith
      rw [hfl, hx]

end MoltbookBridge

namespace MoltbookBridge

open Binary64

theorem rawScore_assemble (base : JsRuntime) (agent : Agent) (ageDays : JsNum)
    (f g p t1 t2 t3 t4 : ℤ)
    (hf : agent.followers = JsVal.ofInt f) (hg : agent.following = JsVal.ofInt g)
    (hp : agent.posts = JsVal.ofInt p)
    (h1 : JsNum.min (.fin 200) (JsNum.floor (Binary64.mul ageDays (.fin 2))) = .fin (t1 : ℚ))
    (h2 : JsNum.min (.fin 300) (JsNum.floor (Binary64.mul (.fin (f : ℚ)) (.fin (1 / 2)))) =
      .fin (t2 : ℚ))
    (h3 : JsNum.min (.fin 200) (JsNum.floor (Binary64.mul (.fin (p : ℚ)) (.fin literal_0_2))) =
      .fin (t3 : ℚ))
    (h4 : g < f → 10 < f →
      JsNum.min (.fin 100) (JsNum.floor (Binary64.mul
        (Binary64.div (.fin (f : ℚ)) (.fin ((max 1 g : ℤ) : ℚ))) (.fin 20))) = .fin (t4 : ℚ))
    (b1 : 0 ≤ t1 ∧ t1 ≤ 200) (b2 : 0 ≤ t2 ∧ t2 ≤ 300) (b3 : 0 ≤ t3 ∧ t3 ≤ 200)
    (b4 : 0 ≤ t4 ∧ t4 ≤ 100) :
    rawScore (binary64 base) agent ageDays =
      .fin ((t1 + t2 + t3 + (if g < f ∧ 10 < f then t4 else 0)
        + (if agent.verified.truthy then 200 else 0) : ℤ) : ℚ) := by
  have hmax : JsNum.max (.fin 1) (.fin (g : ℚ)) = .fin ((max 1 g : ℤ) : ℚ) := by
    have := max_fin_int 1 g
    rwa [Int.cast_one] at this
  have hgt1 : JsVal.gt (binary64 base) (JsVal.ofInt f) (JsVal.ofInt g) = decide (g < f) := by
    simp [JsVal.gt, JsVal.lt, JsVal.ofInt, JsVal.toNumber, JsNum.lt]
  have hgt2 : JsVal.gt (binary64 base) (JsVal.ofInt f) (.num (.fin 10)) = decide (10 < f) := by
    have : ((10 : ℚ) < f) ↔ 10 < f := by exact_mod_cast Iff.rfl
    simp [JsVal.gt, JsVal.lt, JsVal.ofInt, JsVal.toNumber, JsNum.lt, this]
  have a1 : Binary64.add (.fin 0) (.fin (t1 : ℚ)) = .fin (t1 : ℚ) := by
    have := add_int 0 t1 (by rw [abs_lt]; constructor <;> omega)
    simpa using this
  have a2 : Binary64.add (.fin (t1 : ℚ)) (.fin (t2 : ℚ)) = .fin ((t1 + t2 : ℤ) : ℚ) :=
    add_int t1 t2 (by rw [abs_lt]; constructor <;> omega)
  have a3 : Binary64.add (.fin ((t1 + t2 : ℤ) : ℚ)) (.fin (t3 : ℚ)) =
      .fin ((t1 + t2 + t3 : ℤ) : ℚ) :=
    add_int (t1 + t2) t3 (by rw [abs_lt]; constructor <;> omega)
  have a4 : Binary64.add (.fin ((t1 + t2 + t3 : ℤ) : ℚ)) (.fin (t4 : ℚ)) =
      .fin ((t1 + t2 + t3 + t4 : ℤ) : ℚ) :=
    add_int (t1 + t2 + t3) t4 (by rw [abs_lt]; constructor <;> omega)
  have a5 : ∀ s : ℤ, 0 ≤ s → s ≤ 1000 →
      Binary64.add (.fin (s : ℚ)) (.fin 200) = .fin ((s + 200 : ℤ) : ℚ) := by
    intro s hs0 hs1
    have := add_int s 200 (by rw [abs_lt]; constructor <;> omega)
    simpa using this
  have ef : JsVal.toNumber (binary64 base) (JsVal.ofInt f) = .fin (f : ℚ) := rfl
  have eg : JsVal.toNumber (binary64 base) (JsVal.ofInt g) = .fin (g : ℚ) := rfl
  have ep : JsVal.toNumber (binary64 base) (JsVal.ofInt p) = .fin (p : ℚ) := rfl
  have eadd : (binary64 base).add = Binary64.add := rfl
  have emul : (binary64 base).mul = Binary64.mul := rfl
  have ediv : (binary64 base).div = Binary64.div := rfl
  by_cases hc : g < f ∧ 10 < f
  · have hc' : (decide (g < f) && decide (10 < f)) = true := by simp [hc.1, hc.2]
    simp only [rawScore, hf, hg, hp, hgt1, hgt2, ef, eg, ep, eadd, emul, ediv, h1, h2, h3, hmax,
      a1, a2, a3, hc', if_true, h4 hc.1 hc.2, a4, if_pos hc]
    split_ifs
    · rw [a5 _ (by omega) (by omega)]
    · rw [add_zero]
  · have hc' : (decide (g < f) && decide (10 < f)) = false := by
      rw [Bool.and_eq_false_iff]
      by_cases h : g < f
      · right
        have : ¬ 10 < f := fun h' => hc ⟨h, h'⟩
        simp [this]
      · left; simp [h]
    simp only [rawScore, hf, hg, hp, hgt1, hgt2, ef, eg, ep, eadd, emul, ediv, h1, h2, h3, hmax,
      a1, a2, a3, hc', Bool.false_eq_true, if_false, if_neg hc, add_zero]
    split_ifs
    · rw [a5 _ (by omega) (by omega)]
    · rw [add_zero]

end MoltbookBridge

namespace MoltbookBridge

open Binary64

theorem truthy_orElse_false (v : JsVal) : (v.orElse (.bool false)).truthy = v.truthy := by
  unfold JsVal.orElse
  cases h : v.truthy
  · rw [if_neg (by simp)]; rfl
  · rw [if_pos rfl]; exact h

theorem specScore_bounds (ageDays : ℚ) (f g p : ℤ) (verified : Bool) (ha : 0 ≤ ageDays)
    (hf : 0 ≤ f) (hp : 0 ≤ p) :
    0 ≤ specScore ageDays f g p verified ∧ specScore ageDays f g p verified ≤ 1000 := by
  have h1 : 0 ≤ ⌊ageDays * 2⌋ := Int.floor_nonneg.mpr (by positivity)
  have h2 : 0 ≤ ⌊(f : ℚ) / 2⌋ := Int.floor_nonneg.mpr (by positivity)
  have h3 : 0 ≤ ⌊(p : ℚ) / 5⌋ := Int.floor_nonneg.mpr (by positivity)
  have h4 : 0 ≤ ⌊20 * (f : ℚ) / ((max 1 g : ℤ) : ℚ)⌋ :=
    Int.floor_nonneg.mpr (by
      have : (0 : ℚ) ≤ ((max 1 g : ℤ) : ℚ) := by
        have : (0 : ℤ) ≤ max 1 g := le_trans (by norm_num) (le_max_left 1 g)
        exact_mod_cast this
      positivity)
  unfold specScore
  constructor
  · apply le_min (by norm_num)
    have : 0 ≤ (if f > g ∧ f > 10 then min 100 ⌊20 * (f : ℚ) / ((max 1 g : ℤ) : ℚ)⌋ else 0) := by
      split_ifs
      · exact le_min (by norm_num) h4
      · exact le_refl 0
    have : 0 ≤ (if verified = true then (200 : ℤ) else 0) := by split_ifs <;> norm_num
    have := le_min (by norm_num : (0 : ℤ) ≤ 200) h1
    have := le_min (by norm_num : (0 : ℤ) ≤ 300) h2
    have := le_min (by norm_num : (0 : ℤ) ≤ 200) h3
    omega
  · exact min_le_left _ _

end MoltbookBridge

namespace MoltbookBridge

open Binary64

theorem score_ok (R : JsRuntime) (data : ProfileData) (now : ℕ) :
    ∃ r, getReputationMetrics R (.ok data) now = .report r ∧
      r.score = JsNum.min (.fin 1000)
        (rawScore R
          { username := data.username
            displayName := data.displayName.orElse data.username
            bio := data.bio
            avatar := data.avatar
            createdAt := data.createdAt
            followers := data.followersCount.orElse (.num (.fin 0))
            following := data.followingCount.orElse (.num (.fin 0))
            posts := data.postsCount.orElse (.num (.fin 0))
            verified := data.verified.orElse (.bool false)
            platform := "moltbook" }
          (R.div (numSub R (.fin now) (R.dateGetTime data.createdAt))
            (.fin (1000 * 60 * 60 * 24)))) :=
  ⟨_, rfl, rfl⟩

/-- C9 (amended): under binary64 arithmetic, for every profile whose creation time lies at most
2^45 milliseconds before the clock and whose follower, following and post counts are integers
between 0 and 2^40, the score returned by getReputationMetrics equals
min(1000, min(200, floor(ageDays*2)) + min(300, floor(followers/2)) + min(200, floor(posts/5))
+ ratioBonus + verifiedBonus) computed exactly, where ageDays is the age in days,
ratioBonus = min(100, floor(20*followers/max(1,following))) if followers > following and
followers > 10 and otherwise 0, and verifiedBonus = 200 if the verified flag is truthy and
otherwise 0; the returned score lies in [0,1000]. -/
theorem getReputationMetrics_score_bounded (base : JsRuntime) (data : ProfileData) (now : ℕ)
    (c f g p : ℤ)
    (hc : base.dateGetTime data.createdAt = .fin (c : ℚ))
    (hf : data.followersCount = JsVal.ofInt f) (hg : data.followingCount = JsVal.ofInt g)
    (hp : data.postsCount = JsVal.ofInt p)
    (hage0 : c ≤ now) (hage1 : (now : ℤ) - c ≤ 2 ^ 45) (hnow : (now : ℤ) ≤ 2 ^ 53)
    (hc53 : |c| ≤ 2 ^ 53)
    (hf0 : 0 ≤ f) (hf1 : f ≤ 2 ^ 40) (hg1 : g ≤ 2 ^ 40)
    (hp0 : 0 ≤ p) (hp1 : p ≤ 2 ^ 40) :
    ∃ r, getReputationMetrics (binary64 base) (.ok data) now = .report r ∧
      r.score = .fin ((specScore ((((now : ℤ) - c : ℤ) : ℚ) / 86400000) f g p
        data.verified.truthy : ℤ) : ℚ) ∧
      0 ≤ specScore ((((now : ℤ) - c : ℤ) : ℚ) / 86400000) f g p data.verified.truthy ∧
      specScore ((((now : ℤ) - c : ℤ) : ℚ) / 86400000) f g p data.verified.truthy ≤ 1000 := by
  obtain ⟨r, hr, hscore⟩ := score_ok (binary64 base) data now
  have ha0 : (0 : ℤ) ≤ (now : ℤ) - c := by omega
  have haq : (0 : ℚ) ≤ (((now : ℤ) - c : ℤ) : ℚ) / 86400000 := by
    have : (0 : ℚ) ≤ (((now : ℤ) - c : ℤ) : ℚ) := by exact_mod_cast ha0
    positivity
  have hb := specScore_bounds ((((now : ℤ) - c : ℤ) : ℚ) / 86400000) f g p
    data.verified.truthy haq hf0 hp0
  refine ⟨r, hr, ?_, hb.1, hb.2⟩
  rw [hscore]
  have hsub : numSub (binary64 base) (.fin now) ((binary64 base).dateGetTime data.createdAt) =
      .fin (((now : ℤ) - c : ℤ) : ℚ) := by
    have h := ReputationRoutes.numSub_int (binary64 base) (now : ℤ) c
      (by rw [abs_of_nonneg (by omega)]; exact hnow) hc53
      (by rw [abs_of_nonneg ha0]; omega)
    rw [Int.cast_natCast] at h
    rw [show (binary64 base).dateGetTime data.createdAt = .fin (c : ℚ) from hc]
    exact h
  have ediv : (binary64 base).div = Binary64.div := rfl
  rw [hsub, ediv]
  have h200 : (200 : ℚ) = ((200 : ℤ) : ℚ) := by norm_num
  have h300 : (300 : ℚ) = ((300 : ℤ) : ℚ) := by norm_num
  have hfl1 : 0 ≤ ⌊(((now : ℤ) - c : ℤ) : ℚ) / 86400000 * 2⌋ :=
    Int.floor_nonneg.mpr (by positivity)
  have hfl2 : 0 ≤ ⌊(f : ℚ) / 2⌋ := Int.floor_nonneg.mpr (by
    have : (0 : ℚ) ≤ f := by exact_mod_cast hf0
    positivity)
  have hfl3 : 0 ≤ ⌊(p : ℚ) / 5⌋ := Int.floor_nonneg.mpr (by
    have : (0 : ℚ) ≤ p := by exact_mod_cast hp0
    positivity)
  have hmax1 : 1 ≤ max 1 g := le_max_left 1 g
  have hmax2 : max 1 g ≤ 2 ^ 40 := max_le (by norm_num) hg1
  have hfl4 : 0 ≤ ⌊20 * (f : ℚ) / ((max 1 g : ℤ) : ℚ)⌋ := Int.floor_nonneg.mpr (by
    have : (0 : ℚ) ≤ f := by exact_mod_cast hf0
    have : (0 : ℚ) ≤ ((max 1 g : ℤ) : ℚ) := by
      have : (0 : ℤ) ≤ max 1 g := by omega
      exact_mod_cast this
    positivity)
  rw [rawScore_assemble base _ _ f g p
    (min 200 ⌊(((now : ℤ) - c : ℤ) : ℚ) / 86400000 * 2⌋)
    (min 300 ⌊(f : ℚ) / 2⌋) (min 200 ⌊(p : ℚ) / 5⌋)
    (min 100 ⌊20 * (f : ℚ) / ((max 1 g : ℤ) : ℚ)⌋)
    (by show (JsVal.orElse _ _) = _; rw [hf]; exact ReputationRoutes.orElse_fin _)
    (by show (JsVal.orElse _ _) = _; rw [hg]; exact ReputationRoutes.orElse_fin _)
    (by show (JsVal.orElse _ _) = _; rw [hp]; exact ReputationRoutes.orElse_fin _)
    (by rw [age_term _ ha0 hage1, h200, min_fin_int])
    (by rw [followers_term f hf0 (by omega), h300, min_fin_int])
    (by rw [posts_term p hp0 hp1, h200, min_fin_int])
    (fun h1 h2 => ratio_term f (max 1 g) hmax1 hmax2 (max_lt (by omega) h1) hf1)
    ⟨le_min (by norm_num) hfl1, min_le_left _ _⟩
    ⟨le_min (by norm_num) hfl2, min_le_left _ _⟩
    ⟨le_min (by norm_num) hfl3, min_le_left _ _⟩
    ⟨le_min (by norm_num) hfl4, min_le_left _ _⟩]
  have h1000 : (1000 : ℚ) = ((1000 : ℤ) : ℚ) := by norm_num
  rw [h1000, min_fin_int]
  show JsNum.fin _ = JsNum.fin _
  congr 2
  unfold specScore
  simp only [truthy_orElse_false, gt_iff_lt]

end MoltbookBridge

namespace MoltbookBridge

open Binary64

theorem orElse_ofInt (z : ℤ) :
    (JsVal.ofInt z).orElse (.num (.fin 0)) = JsVal.ofInt z :=
  ReputationRoutes.orElse_fin _

theorem ratio_rounding :
    JsNum.min (.fin 100) (JsNum.floor (Binary64.mul
      (Binary64.div (.fin ((8269779706318700 : ℤ) : ℚ))
        (.fin ((max 1 2041920915140420 : ℤ) : ℚ))) (.fin 20))) = .fin ((81 : ℤ) : ℚ) := by
  have hmax : ((max 1 2041920915140420 : ℤ) : ℚ) = 2041920915140420 := by norm_num
  have hdiv : Binary64.div (.fin ((8269779706318700 : ℤ) : ℚ))
      (.fin ((max 1 2041920915140420 : ℤ) : ℚ)) =
      Binary64.round ((8269779706318700 : ℚ) / 2041920915140420) := by
    rw [hmax]
    simp only [Binary64.div]
    rw [if_neg (by norm_num)]
    norm_num
  have hq : |(8269779706318700 : ℚ) / 2041920915140420| = 8269779706318700 / 2041920915140420 :=
    abs_of_pos (by norm_num)
  have hr1 : Binary64.round ((8269779706318700 : ℚ) / 2041920915140420) =
      .fin ((4559894622712627 : ℤ) * 2 ^ ((2 : ℤ) - 52)) := by
    rw [round_of_exponent _ 2 (by norm_num) (by rw [hq]; norm_num) (by rw [hq]; norm_num)
      (by rw [hq]; norm_num)]
    rw [roundHalfEven_eq_of_close _ 4559894622712627
      (by rw [abs_lt]; constructor <;> norm_num)]
  have hy : |((4559894622712627 : ℤ) : ℚ) * 2 ^ ((2 : ℤ) - 52) * 20| =
      ((4559894622712627 : ℤ) : ℚ) * 2 ^ ((2 : ℤ) - 52) * 20 :=
    abs_of_pos (by norm_num)
  have hr2 : Binary64.round (((4559894622712627 : ℤ) : ℚ) * 2 ^ ((2 : ℤ) - 52) * 20) =
      .fin ((81 : ℤ) : ℚ) := by
    rw [round_of_exponent _ 6 (by norm_num) (by rw [hy]; norm_num) (by rw [hy]; norm_num)
      (by rw [hy]; norm_num)]
    rw [roundHalfEven_eq_of_close _ 5699868278390784
      (by rw [abs_lt]; constructor <;> norm_num)]
    norm_num
  rw [hdiv, hr1]
  show JsNum.min _ (JsNum.floor (Binary64.round _)) = _
  rw [hr2]
  show JsNum.min _ (.fin ((⌊((81 : ℤ) : ℚ)⌋ : ℤ) : ℚ)) = _
  rw [Int.floor_intCast, show (100 : ℚ) = ((100 : ℤ) : ℚ) by norm_num, min_fin_int]
  rfl

/-- Counterexample for C9: for a profile created at the clock reading, with 8269779706318700
followers, 2041920915140420 following, no posts and no verified flag, the score returned under
binary64 arithmetic is 381 (the rounded quotient times 20 rounds to 81), whereas the formula
computed exactly gives 380. -/
theorem getReputationMetrics_score_rounding :
    (∃ r, getReputationMetrics (binary64 witnessRuntime)
        (.ok (profileOf 0 8269779706318700 2041920915140420 0)) 0 = .report r ∧
      r.score = .fin 381) ∧
    specScore 0 8269779706318700 2041920915140420 0 false = 380 := by
  constructor
  · obtain ⟨r, hr, hscore⟩ := score_ok (binary64 witnessRuntime)
      (profileOf 0 8269779706318700 2041920915140420 0) 0
    refine ⟨r, hr, ?_⟩
    rw [hscore]
    have hsub : numSub (binary64 witnessRuntime) (.fin ((0 : ℕ) : ℚ))
        ((binary64 witnessRuntime).dateGetTime
          (profileOf 0 8269779706318700 2041920915140420 0).createdAt) =
        .fin (((0 : ℤ) : ℤ) : ℚ) := by
      have h := ReputationRoutes.numSub_int (binary64 witnessRuntime) 0 0 (by norm_num)
        (by norm_num) (by norm_num)
      have hd : (binary64 witnessRuntime).dateGetTime
          (profileOf 0 8269779706318700 2041920915140420 0).createdAt = .fin ((0 : ℤ) : ℚ) := by
        show (if ((0 : ℤ) : ℚ).isInt then JsNum.fin ((0 : ℤ) : ℚ) else JsNum.nan) = _
        rw [if_pos (by simp [Rat.isInt])]
      rw [hd, Nat.cast_zero]
      simpa using h
    have ediv : (binary64 witnessRuntime).div = Binary64.div := rfl
    rw [hsub, ediv]
    have h200 : (200 : ℚ) = ((200 : ℤ) : ℚ) := by norm_num
    have h300 : (300 : ℚ) = ((300 : ℤ) : ℚ) := by norm_num
    rw [rawScore_assemble witnessRuntime _ _ 8269779706318700 2041920915140420 0 0 300 0 81
      (orElse_ofInt 8269779706318700) (orElse_ofInt 2041920915140420) (orElse_ofInt 0)
      (by rw [age_term 0 (le_refl 0) (by norm_num), h200, min_fin_int]; norm_num)
      (by rw [followers_term _ (by norm_num) (by norm_num), h300, min_fin_int]; norm_num)
      (by rw [posts_term 0 (le_refl 0) (by norm_num), h200, min_fin_int]; norm_num)
      (fun _ _ => ratio_rounding)
      (by norm_num) (by norm_num) (by norm_num) (by norm_num)]
    have hv : (JsVal.orElse (profileOf 0 8269779706318700 2041920915140420 0).verified
        (.bool false)).truthy = false := rfl
    simp only [hv]
    norm_num [JsNum.min, JsNum.le]
  · norm_num [specScore]

end MoltbookBridge

namespace MoltbookBridge

/-- Witness for C9 (amended): a profile created 10 days before the clock, with 100 followers,
20 following and 50 posts, not verified, scores 20 + 50 + 10 + 100 = 180. -/
theorem getReputationMetrics_score_bounded_witness :
    ∃ r, getReputationMetrics (binary64 witnessRuntime) (.ok (profileOf 0 100 20 50))
        864000000 = .report r ∧ r.score = .fin 180 := by
  obtain ⟨r, hr, hs, -, -⟩ := getReputationMetrics_score_bounded witnessRuntime
    (profileOf 0 100 20 50) 864000000 0 100 20 50
    (by
      show (if ((0 : ℤ) : ℚ).isInt then JsNum.fin ((0 : ℤ) : ℚ) else JsNum.nan) = _
      rw [if_pos (by simp [Rat.isInt])])
    rfl rfl rfl (by norm_num) (by norm_num) (by norm_num) (by norm_num) (by norm_num)
    (by norm_num) (by norm_num) (by norm_num) (by norm_num)
  refine ⟨r, hr, ?_⟩
  rw [hs]
  norm_num [specScore, profileOf, JsVal.truthy]

end MoltbookBridge

end ClawMark
